import Mathlib

/-!
FTDI USB serial adapter driver (sys/dev/usb/serial/uftdi.c)

A shallow embedding of the protocol engine of the uftdi driver: device
profile setup, baud rate encoding, output framing, input parsing, status
tracking, reconfiguration and the ioctl path, followed by theorems about
these definitions.

Machine integers are natural numbers; a reduction modulo a power of two is
written wherever the C type can wrap.  Functions that return an `int` status
and write through a pointer return the status paired with the updated record.
-/

namespace Uftdi

/-! ## Constants of uftdi.c -/

def UFTDI_IBUFSIZE : Nat := 2048
def UFTDI_IHDRSIZE : Nat := 2
def UFTDI_OBUFSIZE : Nat := 2048
def UFTDI_OPKTSIZE : Nat := 64

def DEVT_SIO : Nat := 0
def DEVT_232A : Nat := 1
def DEVT_232B : Nat := 2
def DEVT_2232D : Nat := 3
def DEVT_232R : Nat := 4
def DEVT_2232H : Nat := 5
def DEVT_4232H : Nat := 6
def DEVT_232H : Nat := 7
def DEVT_230X : Nat := 8

def DEVF_BAUDBITS_HINDEX : Nat := 0x01
def DEVF_BAUDCLK_12M : Nat := 0x02

/-- Modelled from the spec: errno.h is absent from the sources; this is the
distinct "unreachable speed" error value (ERANGE, 34 on FreeBSD). -/
def ERANGE : Nat := 34

/-- Truncation to `uint8_t`. -/
def u8 (x : Nat) : Nat := x % 256
/-- Truncation to `uint16_t`. -/
def u16 (x : Nat) : Nat := x % 65536
/-- Truncation to `uint32_t`. -/
def u32 (x : Nat) : Nat := x % 4294967296
/-- Truncation to `uint64_t`. -/
def u64 (x : Nat) : Nat := x % 18446744073709551616

/-! ## Data model -/

/-- A page cache of a transfer frame: the byte stored at each offset. -/
abbrev PageCache := Nat → Nat

/-- The parts of `struct ucom_softc` the driver reads or that stand for the
tty layer behind it: the port number, the pending output bytes, the bytes
delivered to the tty layer and the number of status change notifications. -/
structure ucom_softc where
  sc_portno : Nat
  outq : List Nat
  inq : List Nat
  status_changes : Nat
deriving DecidableEq, Repr

/-- The fields of `struct uftdi_softc` used by the protocol engine. -/
structure uftdi_softc where
  sc_ucom : ucom_softc
  sc_last_lcr : Nat
  sc_bcdDevice : Nat
  sc_devtype : Nat
  sc_devflags : Nat
  sc_hdrlen : Nat
  sc_msr : Nat
  sc_lsr : Nat
deriving DecidableEq, Repr

/-- The record `struct uftdi_param_config`. -/
structure uftdi_param_config where
  baud_lobits : Nat
  baud_hibits : Nat
  lcr : Nat
  v_start : Nat
  v_stop : Nat
  v_flow : Nat
deriving DecidableEq, Repr

/-- A softc as `device_get_softc` hands it to attach: all fields zero. -/
def softc_zero : uftdi_softc :=
  { sc_ucom := { sc_portno := 0, outq := [], inq := [], status_changes := 0 },
    sc_last_lcr := 0, sc_bcdDevice := 0, sc_devtype := 0, sc_devflags := 0,
    sc_hdrlen := 0, sc_msr := 0, sc_lsr := 0 }

/-- A zeroed configuration record (`memset(cfg, 0, sizeof(*cfg))`). -/
def cfg_zero : uftdi_param_config :=
  { baud_lobits := 0, baud_hibits := 0, lcr := 0, v_start := 0, v_stop := 0, v_flow := 0 }

/-! ## Device profile -/

/-- The function `uftdi_devtype_setup`.  `pit_sioa` is the constant
`FTDI_PIT_SIOA` of uftdi_reg.h, `bcdDevice` and `bIfaceNum` come from the
attach arguments and `iSerialNumber` from the device descriptor.  The result
carries the softc and whether the "unknown device type" warning was printed. -/
def uftdi_devtype_setup (pit_sioa : Nat) (sc : uftdi_softc)
    (bcdDevice iSerialNumber bIfaceNum : Nat) : uftdi_softc × Bool :=
  let sc := { sc with sc_bcdDevice := bcdDevice }
  let port (sc : uftdi_softc) (p : Nat) : uftdi_softc :=
    { sc with sc_ucom := { sc.sc_ucom with sc_portno := u16 p } }
  if bcdDevice = 0x200 then
    let sc := if iSerialNumber = 0 then { sc with sc_devtype := DEVT_232B }
      else { sc with sc_devtype := DEVT_232A }
    (port sc 0, false)
  else if bcdDevice = 0x400 then
    (port { sc with sc_devtype := DEVT_232B } 0, false)
  else if bcdDevice = 0x500 then
    let sc := { sc with sc_devtype := DEVT_2232D }
    let sc := { sc with sc_devflags := u8 (sc.sc_devflags ||| DEVF_BAUDBITS_HINDEX) }
    (port sc (pit_sioa + bIfaceNum), false)
  else if bcdDevice = 0x600 then
    (port { sc with sc_devtype := DEVT_232R } 0, false)
  else if bcdDevice = 0x700 then
    let sc := { sc with sc_devtype := DEVT_2232H }
    let sc := { sc with
      sc_devflags := u8 (sc.sc_devflags ||| (DEVF_BAUDBITS_HINDEX ||| DEVF_BAUDCLK_12M)) }
    (port sc (pit_sioa + bIfaceNum), false)
  else if bcdDevice = 0x800 then
    let sc := { sc with sc_devtype := DEVT_4232H }
    let sc := { sc with
      sc_devflags := u8 (sc.sc_devflags ||| (DEVF_BAUDBITS_HINDEX ||| DEVF_BAUDCLK_12M)) }
    (port sc (pit_sioa + bIfaceNum), false)
  else if bcdDevice = 0x900 then
    let sc := { sc with sc_devtype := DEVT_232H }
    let sc := { sc with
      sc_devflags := u8 (sc.sc_devflags ||| (DEVF_BAUDBITS_HINDEX ||| DEVF_BAUDCLK_12M)) }
    (port sc (pit_sioa + bIfaceNum), false)
  else if bcdDevice = 0x1000 then
    let sc := { sc with sc_devtype := DEVT_230X }
    let sc := { sc with sc_devflags := u8 (sc.sc_devflags ||| DEVF_BAUDBITS_HINDEX) }
    (port sc (pit_sioa + bIfaceNum), false)
  else if bcdDevice < 0x200 then
    let sc := { sc with sc_devtype := DEVT_SIO }
    let sc := { sc with sc_hdrlen := 1 }
    (port sc 0, false)
  else
    (port { sc with sc_devtype := DEVT_232R } 0, true)

/-! ## Baud rate encoding -/

/-- The function `uftdi_baud_within_tolerance`, on `uint64_t` operands. -/
def uftdi_baud_within_tolerance (speed target : Nat) : Bool :=
  decide (speed ≥ u64 (target * 100) / 103) && decide (speed ≤ u64 (target * 100) / 97)

/-- The table `sio_speeds` of `uftdi_sio_encode_baudrate`. -/
def sio_speeds : List Nat :=
  [300, 600, 1200, 2400, 4800, 9600, 19200, 38400, 57600, 115200]

/-- The `for` loop of `uftdi_sio_encode_baudrate`, from index `i` over the
remaining table entries. -/
def uftdi_sio_encode_loop (speed : Nat) (cfg : uftdi_param_config) :
    Nat → List Nat → Nat × uftdi_param_config
  | _, [] => (ERANGE, cfg)
  | i, s :: rest =>
    if speed = s then
      let cfg := { cfg with baud_lobits := u16 i }
      let cfg := { cfg with baud_hibits := 0 }
      (0, cfg)
    else uftdi_sio_encode_loop speed cfg (i + 1) rest

/-- The function `uftdi_sio_encode_baudrate`. -/
def uftdi_sio_encode_baudrate (_sc : uftdi_softc) (speed : Nat)
    (cfg : uftdi_param_config) : Nat × uftdi_param_config :=
  uftdi_sio_encode_loop speed cfg 0 sio_speeds

/-- The table `encoded_fraction` of `uftdi_encode_baudrate`. -/
def encoded_fraction : List Nat := [0, 3, 2, 4, 1, 5, 6, 7]

/-- The table `roundoff_232a` of `uftdi_encode_baudrate`.  The array has
element type `uint8_t`, so the initialisers -1, -2 and -3 are stored as 255,
254 and 253. -/
def roundoff_232a : List Nat :=
  [0, 1, 0, 1, 0, u8 (256 - 1), 2, 1,
   0, u8 (256 - 1), u8 (256 - 2), u8 (256 - 3), 4, 3, 2, 1]

/-- The function `uftdi_encode_baudrate`. -/
def uftdi_encode_baudrate (sc : uftdi_softc) (speed : Nat)
    (cfg : uftdi_param_config) : Nat × uftdi_param_config :=
  let fast : Bool := decide (sc.sc_devflags &&& DEVF_BAUDCLK_12M ≠ 0) && decide (speed ≥ 1200)
  let clk : Nat := if fast then 12000000 else 3000000
  let fastclk_flag : Nat := if fast then 1 <<< 17 else 0
  if speed < (clk >>> 14) ∨ speed > clk then (ERANGE, cfg)
  else
    let divisor : Nat := u32 (clk <<< 4) / speed
    let divisor : Nat :=
      if divisor &&& 0xf = 1 then divisor &&& 0xfffffff8
      else if sc.sc_devtype = DEVT_232A then
        u32 (divisor + roundoff_232a.getD (divisor &&& 0x0f) 0)
      else u32 (divisor + 1)
    let divisor : Nat := divisor >>> 1
    let hwspeed : Nat := u32 (clk <<< 3) / divisor
    if ¬ uftdi_baud_within_tolerance hwspeed speed then (ERANGE, cfg)
    else
      let frac : Nat := divisor &&& 0x07
      let divisor : Nat := divisor >>> 3
      let frac' : Nat := if divisor = 1 then (if frac = 0 then frac else 0) else frac
      let divisor : Nat := if divisor = 1 then (if frac = 0 then 0 else divisor) else divisor
      let divisor : Nat := divisor ||| (u32 (encoded_fraction.getD frac' 0 <<< 14) ||| fastclk_flag)
      let cfg := { cfg with baud_lobits := u16 divisor }
      let cfg := { cfg with baud_hibits := u16 (divisor >>> 16) }
      let cfg := if sc.sc_devflags &&& DEVF_BAUDBITS_HINDEX ≠ 0
        then { cfg with baud_hibits := u16 (cfg.baud_hibits <<< 8) } else cfg
      (0, cfg)

/-! ### The intermediate values of `uftdi_encode_baudrate` -/

/-- Whether `uftdi_encode_baudrate` selects the 12 MHz clock. -/
def baud_fast (sc : uftdi_softc) (speed : Nat) : Bool :=
  decide (sc.sc_devflags &&& DEVF_BAUDCLK_12M ≠ 0) && decide (speed ≥ 1200)

/-- The value of `clk` in `uftdi_encode_baudrate`. -/
def baud_clk (sc : uftdi_softc) (speed : Nat) : Nat :=
  if baud_fast sc speed then 12000000 else 3000000

/-- The value of `fastclk_flag` in `uftdi_encode_baudrate`. -/
def baud_fastclk_flag (sc : uftdi_softc) (speed : Nat) : Nat :=
  if baud_fast sc speed then 1 <<< 17 else 0

/-- The value of `divisor` right after `divisor = (clk << 4) / speed`. -/
def baud_div16 (sc : uftdi_softc) (speed : Nat) : Nat :=
  u32 (baud_clk sc speed <<< 4) / speed

/-- The value of `divisor` after rounding and `divisor >>= 1`: the divisor in
eighths. -/
def baud_div8 (sc : uftdi_softc) (speed : Nat) : Nat :=
  let divisor := baud_div16 sc speed
  (if divisor &&& 0xf = 1 then divisor &&& 0xfffffff8
   else if sc.sc_devtype = DEVT_232A then
     u32 (divisor + roundoff_232a.getD (divisor &&& 0x0f) 0)
   else u32 (divisor + 1)) >>> 1

/-- The value of `hwspeed` in `uftdi_encode_baudrate`. -/
def baud_hwspeed (sc : uftdi_softc) (speed : Nat) : Nat :=
  u32 (baud_clk sc speed <<< 3) / baud_div8 sc speed

/-- The value of `divisor` after the re-packing step, before it is split into
the two 16-bit halves. -/
def baud_pack (sc : uftdi_softc) (speed : Nat) : Nat :=
  let d8 := baud_div8 sc speed
  let frac := d8 &&& 0x07
  let divisor := d8 >>> 3
  let frac' := if divisor = 1 then (if frac = 0 then frac else 0) else frac
  let divisor := if divisor = 1 then (if frac = 0 then 0 else divisor) else divisor
  divisor ||| (u32 (encoded_fraction.getD frac' 0 <<< 14) ||| baud_fastclk_flag sc speed)

/-- The configuration `uftdi_encode_baudrate` writes when it accepts. -/
def baud_cfg (sc : uftdi_softc) (speed : Nat) (cfg : uftdi_param_config) :
    uftdi_param_config :=
  let cfg := { cfg with baud_lobits := u16 (baud_pack sc speed) }
  let cfg := { cfg with baud_hibits := u16 (baud_pack sc speed >>> 16) }
  if sc.sc_devflags &&& DEVF_BAUDBITS_HINDEX ≠ 0
    then { cfg with baud_hibits := u16 (cfg.baud_hibits <<< 8) } else cfg

/-- The 32-bit packed divisor a configuration carries: the low half in
`baud_lobits`, the high half in `baud_hibits`, found in its high byte on
devices with `DEVF_BAUDBITS_HINDEX`. -/
def baud_packed (sc : uftdi_softc) (cfg : uftdi_param_config) : Nat :=
  cfg.baud_lobits + 65536 *
    (if sc.sc_devflags &&& DEVF_BAUDBITS_HINDEX ≠ 0 then cfg.baud_hibits >>> 8
     else cfg.baud_hibits)

/-- The speed the chip generates from a packed divisor: the integral divisor
is the low 14 bits, the fraction in eighths is the position in
`encoded_fraction` of bits 14..16, the clock is 12 MHz when bit 17 is set and
3 MHz otherwise; integral 0 with fraction 0 means 1.0 and integral 1 with
fraction 0 means 1.5. -/
def decode_hwspeed (packed : Nat) : Nat :=
  let integral := packed % 16384
  let frac := encoded_fraction.indexOf ((packed >>> 14) % 8)
  let clk := if (packed >>> 17) % 2 = 1 then 12000000 else 3000000
  let d8 := if integral = 0 ∧ frac = 0 then 8
    else if integral = 1 ∧ frac = 0 then 12
    else integral * 8 + frac
  clk * 8 / d8

/-! ## Transfers and the collaborators of the callbacks -/

/-- The state `USB_GET_STATE` reports to a transfer callback; every value
other than setup and transferred is the error case. -/
inductive usb_state where
  | USB_ST_SETUP
  | USB_ST_TRANSFERRED
  | USB_ST_ERROR
deriving DecidableEq, Repr

/-- The parts of `struct usb_xfer` the callbacks use: the buffer of frame 0,
the length set for frame 0, the actual length of the completed transfer, the
maximum transfer length, the endpoint's maximum packet size, the number of
times the transfer was submitted, and whether a stall was requested. -/
structure usb_xfer where
  frame : PageCache
  frame_len : Nat
  actlen : Nat
  max_len : Nat
  max_packet_size : Nat
  submits : Nat
  stall : Bool

/-- The constants and accessors of uftdi_reg.h and sys/serial.h the read
callback uses; the headers are not part of the sources, so the callback takes
them as a parameter. -/
structure uftdi_reg where
  FTDI_GET_MSR : List Nat → Nat
  FTDI_GET_LSR : List Nat → Nat
  FTDI_SIO_CTS_MASK : Nat
  FTDI_SIO_DSR_MASK : Nat
  FTDI_SIO_RI_MASK : Nat
  FTDI_SIO_RLSD_MASK : Nat
  FTDI_LSR_MASK : Nat
  SER_CTS : Nat
  SER_DSR : Nat
  SER_RI : Nat
  SER_DCD : Nat

/-- One concrete choice of the register constants, for evaluating the
callbacks on concrete buffers: modem status in the first header byte, line
status in the second. -/
def reg_sample : uftdi_reg :=
  { FTDI_GET_MSR := fun p => p.getD 0 0 &&& 0xf0,
    FTDI_GET_LSR := fun p => p.getD 1 0,
    FTDI_SIO_CTS_MASK := 0x10, FTDI_SIO_DSR_MASK := 0x20,
    FTDI_SIO_RI_MASK := 0x40, FTDI_SIO_RLSD_MASK := 0x80,
    FTDI_LSR_MASK := 0x1e,
    SER_CTS := 0x10, SER_DCD := 0x20, SER_RI := 0x40, SER_DSR := 0x80 }

/-- One concrete choice of the macro `FTDI_OUT_TAG` of uftdi_reg.h: the length
in the upper six bits, the port in the lower two. -/
def out_tag_sample (len port : Nat) : Nat := (len <<< 2) ||| port

/-- Modelled from the spec: `usbd_copy_in` of the USB stack is absent; it
stores the given bytes into the buffer starting at `offset`. -/
def usbd_copy_in (pc : PageCache) (offset : Nat) (data : List Nat) : PageCache :=
  fun i => if offset ≤ i ∧ i < offset + data.length then data.getD (i - offset) 0 else pc i

/-- Modelled from the spec: `usbd_copy_out` of the USB stack is absent; it
reads `len` bytes of the buffer starting at `offset`. -/
def usbd_copy_out (pc : PageCache) (offset len : Nat) : List Nat :=
  (List.range len).map (fun i => pc (offset + i))

/-- Modelled from the spec: `ucom_get_data` of usb_serial.c is absent; it
takes up to `len` pending output bytes, copies them into the buffer at
`offset`, reports how many it took, and returns non-zero exactly when it took
at least one.  The result is (return value, ucom, buffer, actual length). -/
def ucom_get_data (ucom : ucom_softc) (pc : PageCache) (offset len : Nat) :
    Nat × ucom_softc × PageCache × Nat :=
  let data := ucom.outq.take len
  (if data.length = 0 then 0 else 1, { ucom with outq := ucom.outq.drop len },
    usbd_copy_in pc offset data, data.length)

/-- Modelled from the spec: `ucom_put_data` of usb_serial.c is absent; it
forwards `len` bytes of the buffer at `offset` to the byte-stream consumer. -/
def ucom_put_data (ucom : ucom_softc) (pc : PageCache) (offset len : Nat) : ucom_softc :=
  { ucom with inq := ucom.inq ++ usbd_copy_out pc offset len }

/-- Modelled from the spec: `ucom_status_change` of usb_serial.c is absent; it
delivers one status-changed notification to the consumer. -/
def ucom_status_change (ucom : ucom_softc) : ucom_softc :=
  { ucom with status_changes := ucom.status_changes + 1 }

/-- Modelled from the spec: `usbd_xfer_set_stall` of the USB stack is absent;
it requests that a stall be cleared before the next transfer. -/
def usbd_xfer_set_stall (xfer : usb_xfer) : usb_xfer := { xfer with stall := true }

/-- Modelled from the spec: `usbd_xfer_set_frame_len` (for frame 0) of the USB
stack is absent; it records the length of the frame. -/
def usbd_xfer_set_frame_len (xfer : usb_xfer) (len : Nat) : usb_xfer :=
  { xfer with frame_len := len }

/-- Modelled from the spec: `usbd_transfer_submit` of the USB stack is absent;
it hands the transfer to the controller. -/
def usbd_transfer_submit (xfer : usb_xfer) : usb_xfer :=
  { xfer with submits := xfer.submits + 1 }

/-! ## Output framing -/

/-- The `while` loop of `uftdi_write_callback` (headered framing), with the
values of `sc->sc_ucom`, the frame buffer and `buflen` as loop state.  `tag`
is the macro `FTDI_OUT_TAG`.  Each iteration costs one unit of fuel. -/
def uftdi_write_loop (tag : Nat → Nat → Nat) (sc : uftdi_softc) :
    Nat → ucom_softc → PageCache → Nat → Option (ucom_softc × PageCache × Nat)
  | 0, _, _, _ => none
  | fuel + 1, ucom, pc, buflen =>
    if buflen < UFTDI_OBUFSIZE - sc.sc_hdrlen - 1 then
      let r := ucom_get_data ucom pc (u32 (buflen + sc.sc_hdrlen))
        (u32 (4294967296 + UFTDI_OPKTSIZE - sc.sc_hdrlen))
      let pktlen := r.2.2.2
      if r.1 ≠ 0 then
        let buf := [u8 (tag pktlen r.2.1.sc_portno)]
        let pc := usbd_copy_in r.2.2.1 buflen buf
        uftdi_write_loop tag sc fuel r.2.1 pc (u32 (buflen + (pktlen + sc.sc_hdrlen)))
      else some (r.2.1, r.2.2.1, buflen)
    else some (ucom, pc, buflen)

/-- The function `uftdi_write_callback`.  `cancelled` says whether the error
is `USB_ERR_CANCELLED`.  The headered loop gets `UFTDI_OBUFSIZE` units of
fuel; the result is `none` only if that is not enough. -/
def uftdi_write_callback (tag : Nat → Nat → Nat) (sc : uftdi_softc) (xfer : usb_xfer)
    (st : usb_state) (cancelled : Bool) : Option (uftdi_softc × usb_xfer) :=
  let xfer := if st = usb_state.USB_ST_ERROR ∧ cancelled = false
    then usbd_xfer_set_stall xfer else xfer
  let pc := xfer.frame
  if sc.sc_hdrlen = 0 then
    let r := ucom_get_data sc.sc_ucom pc 0 UFTDI_OBUFSIZE
    let sc := { sc with sc_ucom := r.2.1 }
    let xfer := { xfer with frame := r.2.2.1 }
    let buflen := r.2.2.2
    if r.1 = 0 then some (sc, xfer)
    else if buflen ≠ 0 then
      some (sc, usbd_transfer_submit (usbd_xfer_set_frame_len xfer buflen))
    else some (sc, xfer)
  else
    match uftdi_write_loop tag sc UFTDI_OBUFSIZE sc.sc_ucom pc 0 with
    | none => none
    | some (ucom, pc, buflen) =>
      let sc := { sc with sc_ucom := ucom }
      let xfer := { xfer with frame := pc }
      if buflen ≠ 0 then
        some (sc, usbd_transfer_submit (usbd_xfer_set_frame_len xfer buflen))
      else some (sc, xfer)

/-- A pending byte stream cut into consecutive payload chunks of 63 bytes,
the last one possibly shorter. -/
def out_chunks (pending : List Nat) : List (List Nat) :=
  if pending = [] then []
  else pending.take 63 :: out_chunks (pending.drop 63)
termination_by pending.length
decreasing_by
  rename_i h
  have := List.length_pos.mpr h
  simp only [List.length_drop]
  omega

/-- The framed form of a pending byte stream under headered framing: the
stream cut into chunks of 63 bytes, each chunk preceded by the header byte
built from its length and the port number. -/
def headered_frame (tag : Nat → Nat → Nat) (port : Nat) (pending : List Nat) : List Nat :=
  ((out_chunks pending).map (fun c => u8 (tag c.length port) :: c)).flatten

/-! ## Input parsing and status tracking -/

/-- The `while` loop of `uftdi_read_callback`, with `sc->sc_ucom`, `lsr`,
`msr`, `offset`, `buflen` and the header `buf` as loop state; `pktmax` is the
unsigned value `min` receives.  Each iteration costs one unit of fuel. -/
def uftdi_read_loop (reg : uftdi_reg) (pc : PageCache) (pktmax : Nat) :
    Nat → ucom_softc → Nat → Nat → Nat → Nat → List Nat →
      Option (ucom_softc × Nat × Nat × List Nat)
  | 0, _, _, _, _, _, _ => none
  | fuel + 1, ucom, lsr, msr, offset, buflen, buf =>
    if buflen ≥ UFTDI_IHDRSIZE then
      let buf := usbd_copy_out pc offset UFTDI_IHDRSIZE
      let offset := offset + UFTDI_IHDRSIZE
      let buflen := buflen - UFTDI_IHDRSIZE
      let lsr := u8 (lsr ||| reg.FTDI_GET_LSR buf)
      let msr := if reg.FTDI_GET_MSR buf &&& reg.FTDI_SIO_RI_MASK ≠ 0
        then u8 (msr ||| reg.SER_RI) else msr
      let pktlen := min buflen pktmax
      if pktlen ≠ 0 then
        uftdi_read_loop reg pc pktmax fuel (ucom_put_data ucom pc offset pktlen) lsr msr
          (offset + pktlen) (buflen - pktlen) buf
      else uftdi_read_loop reg pc pktmax fuel ucom lsr msr offset buflen buf
    else some (ucom, lsr, msr, buf)

/-- The modem status `uftdi_read_callback` computes after its loop, from the
RI bit accumulated in `msr` and the last header `buf`. -/
def uftdi_read_msr (reg : uftdi_reg) (msr : Nat) (buf : List Nat) : Nat :=
  let ftdi_msr := u8 (reg.FTDI_GET_MSR buf)
  let msr := if ftdi_msr &&& reg.FTDI_SIO_CTS_MASK ≠ 0 then u8 (msr ||| reg.SER_CTS) else msr
  let msr := if ftdi_msr &&& reg.FTDI_SIO_DSR_MASK ≠ 0 then u8 (msr ||| reg.SER_DSR) else msr
  let msr := if ftdi_msr &&& reg.FTDI_SIO_RI_MASK ≠ 0 then u8 (msr ||| reg.SER_RI) else msr
  let msr := if ftdi_msr &&& reg.FTDI_SIO_RLSD_MASK ≠ 0 then u8 (msr ||| reg.SER_DCD) else msr
  msr

/-- The status tracking at the end of the transferred case of
`uftdi_read_callback`. -/
def uftdi_read_status (reg : uftdi_reg) (sc : uftdi_softc) (msr lsr : Nat) : uftdi_softc :=
  if sc.sc_msr ≠ msr ∨ sc.sc_lsr &&& reg.FTDI_LSR_MASK ≠ lsr &&& reg.FTDI_LSR_MASK then
    let sc := { sc with sc_msr := msr }
    let sc := { sc with sc_lsr := lsr }
    { sc with sc_ucom := ucom_status_change sc.sc_ucom }
  else sc

/-- The label `tr_setup` of `uftdi_read_callback`. -/
def uftdi_read_tr_setup (xfer : usb_xfer) : usb_xfer :=
  usbd_transfer_submit (usbd_xfer_set_frame_len xfer xfer.max_len)

/-- The unsigned value of `pktmax = xfer->max_packet_size - UFTDI_IHDRSIZE`
as the kernel's `min` (on `u_int`) receives it. -/
def uftdi_pktmax (xfer : usb_xfer) : Nat :=
  u32 (4294967296 + xfer.max_packet_size - UFTDI_IHDRSIZE)

/-- The function `uftdi_read_callback`.  `cancelled` says whether the error
is `USB_ERR_CANCELLED`.  The packet loop gets `buflen + 1` units of fuel; the
result is `none` only if that is not enough. -/
def uftdi_read_callback (reg : uftdi_reg) (sc : uftdi_softc) (xfer : usb_xfer)
    (st : usb_state) (cancelled : Bool) : Option (uftdi_softc × usb_xfer) :=
  let buflen := xfer.actlen
  match st with
  | usb_state.USB_ST_TRANSFERRED =>
    if buflen < UFTDI_IHDRSIZE then some (sc, uftdi_read_tr_setup xfer)
    else
      match uftdi_read_loop reg xfer.frame (uftdi_pktmax xfer) (buflen + 1) sc.sc_ucom
          0 0 0 buflen [0, 0] with
      | none => none
      | some (ucom, lsr, msr, buf) =>
        let sc := { sc with sc_ucom := ucom }
        let msr := uftdi_read_msr reg msr buf
        some (uftdi_read_status reg sc msr lsr, uftdi_read_tr_setup xfer)
  | usb_state.USB_ST_SETUP => some (sc, uftdi_read_tr_setup xfer)
  | usb_state.USB_ST_ERROR =>
    if cancelled = false then some (sc, uftdi_read_tr_setup (usbd_xfer_set_stall xfer))
    else some (sc, xfer)

/-- The modem and line status the read callback computes from a completed
buffer, as a pair (modem bits, line-status bits). -/
def read_computed (reg : uftdi_reg) (xfer : usb_xfer) : Option (Nat × Nat) :=
  match uftdi_read_loop reg xfer.frame (uftdi_pktmax xfer) (xfer.actlen + 1)
      softc_zero.sc_ucom 0 0 0 xfer.actlen [0, 0] with
  | none => none
  | some (_, lsr, msr, buf) => some (uftdi_read_msr reg msr buf, lsr)

/-- The read callback run over a sequence of completed transfers; the result
lists, per buffer, the number of status change notifications it emitted. -/
def read_run (reg : uftdi_reg) : uftdi_softc → List usb_xfer → Option (List Nat)
  | _, [] => some []
  | sc, x :: xs =>
    match uftdi_read_callback reg sc x usb_state.USB_ST_TRANSFERRED false with
    | none => none
    | some (sc', _) =>
      match read_run reg sc' xs with
      | none => none
      | some ns => some ((sc'.sc_ucom.status_changes - sc.sc_ucom.status_changes) :: ns)

/-- A completed transfer holding the given bytes, on an endpoint with maximum
packet size `m`. -/
def xfer_of (bytes : List Nat) (m : Nat) : usb_xfer :=
  { frame := fun i => bytes.getD i 0, frame_len := 0, actlen := bytes.length,
    max_len := UFTDI_IBUFSIZE, max_packet_size := m, submits := 0, stall := false }

/-- An idle write transfer with a zeroed buffer. -/
def xfer_idle : usb_xfer :=
  { frame := fun _ => 0, frame_len := 0, actlen := 0, max_len := UFTDI_OBUFSIZE,
    max_packet_size := 64, submits := 0, stall := false }

/-- A 232B device, as `uftdi_devtype_setup` sets it up for revision code
0x400: no capability flags, 3 MHz clock. -/
def softc_232b : uftdi_softc := (uftdi_devtype_setup 1 softc_zero 0x400 0 0).1

/-- A fixed-table (SIO) device, as `uftdi_devtype_setup` sets it up for
revision code 0x100, with the given bytes pending for output. -/
def softc_sio (pending : List Nat) : uftdi_softc :=
  { (uftdi_devtype_setup 1 softc_zero 0x100 0 0).1 with
    sc_ucom := { sc_portno := 0, outq := pending, inq := [], status_changes := 0 } }

/-- The modem bits the specification gives for a buffer with two headers
`A` and `B`: CTS, DSR and DCD from header `B`, RI when `A` or `B` has the RI
bit (for `B` tested in the loop on the macro value and after it on the
`uint8_t` copy), truncated to `uint8_t`. -/
def spec_two_header_msr (reg : uftdi_reg) (A B : List Nat) : Nat :=
  u8 ((if reg.FTDI_GET_MSR A &&& reg.FTDI_SIO_RI_MASK ≠ 0 ∨
          reg.FTDI_GET_MSR B &&& reg.FTDI_SIO_RI_MASK ≠ 0 ∨
          u8 (reg.FTDI_GET_MSR B) &&& reg.FTDI_SIO_RI_MASK ≠ 0 then reg.SER_RI else 0) |||
      (if u8 (reg.FTDI_GET_MSR B) &&& reg.FTDI_SIO_CTS_MASK ≠ 0 then reg.SER_CTS else 0) |||
      (if u8 (reg.FTDI_GET_MSR B) &&& reg.FTDI_SIO_DSR_MASK ≠ 0 then reg.SER_DSR else 0) |||
      (if u8 (reg.FTDI_GET_MSR B) &&& reg.FTDI_SIO_RLSD_MASK ≠ 0 then reg.SER_DCD else 0))

/-- The line status the specification gives for a buffer with two headers:
the bitwise or of both headers' line-status bits, truncated to `uint8_t`. -/
def spec_two_header_lsr (reg : uftdi_reg) (A B : List Nat) : Nat :=
  u8 (reg.FTDI_GET_LSR A ||| reg.FTDI_GET_LSR B)

/-! ## Line configuration and control requests -/

/-- The fields of `struct termios` that `uftdi_set_parm_soft` reads: the input
and control flag words, the control characters and the output speed. -/
structure termios where
  c_iflag : Nat
  c_cflag : Nat
  c_cc : Nat → Nat
  c_ospeed : Nat

/-- The constants of sys/termios.h that `uftdi_set_parm_soft` uses; the
header is not part of the sources, so the function takes them as a
parameter. -/
structure tty_consts where
  CSTOPB : Nat
  PARENB : Nat
  PARODD : Nat
  CSIZE : Nat
  CS5 : Nat
  CS6 : Nat
  CS7 : Nat
  CS8 : Nat
  CRTSCTS : Nat
  IXON : Nat
  IXOFF : Nat
  VSTART : Nat
  VSTOP : Nat

/-- The request constants of uftdi_reg.h and usb.h that the configuration
functions use; the headers are not part of the sources, so the functions take
them as a parameter. -/
structure ftdi_sio where
  UT_WRITE_VENDOR_DEVICE : Nat
  FTDI_SIO_SET_BAUD_RATE : Nat
  FTDI_SIO_SET_DATA : Nat
  FTDI_SIO_SET_FLOW_CTRL : Nat
  FTDI_SIO_SET_DATA_STOP_BITS_1 : Nat
  FTDI_SIO_SET_DATA_STOP_BITS_2 : Nat
  FTDI_SIO_SET_DATA_PARITY_NONE : Nat
  FTDI_SIO_SET_DATA_PARITY_ODD : Nat
  FTDI_SIO_SET_DATA_PARITY_EVEN : Nat
  FTDI_SIO_SET_DATA_BITS : Nat → Nat
  FTDI_SIO_SET_BREAK : Nat
  FTDI_SIO_DISABLE_FLOW_CTRL : Nat
  FTDI_SIO_RTS_CTS_HS : Nat
  FTDI_SIO_XON_XOFF_HS : Nat

/-- One concrete choice of the termios constants, for evaluating the
configuration functions on concrete settings. -/
def tty_sample : tty_consts :=
  { CSTOPB := 0x400, PARENB := 0x1000, PARODD := 0x2000, CSIZE := 0x300,
    CS5 := 0x000, CS6 := 0x100, CS7 := 0x200, CS8 := 0x300,
    CRTSCTS := 0x30000, IXON := 0x200, IXOFF := 0x400, VSTART := 12, VSTOP := 13 }

/-- One concrete choice of the request constants, for evaluating the
configuration functions on concrete settings. -/
def sio_sample : ftdi_sio :=
  { UT_WRITE_VENDOR_DEVICE := 0x40, FTDI_SIO_SET_BAUD_RATE := 3, FTDI_SIO_SET_DATA := 4,
    FTDI_SIO_SET_FLOW_CTRL := 2,
    FTDI_SIO_SET_DATA_STOP_BITS_1 := 0x0000, FTDI_SIO_SET_DATA_STOP_BITS_2 := 0x1000,
    FTDI_SIO_SET_DATA_PARITY_NONE := 0x000, FTDI_SIO_SET_DATA_PARITY_ODD := 0x100,
    FTDI_SIO_SET_DATA_PARITY_EVEN := 0x200,
    FTDI_SIO_SET_DATA_BITS := fun n => n,
    FTDI_SIO_SET_BREAK := 0x4000,
    FTDI_SIO_DISABLE_FLOW_CTRL := 0, FTDI_SIO_RTS_CTS_HS := 1, FTDI_SIO_XON_XOFF_HS := 4 }

/-- A termios record with the given flag words and output speed and the
control characters XON (0x11) at index 12 and XOFF (0x13) at index 13. -/
def termios_of (iflag cflag ospeed : Nat) : termios :=
  { c_iflag := iflag, c_cflag := cflag, c_ospeed := ospeed,
    c_cc := fun i => if i = 12 then 0x11 else if i = 13 then 0x13 else 0 }

/-- The baud encoder `uftdi_set_parm_soft` calls: the fixed-table one for
`DEVT_SIO`, the divisor one for every other device type. -/
def uftdi_encode_dispatch (sc : uftdi_softc) (speed : Nat) (cfg : uftdi_param_config) :
    Nat × uftdi_param_config :=
  if sc.sc_devtype = DEVT_SIO then uftdi_sio_encode_baudrate sc speed cfg
  else uftdi_encode_baudrate sc speed cfg

/-- The function `uftdi_set_parm_soft`.  The configuration passed in is
overwritten by the `memset` before anything reads it. -/
def uftdi_set_parm_soft (tc : tty_consts) (fs : ftdi_sio) (sc : uftdi_softc) (t : termios)
    (_cfg : uftdi_param_config) : Nat × uftdi_param_config :=
  let cfg := cfg_zero
  let r := uftdi_encode_dispatch sc t.c_ospeed cfg
  let err := r.1
  let cfg := r.2
  if err ≠ 0 then (err, cfg)
  else
    let cfg := if t.c_cflag &&& tc.CSTOPB ≠ 0
      then { cfg with lcr := u16 fs.FTDI_SIO_SET_DATA_STOP_BITS_2 }
      else { cfg with lcr := u16 fs.FTDI_SIO_SET_DATA_STOP_BITS_1 }
    let cfg := if t.c_cflag &&& tc.PARENB ≠ 0 then
        (if t.c_cflag &&& tc.PARODD ≠ 0
          then { cfg with lcr := u16 (cfg.lcr ||| fs.FTDI_SIO_SET_DATA_PARITY_ODD) }
          else { cfg with lcr := u16 (cfg.lcr ||| fs.FTDI_SIO_SET_DATA_PARITY_EVEN) })
      else { cfg with lcr := u16 (cfg.lcr ||| fs.FTDI_SIO_SET_DATA_PARITY_NONE) }
    let cs := t.c_cflag &&& tc.CSIZE
    let cfg :=
      if cs = tc.CS5 then { cfg with lcr := u16 (cfg.lcr ||| fs.FTDI_SIO_SET_DATA_BITS 5) }
      else if cs = tc.CS6 then { cfg with lcr := u16 (cfg.lcr ||| fs.FTDI_SIO_SET_DATA_BITS 6) }
      else if cs = tc.CS7 then { cfg with lcr := u16 (cfg.lcr ||| fs.FTDI_SIO_SET_DATA_BITS 7) }
      else if cs = tc.CS8 then { cfg with lcr := u16 (cfg.lcr ||| fs.FTDI_SIO_SET_DATA_BITS 8) }
      else cfg
    let cfg :=
      if t.c_cflag &&& tc.CRTSCTS ≠ 0 then { cfg with v_flow := u8 fs.FTDI_SIO_RTS_CTS_HS }
      else if t.c_iflag &&& (tc.IXON ||| tc.IXOFF) ≠ 0 then
        let cfg := { cfg with v_flow := u8 fs.FTDI_SIO_XON_XOFF_HS }
        let cfg := { cfg with v_start := u8 (t.c_cc tc.VSTART) }
        { cfg with v_stop := u8 (t.c_cc tc.VSTOP) }
      else { cfg with v_flow := u8 fs.FTDI_SIO_DISABLE_FLOW_CTRL }
    (0, cfg)

/-- The function `uftdi_pre_param`; its local configuration record is
uninitialised when it is handed to `uftdi_set_parm_soft`. -/
def uftdi_pre_param (tc : tty_consts) (fs : ftdi_sio) (sc : uftdi_softc) (t : termios)
    (cfg_local : uftdi_param_config) : Nat :=
  (uftdi_set_parm_soft tc fs sc t cfg_local).1

/-- A `struct usb_device_request` with its 16-bit fields as numbers. -/
structure usb_device_request where
  bmRequestType : Nat
  bRequest : Nat
  wValue : Nat
  wIndex : Nat
  wLength : Nat
deriving DecidableEq, Repr

/-- Modelled from the spec: the macro `USETW` of usb_endian.h is absent; it
stores a 16-bit value into a request field. -/
def USETW (v : Nat) : Nat := u16 v

/-- The bit pattern of `~m` for a 32-bit `int` operand. -/
def bitnot32 (m : Nat) : Nat := 4294967295 - u32 m

/-- The function `uftdi_cfg_set_break`.  The result is the softc and the list
of requests handed to `ucom_cfg_do_request`. -/
def uftdi_cfg_set_break (fs : ftdi_sio) (sc : uftdi_softc) (onoff : Nat) :
    uftdi_softc × List usb_device_request :=
  let wIndex := u16 sc.sc_ucom.sc_portno
  let sc := if onoff ≠ 0
    then { sc with sc_last_lcr := u16 (sc.sc_last_lcr ||| fs.FTDI_SIO_SET_BREAK) }
    else { sc with sc_last_lcr := u16 (sc.sc_last_lcr &&& bitnot32 fs.FTDI_SIO_SET_BREAK) }
  let wValue := sc.sc_last_lcr
  let req : usb_device_request :=
    { bmRequestType := u8 fs.UT_WRITE_VENDOR_DEVICE, bRequest := u8 fs.FTDI_SIO_SET_DATA,
      wValue := USETW wValue, wIndex := USETW wIndex, wLength := USETW 0 }
  (sc, [req])

/-- A 2232H device, as `uftdi_devtype_setup` sets it up for revision code
0x700 on interface 0: baud bits in the high index byte, 12 MHz clock. -/
def softc_2232h : uftdi_softc := (uftdi_devtype_setup 1 softc_zero 0x700 0 0).1

/-- A 232B device whose remembered line control word is `lcr`. -/
def softc_lcr (lcr : Nat) : uftdi_softc := { softc_232b with sc_last_lcr := lcr }

/-! ## Further values and specification-side definitions -/

/-- The value of `divisor` in `uftdi_encode_baudrate` right before it is
combined with the fraction code: the integral part of the divisor in eighths,
with 1.0 re-encoded as 0. -/
def baud_integral (sc : uftdi_softc) (speed : Nat) : Nat :=
  if baud_div8 sc speed >>> 3 = 1 then (if baud_div8 sc speed &&& 0x07 = 0 then 0 else 1)
  else baud_div8 sc speed >>> 3

/-- The value of `encoded_fraction[frac]` in `uftdi_encode_baudrate` when the
divisor is packed: the fraction code, with the fraction forced to 0 when the
integral part is 1. -/
def baud_frac_code (sc : uftdi_softc) (speed : Nat) : Nat :=
  encoded_fraction.getD
    (if baud_div8 sc speed >>> 3 = 1 then 0 else baud_div8 sc speed &&& 0x07) 0

/-- A 232A device, as `uftdi_devtype_setup` sets it up for revision code
0x200 when the device reports a serial number string. -/
def softc_232a : uftdi_softc := (uftdi_devtype_setup 1 softc_zero 0x200 1 0).1

/-- The roundoff table of the earliest divisor-based generation as the
specification gives it: signed corrections between -3 and 4. -/
def spec_roundoff_232a : List Int := [0, 1, 0, 1, 0, -1, 2, 1, 0, -1, -2, -3, 4, 3, 2, 1]

/-- The rounded 16ths divisor of the specified algorithm on the earliest
divisor-based generation: the fraction is truncated when the low nibble is 1,
otherwise the signed table value is added. -/
def spec_round16_232a (d16 : Nat) : Nat :=
  if d16 % 16 = 1 then d16 - 1
  else ((d16 : Int) + spec_roundoff_232a.getD (d16 % 16) 0).toNat

/-- The fractional-divisor algorithm of the specification on the earliest
divisor-based generation, steps 1 to 8: `none` for the out-of-range error,
otherwise the low and high 16-bit halves. -/
def spec_encode_baudrate_232a (sc : uftdi_softc) (speed : Nat) : Option (Nat × Nat) :=
  let fast : Bool := decide (sc.sc_devflags &&& DEVF_BAUDCLK_12M ≠ 0) && decide (speed ≥ 1200)
  let clk : Nat := if fast then 12000000 else 3000000
  let flag : Nat := if fast then 131072 else 0
  if speed < clk / 16384 ∨ speed > clk then none
  else
    let d8 := spec_round16_232a (clk * 16 / speed) / 2
    let hw := clk * 8 / d8
    if ¬ (speed * 100 / 103 ≤ hw ∧ hw ≤ speed * 100 / 97) then none
    else
      let frac := d8 % 8
      let integral := d8 / 8
      let frac' := if integral = 1 ∧ frac = 4 then 0 else frac
      let integral' := if integral = 1 ∧ frac = 0 then 0 else integral
      let packed := integral' ||| (encoded_fraction.getD frac' 0 <<< 14) ||| flag
      some (packed % 65536,
        if sc.sc_devflags &&& DEVF_BAUDBITS_HINDEX ≠ 0 then (packed / 65536) <<< 8
        else packed / 65536)

/-- The payload the specification assigns to a read buffer of length `L` with
maximum packet size `m`: the bytes at the offsets `i < L` with `i mod m ≥ 2`,
in increasing offset order. -/
def spec_payload (pc : PageCache) (m L : Nat) : List Nat :=
  ((List.range L).filter (fun i => decide (2 ≤ i % m))).map pc

/-- The offsets at which headers start in a read buffer of length `L ≥ 2`:
the multiples of `m` that leave room for a whole header. -/
def spec_header_offsets (m L : Nat) : List Nat :=
  (List.range ((L - 2) / m + 1)).map (fun k => k * m)

/-- The line status accumulated over the headers at the given offsets. -/
def spec_headers_lsr (reg : uftdi_reg) (pc : PageCache) (offs : List Nat) (lsr : Nat) : Nat :=
  offs.foldl (fun acc o => u8 (acc ||| reg.FTDI_GET_LSR (usbd_copy_out pc o 2))) lsr

/-- The RI bit accumulated over the headers at the given offsets. -/
def spec_headers_ri (reg : uftdi_reg) (pc : PageCache) (offs : List Nat) (msr : Nat) : Nat :=
  offs.foldl (fun acc o =>
    if reg.FTDI_GET_MSR (usbd_copy_out pc o 2) &&& reg.FTDI_SIO_RI_MASK ≠ 0
      then u8 (acc ||| reg.SER_RI) else acc) msr

/-- The line control word the specification assigns to a control flag word:
one stop-bits code, one parity code and the data-bits value selected by
`CSIZE`, as a 16-bit value. -/
def spec_lcr (tc : tty_consts) (fs : ftdi_sio) (cflag : Nat) : Nat :=
  u16 ((if cflag &&& tc.CSTOPB ≠ 0 then fs.FTDI_SIO_SET_DATA_STOP_BITS_2
        else fs.FTDI_SIO_SET_DATA_STOP_BITS_1) |||
       (if cflag &&& tc.PARENB = 0 then fs.FTDI_SIO_SET_DATA_PARITY_NONE
        else if cflag &&& tc.PARODD ≠ 0 then fs.FTDI_SIO_SET_DATA_PARITY_ODD
        else fs.FTDI_SIO_SET_DATA_PARITY_EVEN) |||
       fs.FTDI_SIO_SET_DATA_BITS
        (if cflag &&& tc.CSIZE = tc.CS5 then 5
         else if cflag &&& tc.CSIZE = tc.CS6 then 6
         else if cflag &&& tc.CSIZE = tc.CS7 then 7 else 8))

/-! ## Status read-back, reconfiguration and control requests -/

/-- The function `uftdi_cfg_get_status`: the values stored through `lsr` and
`msr`, in that order. -/
def uftdi_cfg_get_status (sc : uftdi_softc) : Nat × Nat :=
  (sc.sc_lsr, sc.sc_msr)

/-- Modelled from the spec: the macro `USETW2` of usb_endian.h is absent; it
stores its last argument in the low byte and its middle argument in the high
byte of a 16-bit request field, each truncated to `uint8_t`. -/
def USETW2 (b1 b0 : Nat) : Nat := u8 b0 + 256 * u8 b1

/-- The function `uftdi_cfg_param`.  `cfg_local` is its uninitialised local
configuration record.  The result is the softc and the list of requests handed
to `ucom_cfg_do_request`, in order. -/
def uftdi_cfg_param (tc : tty_consts) (fs : ftdi_sio) (sc : uftdi_softc) (t : termios)
    (cfg_local : uftdi_param_config) : uftdi_softc × List usb_device_request :=
  let wIndex := u16 sc.sc_ucom.sc_portno
  let r := uftdi_set_parm_soft tc fs sc t cfg_local
  if r.1 ≠ 0 then (sc, [])
  else
    let cfg := r.2
    let sc := { sc with sc_last_lcr := u16 cfg.lcr }
    let req1 : usb_device_request :=
      { bmRequestType := u8 fs.UT_WRITE_VENDOR_DEVICE,
        bRequest := u8 fs.FTDI_SIO_SET_BAUD_RATE,
        wValue := USETW cfg.baud_lobits, wIndex := USETW (cfg.baud_hibits ||| wIndex),
        wLength := USETW 0 }
    let req2 : usb_device_request :=
      { bmRequestType := u8 fs.UT_WRITE_VENDOR_DEVICE, bRequest := u8 fs.FTDI_SIO_SET_DATA,
        wValue := USETW cfg.lcr, wIndex := USETW wIndex, wLength := USETW 0 }
    let req3 : usb_device_request :=
      { bmRequestType := u8 fs.UT_WRITE_VENDOR_DEVICE,
        bRequest := u8 fs.FTDI_SIO_SET_FLOW_CTRL,
        wValue := USETW2 cfg.v_stop cfg.v_start, wIndex := USETW2 cfg.v_flow wIndex,
        wLength := USETW 0 }
    (sc, [req1, req2, req3])

/-- The constants of uftdi_reg.h, uftdiio.h, usbdi.h and errno.h that the
ioctl path uses; the headers are not part of the sources, so the functions
take them as a parameter.  Status values are `int`. -/
structure uftdi_ioc where
  FTDI_SIO_RESET : Nat
  FTDI_SIO_SET_BITMODE : Nat
  FTDI_SIO_GET_BITMODE : Nat
  FTDI_SIO_SET_LATENCY : Nat
  FTDI_SIO_GET_LATENCY : Nat
  FTDI_SIO_SET_EVENT_CHAR : Nat
  FTDI_SIO_SET_ERROR_CHAR : Nat
  FTDI_SIO_RESET_SIO : Nat
  FTDI_SIO_RESET_PURGE_RX : Nat
  FTDI_SIO_RESET_PURGE_TX : Nat
  UFTDI_BITMODE_NONE : Nat
  USB_ERR_NORMAL_COMPLETION : Int
  USB_ERR_INVAL : Int
  EIO : Int
  ENOIOCTL : Int

/-- One concrete choice of the ioctl constants, for evaluating the ioctl path
on concrete arguments. -/
def ioc_sample : uftdi_ioc :=
  { FTDI_SIO_RESET := 0, FTDI_SIO_SET_BITMODE := 11, FTDI_SIO_GET_BITMODE := 12,
    FTDI_SIO_SET_LATENCY := 9, FTDI_SIO_GET_LATENCY := 10,
    FTDI_SIO_SET_EVENT_CHAR := 6, FTDI_SIO_SET_ERROR_CHAR := 7,
    FTDI_SIO_RESET_SIO := 0, FTDI_SIO_RESET_PURGE_RX := 1, FTDI_SIO_RESET_PURGE_TX := 2,
    UFTDI_BITMODE_NONE := 255,
    USB_ERR_NORMAL_COMPLETION := 0, USB_ERR_INVAL := 3, EIO := 5, ENOIOCTL := -3 }

/-- Modelled from the spec: `usbd_do_request` of the USB stack is absent; it
performs a control request on the device and returns a status and, for a read
request, the data byte it stored.  The device is a function from the request
to that pair. -/
abbrev usb_device := usb_device_request → Int × Nat

/-- A device that completes every request and answers every read with 0x5a. -/
def device_ok : usb_device := fun _ => (0, 0x5a)

/-- The function `uftdi_reset`: the status and the requests issued. -/
def uftdi_reset (fs : ftdi_sio) (io : uftdi_ioc) (dev : usb_device) (sc : uftdi_softc)
    (reset_type : Nat) : Int × List usb_device_request :=
  let req : usb_device_request :=
    { bmRequestType := u8 fs.UT_WRITE_VENDOR_DEVICE, bRequest := u8 io.FTDI_SIO_RESET,
      wIndex := USETW sc.sc_ucom.sc_portno, wLength := USETW 0, wValue := USETW reset_type }
  ((dev req).1, [req])

/-- The function `uftdi_set_bitmode`: the status and the requests issued.
`bitmode` and `iomask` are `uint8_t`; the value of `1 << bitmode` is taken
mathematically before it is truncated to a byte. -/
def uftdi_set_bitmode (fs : ftdi_sio) (io : uftdi_ioc) (dev : usb_device) (sc : uftdi_softc)
    (bitmode iomask : Nat) : Int × List usb_device_request :=
  let req : usb_device_request :=
    { bmRequestType := u8 fs.UT_WRITE_VENDOR_DEVICE, bRequest := u8 io.FTDI_SIO_SET_BITMODE,
      wIndex := USETW sc.sc_ucom.sc_portno, wLength := USETW 0,
      wValue := if u8 bitmode = io.UFTDI_BITMODE_NONE then USETW2 0 0
        else USETW2 (1 <<< u8 bitmode) (u8 iomask) }
  ((dev req).1, [req])

/-- The function `uftdi_get_bitmode`: the status, the byte stored through
`iomask` and the requests issued. -/
def uftdi_get_bitmode (fs : ftdi_sio) (io : uftdi_ioc) (dev : usb_device) (sc : uftdi_softc) :
    Int × Nat × List usb_device_request :=
  let req : usb_device_request :=
    { bmRequestType := u8 fs.UT_WRITE_VENDOR_DEVICE, bRequest := u8 io.FTDI_SIO_GET_BITMODE,
      wIndex := USETW sc.sc_ucom.sc_portno, wLength := USETW 1, wValue := USETW 0 }
  ((dev req).1, u8 (dev req).2, [req])

/-- The function `uftdi_set_latency`: the status and the requests issued.
`latency` is an `int`. -/
def uftdi_set_latency (fs : ftdi_sio) (io : uftdi_ioc) (dev : usb_device) (sc : uftdi_softc)
    (latency : Int) : Int × List usb_device_request :=
  if latency < 0 ∨ latency > 255 then ( io.USB_ERR_INVAL, [])
  else
    let req : usb_device_request :=
      { bmRequestType := u8 fs.UT_WRITE_VENDOR_DEVICE, bRequest := u8 io.FTDI_SIO_SET_LATENCY,
        wIndex := USETW sc.sc_ucom.sc_portno, wLength := USETW 0,
        wValue := USETW2 0 (latency % 256).toNat }
    ((dev req).1, [req])

/-- The function `uftdi_get_latency`: the status, the value stored through
`latency` and the requests issued. -/
def uftdi_get_latency (fs : ftdi_sio) (io : uftdi_ioc) (dev : usb_device) (sc : uftdi_softc) :
    Int × Int × List usb_device_request :=
  let req : usb_device_request :=
    { bmRequestType := u8 fs.UT_WRITE_VENDOR_DEVICE, bRequest := u8 io.FTDI_SIO_GET_LATENCY,
      wIndex := USETW sc.sc_ucom.sc_portno, wLength := USETW 1, wValue := USETW 0 }
  ((dev req).1, ((u8 (dev req).2 : Nat) : Int), [req])

/-- The function `uftdi_set_event_char`: the status and the requests issued.
`echar` is an `int`. -/
def uftdi_set_event_char (fs : ftdi_sio) (io : uftdi_ioc) (dev : usb_device) (sc : uftdi_softc)
    (echar : Int) : Int × List usb_device_request :=
  let enable : Nat := if echar = -1 then 0 else 1
  let req : usb_device_request :=
    { bmRequestType := u8 fs.UT_WRITE_VENDOR_DEVICE,
      bRequest := u8 io.FTDI_SIO_SET_EVENT_CHAR,
      wIndex := USETW sc.sc_ucom.sc_portno, wLength := USETW 0,
      wValue := USETW2 enable (echar % 256).toNat }
  ((dev req).1, [req])

/-- The function `uftdi_set_error_char`: the status and the requests issued.
`echar` is an `int`. -/
def uftdi_set_error_char (fs : ftdi_sio) (io : uftdi_ioc) (dev : usb_device) (sc : uftdi_softc)
    (echar : Int) : Int × List usb_device_request :=
  let enable : Nat := if echar = -1 then 0 else 1
  let req : usb_device_request :=
    { bmRequestType := u8 fs.UT_WRITE_VENDOR_DEVICE,
      bRequest := u8 io.FTDI_SIO_SET_ERROR_CHAR,
      wIndex := USETW sc.sc_ucom.sc_portno, wLength := USETW 0,
      wValue := USETW2 enable (echar % 256).toNat }
  ((dev req).1, [req])

/-- The command values `uftdi_ioctl` switches on: the ten case labels of
uftdiio.h, which are distinct, and any other value. -/
inductive uftdi_cmd where
  | UFTDIIOC_RESET_IO
  | UFTDIIOC_RESET_RX
  | UFTDIIOC_RESET_TX
  | UFTDIIOC_SET_BITMODE
  | UFTDIIOC_GET_BITMODE
  | UFTDIIOC_SET_LATENCY
  | UFTDIIOC_GET_LATENCY
  | UFTDIIOC_SET_ERROR_CHAR
  | UFTDIIOC_SET_EVENT_CHAR
  | UFTDIIOC_GET_HWREV
  | other (cmd : Nat)
deriving DecidableEq, Repr

/-- The argument block `data` of `uftdi_ioctl`, in the two shapes the
commands read it: a `struct uftdi_bitmode` and an `int`. -/
structure ioctl_data where
  mode : Nat
  iomask : Nat
  ival : Int
deriving DecidableEq, Repr

/-- The function `uftdi_ioctl`: the return value, the argument block after
the call and the requests issued. -/
def uftdi_ioctl (fs : ftdi_sio) (io : uftdi_ioc) (dev : usb_device) (sc : uftdi_softc)
    (cmd : uftdi_cmd) (data : ioctl_data) : Int × ioctl_data × List usb_device_request :=
  let finish (err : Int) (data : ioctl_data) (reqs : List usb_device_request) :
      Int × ioctl_data × List usb_device_request :=
    if err ≠ io.USB_ERR_NORMAL_COMPLETION then ( io.EIO, data, reqs) else (0, data, reqs)
  match cmd with
  | uftdi_cmd.UFTDIIOC_RESET_IO =>
    let r := uftdi_reset fs io dev sc io.FTDI_SIO_RESET_SIO
    finish r.1 data r.2
  | uftdi_cmd.UFTDIIOC_RESET_RX =>
    let r := uftdi_reset fs io dev sc io.FTDI_SIO_RESET_PURGE_RX
    finish r.1 data r.2
  | uftdi_cmd.UFTDIIOC_RESET_TX =>
    let r := uftdi_reset fs io dev sc io.FTDI_SIO_RESET_PURGE_TX
    finish r.1 data r.2
  | uftdi_cmd.UFTDIIOC_SET_BITMODE =>
    let r := uftdi_set_bitmode fs io dev sc data.mode data.iomask
    finish r.1 data r.2
  | uftdi_cmd.UFTDIIOC_GET_BITMODE =>
    let r := uftdi_get_bitmode fs io dev sc
    finish r.1 { data with iomask := r.2.1 } r.2.2
  | uftdi_cmd.UFTDIIOC_SET_LATENCY =>
    let r := uftdi_set_latency fs io dev sc data.ival
    finish r.1 data r.2
  | uftdi_cmd.UFTDIIOC_GET_LATENCY =>
    let r := uftdi_get_latency fs io dev sc
    finish r.1 { data with ival := r.2.1 } r.2.2
  | uftdi_cmd.UFTDIIOC_SET_ERROR_CHAR =>
    let r := uftdi_set_error_char fs io dev sc data.ival
    finish r.1 data r.2
  | uftdi_cmd.UFTDIIOC_SET_EVENT_CHAR =>
    let r := uftdi_set_event_char fs io dev sc data.ival
    finish r.1 data r.2
  | uftdi_cmd.UFTDIIOC_GET_HWREV =>
    finish 0 { data with ival := (sc.sc_bcdDevice : Int) } []
  | uftdi_cmd.other _ => ( io.ENOIOCTL, data, [])

/-! ## Theorems -/

/-- The function `uftdi_encode_baudrate` written with its intermediate
values. -/
theorem uftdi_encode_baudrate_eq (sc : uftdi_softc) (speed : Nat)
    (cfg : uftdi_param_config) :
    uftdi_encode_baudrate sc speed cfg =
      if speed < (baud_clk sc speed >>> 14) ∨ speed > baud_clk sc speed then (ERANGE, cfg)
      else if ¬ uftdi_baud_within_tolerance (baud_hwspeed sc speed) speed then (ERANGE, cfg)
      else (0, baud_cfg sc speed cfg) := by
  rfl

theorem ERANGE_ne_zero : ERANGE ≠ 0 := by decide

/-- The two clock choices of `uftdi_encode_baudrate` and when each is made. -/
theorem baud_clk_cases (sc : uftdi_softc) (speed : Nat) :
    (baud_clk sc speed = 12000000 ∧ baud_fastclk_flag sc speed = 131072 ∧
        sc.sc_devflags &&& DEVF_BAUDCLK_12M ≠ 0 ∧ 1200 ≤ speed) ∨
    (baud_clk sc speed = 3000000 ∧ baud_fastclk_flag sc speed = 0 ∧
        (sc.sc_devflags &&& DEVF_BAUDCLK_12M = 0 ∨ speed < 1200)) := by
  unfold baud_clk baud_fastclk_flag baud_fast
  by_cases h1 : sc.sc_devflags &&& DEVF_BAUDCLK_12M = 0
  · by_cases h2 : 1200 ≤ speed
    · simp [h1, h2]
    · simp [h1, h2]
  · by_cases h2 : 1200 ≤ speed
    · simp [h1, h2]
    · simp [h1, h2]
      omega

/-- An accepted speed yields the configuration `baud_cfg`. -/
theorem encode_accept (sc : uftdi_softc) (speed : Nat) (cfg : uftdi_param_config)
    (h : (uftdi_encode_baudrate sc speed cfg).1 = 0) :
    uftdi_encode_baudrate sc speed cfg = (0, baud_cfg sc speed cfg) := by
  rw [uftdi_encode_baudrate_eq] at h ⊢
  split at h
  · exact absurd h ERANGE_ne_zero
  · split at h
    · exact absurd h ERANGE_ne_zero
    · rename_i h1 h2
      rw [if_neg h1, if_neg h2]

/-- The packed divisor when the rounded divisor is 1.0 or 1.5. -/
theorem baud_pack_one (sc : uftdi_softc) (speed : Nat)
    (hd : baud_div8 sc speed = 8 ∨ baud_div8 sc speed = 12) :
    baud_pack sc speed =
      (if baud_div8 sc speed = 8 then 0 else 1) ||| baud_fastclk_flag sc speed := by
  have e1 : (8 : Nat) &&& 7 = 0 := by decide
  have e2 : (8 : Nat) >>> 3 = 1 := by decide
  have e3 : (12 : Nat) &&& 7 = 4 := by decide
  have e4 : (12 : Nat) >>> 3 = 1 := by decide
  have e5 : u32 (encoded_fraction.getD 0 0 <<< 14) = 0 := by decide
  unfold baud_pack
  rcases hd with hd | hd <;> rw [hd]
  · simp only [e1, e2, if_true, e5, Nat.zero_or]
  · simp only [e3, e4, if_true, OfNat.ofNat_ne_zero, Nat.reduceEqDiff, if_false, e5,
      Nat.zero_or]

/-! ### Baud rate encoding -/

/-- Claim C1, evaluated on the code: on a 232B profile (3 MHz clock) the
speeds 2666666 and 183 are both accepted, yet the speed decoded from the
packed result is 2000000 for the first (the rounded divisor 1.125 is sent as
"1.0", which the chip reads as 1.5) and 315789 for the second (the integral
divisor 16393 overflows into the fraction field); neither lies within the
tolerance band of the request. -/
theorem encode_decode_outside_tolerance :
    softc_232b.sc_devtype = DEVT_232B ∧ softc_232b.sc_devflags = 0 ∧
    (uftdi_encode_baudrate softc_232b 2666666 cfg_zero).1 = 0 ∧
    (uftdi_encode_baudrate softc_232b 2666666 cfg_zero).2.baud_lobits = 1 ∧
    (uftdi_encode_baudrate softc_232b 2666666 cfg_zero).2.baud_hibits = 0 ∧
    decode_hwspeed
      (baud_packed softc_232b (uftdi_encode_baudrate softc_232b 2666666 cfg_zero).2)
        = 2000000 ∧
    ¬ (2666666 * 100 / 103 ≤ decode_hwspeed
      (baud_packed softc_232b (uftdi_encode_baudrate softc_232b 2666666 cfg_zero).2)) ∧
    (uftdi_encode_baudrate softc_232b 183 cfg_zero).1 = 0 ∧
    decode_hwspeed
      (baud_packed softc_232b (uftdi_encode_baudrate softc_232b 183 cfg_zero).2)
        = 315789 ∧
    ¬ (decode_hwspeed
      (baud_packed softc_232b (uftdi_encode_baudrate softc_232b 183 cfg_zero).2)
        ≤ 183 * 100 / 97) := by
  decide

/-- Claim C2: `uftdi_sio_encode_baudrate` succeeds exactly on the ten listed
speeds, then writing the index of the speed to `baud_lobits` and 0 to
`baud_hibits`; on every other speed it returns ERANGE (which is not 0) and
leaves the configuration as it was. -/
theorem sio_encode_table (sc : uftdi_softc) (speed : Nat) (cfg : uftdi_param_config) :
    uftdi_sio_encode_baudrate sc speed cfg =
      (if speed ∈ [300, 600, 1200, 2400, 4800, 9600, 19200, 38400, 57600, 115200] then
        (0, { cfg with
          baud_lobits :=
            List.indexOf speed [300, 600, 1200, 2400, 4800, 9600, 19200, 38400, 57600, 115200],
          baud_hibits := 0 })
      else (ERANGE, cfg)) ∧ ERANGE ≠ 0 := by
  refine ⟨?_, ERANGE_ne_zero⟩
  simp only [uftdi_sio_encode_baudrate, sio_speeds, uftdi_sio_encode_loop]
  repeat' split
  all_goals simp_all [u16, List.indexOf_cons]

/-- Claim C3, evaluated on the code: on a 232B profile the speed 183 passes
the range check and the tolerance check, yet the integral part of its rounded
divisor is 16393, which does not fit in 14 bits; the low 14 bits of
`baud_lobits` then hold 9 and bit 14 is shared with the fraction code. -/
theorem integral_divisor_overflow_183 :
    softc_232b.sc_devtype = DEVT_232B ∧
    (uftdi_encode_baudrate softc_232b 183 cfg_zero).1 = 0 ∧
    baud_div8 softc_232b 183 >>> 3 = 16393 ∧
    ¬ (baud_div8 softc_232b 183 >>> 3 ≤ 16383) ∧
    (uftdi_encode_baudrate softc_232b 183 cfg_zero).2.baud_lobits = 16393 ∧
    (uftdi_encode_baudrate softc_232b 183 cfg_zero).2.baud_lobits % 16384 = 9 := by
  decide

/-- Claim C4: `uftdi_encode_baudrate` returns ERANGE, leaving the
configuration untouched, for every speed outside `clock/16384 ≤ speed ≤ clock`
(clock 12 MHz when the device has `DEVF_BAUDCLK_12M` and the speed is at least
1200, else 3 MHz); in particular for every speed below 183, for every speed
above 3000000 on a device without the fast clock, and for every speed above
12000000. -/
theorem encode_out_of_range (sc : uftdi_softc) (speed : Nat) (cfg : uftdi_param_config)
    (h : ¬ (baud_clk sc speed / 16384 ≤ speed ∧ speed ≤ baud_clk sc speed) ∨ speed < 183 ∨
      (sc.sc_devflags &&& DEVF_BAUDCLK_12M = 0 ∧ 3000000 < speed) ∨ 12000000 < speed) :
    uftdi_encode_baudrate sc speed cfg = (ERANGE, cfg) ∧ ERANGE ≠ 0 := by
  refine ⟨?_, ERANGE_ne_zero⟩
  rw [uftdi_encode_baudrate_eq, if_pos]
  rcases baud_clk_cases sc speed with ⟨hc, -, h12, hs⟩ | ⟨hc, -, hs⟩ <;>
    rw [hc, Nat.shiftRight_eq_div_pow] <;> rw [hc] at h <;> norm_num at h ⊢ <;> omega

theorem encode_out_of_range_witness :
    (uftdi_encode_baudrate (uftdi_devtype_setup 1 softc_zero 0x700 0 0).1 182 cfg_zero
      = (ERANGE, cfg_zero) ∧ ERANGE ≠ 0) ∧
    (uftdi_encode_baudrate softc_232b 3000001 cfg_zero
      = (ERANGE, cfg_zero) ∧ ERANGE ≠ 0) :=
  ⟨encode_out_of_range _ 182 cfg_zero (Or.inr (Or.inl (by decide))),
   encode_out_of_range _ 3000001 cfg_zero (Or.inr (Or.inr (Or.inl (by decide))))⟩

/-- Claim C5: `uftdi_encode_baudrate` returns 0 exactly when the speed passes
the reachability check and the recomputed speed `clock * 8 / divisor` (divisor
in eighths, after rounding and the shift by one) lies between
`speed * 100 / 103` and `speed * 100 / 97`; otherwise it returns ERANGE, which
is not 0. -/
theorem encode_accepts_iff (sc : uftdi_softc) (speed : Nat) (cfg : uftdi_param_config) :
    (uftdi_encode_baudrate sc speed cfg).1 =
      (if (baud_clk sc speed / 16384 ≤ speed ∧ speed ≤ baud_clk sc speed) ∧
          speed * 100 / 103 ≤ baud_clk sc speed * 8 / baud_div8 sc speed ∧
          baud_clk sc speed * 8 / baud_div8 sc speed ≤ speed * 100 / 97
        then 0 else ERANGE) ∧ ERANGE ≠ 0 := by
  refine ⟨?_, ERANGE_ne_zero⟩
  rw [uftdi_encode_baudrate_eq]
  by_cases hr : speed < (baud_clk sc speed >>> 14) ∨ speed > baud_clk sc speed
  · rw [if_pos hr, if_neg]
    rw [Nat.shiftRight_eq_div_pow] at hr
    norm_num at hr ⊢
    omega
  · rw [if_neg hr]
    have hr' : baud_clk sc speed / 16384 ≤ speed ∧ speed ≤ baud_clk sc speed := by
      rw [Nat.shiftRight_eq_div_pow] at hr
      norm_num at hr ⊢
      omega
    have hs : speed ≤ 12000000 := by
      rcases baud_clk_cases sc speed with ⟨hc, -⟩ | ⟨hc, -⟩ <;> omega
    have h64 : u64 (speed * 100) = speed * 100 := by unfold u64; omega
    have h32 : u32 (baud_clk sc speed <<< 3) = baud_clk sc speed * 8 := by
      rcases baud_clk_cases sc speed with ⟨hc, -⟩ | ⟨hc, -⟩ <;> rw [hc] <;> decide
    simp only [uftdi_baud_within_tolerance, baud_hwspeed, h64, h32, hr', true_and]
    by_cases ht : speed * 100 / 103 ≤ baud_clk sc speed * 8 / baud_div8 sc speed ∧
          baud_clk sc speed * 8 / baud_div8 sc speed ≤ speed * 100 / 97
    · simp [ht]
    · rw [if_neg ht]
      simp only [ge_iff_le, Bool.and_eq_true, decide_eq_true_eq, ht, not_false_eq_true,
        ↓reduceIte]

/-- Claim C6: for an accepted speed whose rounded divisor is exactly 1.0
(8 eighths) the packed integral field is 0 and the fraction code is 0, and
`baud_lobits` is 0; when it is exactly 1.5 (12 eighths) the integral field is
1, the fraction code is 0 and `baud_lobits` is 1. -/
theorem pack_fastest_settings (sc : uftdi_softc) (speed : Nat) (cfg : uftdi_param_config)
    (hacc : (uftdi_encode_baudrate sc speed cfg).1 = 0)
    (hd : baud_div8 sc speed = 8 ∨ baud_div8 sc speed = 12) :
    (uftdi_encode_baudrate sc speed cfg).2.baud_lobits % 16384 =
        (if baud_div8 sc speed = 8 then 0 else 1) ∧
    (baud_packed sc (uftdi_encode_baudrate sc speed cfg).2 >>> 14) % 8 = 0 ∧
    (uftdi_encode_baudrate sc speed cfg).2.baud_lobits =
        (if baud_div8 sc speed = 8 then 0 else 1) := by
  rw [encode_accept sc speed cfg hacc]
  simp only [baud_cfg, baud_packed, baud_pack_one sc speed hd]
  rcases baud_clk_cases sc speed with ⟨-, hf, -⟩ | ⟨-, hf, -⟩ <;> rw [hf] <;>
    rcases hd with hd | hd <;> rw [hd] <;>
    by_cases hx : sc.sc_devflags &&& DEVF_BAUDBITS_HINDEX = 0 <;>
    simp only [hx, ne_eq, not_true_eq_false, not_false_eq_true, if_true, if_false] <;>
    decide

theorem pack_fastest_settings_witness :
    (uftdi_encode_baudrate softc_232b 3000000
        cfg_zero).2.baud_lobits = 0 ∧
    (uftdi_encode_baudrate softc_232b 2000000
        cfg_zero).2.baud_lobits = 1 :=
  ⟨(pack_fastest_settings softc_232b 3000000 cfg_zero
      (by decide) (Or.inl (by decide))).2.2,
   (pack_fastest_settings softc_232b 2000000 cfg_zero
      (by decide) (Or.inr (by decide))).2.2⟩

/-! ### Output framing -/

theorem out_chunks_nil : out_chunks [] = [] := by
  rw [out_chunks]; simp

theorem out_chunks_cons (l : List Nat) (h : l ≠ []) :
    out_chunks l = l.take 63 :: out_chunks (l.drop 63) := by
  rw [out_chunks]; simp [h]

theorem out_chunks_length (l : List Nat) : (out_chunks l).length = (l.length + 62) / 63 := by
  induction' hn : l.length using Nat.strong_induction_on with n ih generalizing l
  by_cases h : l = []
  · subst h; simp at hn; subst hn; simp [out_chunks_nil]
  · rw [out_chunks_cons l h, List.length_cons]
    have hp := List.length_pos.mpr h
    rw [ih (l.drop 63).length (by simp; omega) (l.drop 63) rfl]
    simp only [List.length_drop]
    omega

theorem copy_out_length (pc : PageCache) (off len : Nat) :
    (usbd_copy_out pc off len).length = len := by
  simp [usbd_copy_out]

theorem copy_out_copy_in_same (pc : PageCache) (off : Nat) (data : List Nat) :
    usbd_copy_out (usbd_copy_in pc off data) off data.length = data := by
  apply List.ext_getElem
  · simp [usbd_copy_out]
  · intro i h1 h2
    simp [usbd_copy_out] at h1
    simp [usbd_copy_out, usbd_copy_in, h1, h2]

theorem copy_out_copy_in_disjoint (pc : PageCache) (off off' len : Nat) (data : List Nat)
    (h : off' + len ≤ off ∨ off + data.length ≤ off') :
    usbd_copy_out (usbd_copy_in pc off data) off' len = usbd_copy_out pc off' len := by
  apply List.ext_getElem
  · simp [usbd_copy_out]
  · intro i h1 h2
    simp [usbd_copy_out] at h1
    simp only [usbd_copy_out, usbd_copy_in, List.getElem_map, List.getElem_range]
    rw [if_neg]
    omega

theorem copy_out_add (pc : PageCache) (off a b : Nat) :
    usbd_copy_out pc off (a + b) = usbd_copy_out pc off a ++ usbd_copy_out pc (off + a) b := by
  simp only [usbd_copy_out, List.range_add, List.map_append, List.map_map]
  congr 1
  apply List.map_congr_left
  intro i _
  simp [Nat.add_assoc]

theorem copy_in_nil (pc : PageCache) (off : Nat) : usbd_copy_in pc off [] = pc := by
  funext i
  simp [usbd_copy_in]

theorem headered_frame_nil (tag : Nat → Nat → Nat) (port : Nat) :
    headered_frame tag port [] = [] := by
  simp [headered_frame, out_chunks_nil]

theorem headered_frame_cons (tag : Nat → Nat → Nat) (port : Nat) (l : List Nat) (h : l ≠ []) :
    headered_frame tag port l =
      u8 (tag (min 63 l.length) port) :: (l.take 63 ++ headered_frame tag port (l.drop 63)) := by
  simp [headered_frame, out_chunks_cons l h]

theorem write_loop_empty (tag : Nat → Nat → Nat) (sc : uftdi_softc) (fuel : Nat)
    (ucom : ucom_softc) (pc : PageCache) (b : Nat) (he : ucom.outq = []) :
    uftdi_write_loop tag sc (fuel + 1) ucom pc b = some (ucom, pc, b) := by
  obtain ⟨p, q, i, n⟩ := ucom
  simp only at he
  subst he
  simp [uftdi_write_loop, ucom_get_data, copy_in_nil]

theorem write_loop_step (tag : Nat → Nat → Nat) (sc : uftdi_softc) (h1 : sc.sc_hdrlen = 1)
    (fuel port : Nat) (outq inq : List Nat) (n : Nat) (pc : PageCache) (b : Nat)
    (hb : b < 2046) (hne : outq ≠ []) :
    uftdi_write_loop tag sc (fuel + 1) ⟨port, outq, inq, n⟩ pc b =
      uftdi_write_loop tag sc fuel ⟨port, outq.drop 63, inq, n⟩
        (usbd_copy_in (usbd_copy_in pc (b + 1) (outq.take 63)) b
          [u8 (tag (min 63 outq.length) port)])
        (b + (min 63 outq.length + 1)) := by
  have hp := List.length_pos.mpr hne
  have e1 : u32 (b + 1) = b + 1 := by unfold u32; omega
  have e2 : u32 (4294967296 + UFTDI_OPKTSIZE - 1) = 63 := by decide
  have e3 : u32 (b + (min 63 outq.length + 1)) = b + (min 63 outq.length + 1) := by
    unfold u32; omega
  have e4 : ¬ (min 63 outq.length = 0) := by omega
  have e5 : b < UFTDI_OBUFSIZE - 1 - 1 := by simp only [UFTDI_OBUFSIZE]; omega
  simp only [uftdi_write_loop, h1, e5, if_true, ucom_get_data, e1, e2, List.length_take, e4,
    if_false, ne_eq, one_ne_zero, not_false_eq_true, e3]

theorem write_step_frame (pc : PageCache) (b hdr : Nat) (d : List Nat) :
    usbd_copy_out (usbd_copy_in (usbd_copy_in pc (b + 1) d) b [hdr]) 0 (b + (d.length + 1)) =
      usbd_copy_out pc 0 b ++ hdr :: d := by
  rw [copy_out_add, Nat.zero_add, Nat.add_comm d.length 1, copy_out_add]
  rw [copy_out_copy_in_disjoint _ _ _ _ _ (Or.inl (by omega)),
    copy_out_copy_in_disjoint _ _ _ _ _ (Or.inl (by omega))]
  have h2 := copy_out_copy_in_same (usbd_copy_in pc (b + 1) d) b [hdr]
  simp only [List.length_singleton] at h2
  rw [h2, copy_out_copy_in_disjoint _ _ _ _ _ (Or.inr (by simp)), copy_out_copy_in_same]
  simp

theorem write_loop_spec (tag : Nat → Nat → Nat) (sc : uftdi_softc) (h1 : sc.sc_hdrlen = 1) :
    ∀ k, k ≤ 32 → ∀ fuel, k + 1 ≤ fuel → ∀ (ucom : ucom_softc) (pc : PageCache),
      ∃ pc', uftdi_write_loop tag sc fuel ucom pc (64 * (32 - k)) =
          some ({ ucom with outq := ucom.outq.drop (63 * k) }, pc',
            64 * (32 - k) + (min (63 * k) ucom.outq.length +
              (min (63 * k) ucom.outq.length + 62) / 63)) ∧
        usbd_copy_out pc' 0 (64 * (32 - k) + (min (63 * k) ucom.outq.length +
              (min (63 * k) ucom.outq.length + 62) / 63)) =
          usbd_copy_out pc 0 (64 * (32 - k)) ++
            headered_frame tag ucom.sc_portno (ucom.outq.take (63 * k)) := by
  intro k
  induction k with
  | zero =>
    intro _ fuel hf ucom pc
    obtain ⟨f, rfl⟩ : ∃ f, fuel = f + 1 := ⟨fuel - 1, by omega⟩
    refine ⟨pc, ?_, ?_⟩
    · simp [uftdi_write_loop, UFTDI_OBUFSIZE, h1]
    · simp [headered_frame_nil]
  | succ k ih =>
    intro hk fuel hf ucom pc
    obtain ⟨f, rfl⟩ : ∃ f, fuel = f + 1 := ⟨fuel - 1, by omega⟩
    obtain ⟨port, outq, inq, n⟩ := ucom
    by_cases he : outq = []
    · subst he
      refine ⟨pc, ?_, ?_⟩
      · rw [write_loop_empty tag sc f _ pc _ rfl]
        simp
      · simp [headered_frame_nil]
    · have hp := List.length_pos.mpr he
      have hq : outq.take (63 * (k + 1)) ≠ [] := by
        intro h
        have := congrArg List.length h
        simp only [List.length_take, List.length_nil] at this
        omega
      have hfr : headered_frame tag port (outq.take (63 * (k + 1))) =
          u8 (tag (min 63 outq.length) port) ::
            (outq.take 63 ++ headered_frame tag port ((outq.drop 63).take (63 * k))) := by
        rw [headered_frame_cons tag port _ hq, List.take_take, List.drop_take, List.length_take]
        have e1 : min 63 (min (63 * (k + 1)) outq.length) = min 63 outq.length := by omega
        have e2 : min 63 (63 * (k + 1)) = 63 := by omega
        have e3 : 63 * (k + 1) - 63 = 63 * k := by omega
        rw [e1, e2, e3]
      rw [write_loop_step tag sc h1 f port outq inq n pc _ (by omega) he]
      simp only
      rw [hfr]
      by_cases hL : 63 ≤ outq.length
      · have e1 : min 63 outq.length = 63 := by omega
        have e2 : 64 * (32 - (k + 1)) + (63 + 1) = 64 * (32 - k) := by omega
        rw [e1, e2]
        obtain ⟨pc', hrun, hframe⟩ := ih (by omega) f (by omega) ⟨port, outq.drop 63, inq, n⟩
          (usbd_copy_in (usbd_copy_in pc (64 * (32 - (k + 1)) + 1) (outq.take 63))
            (64 * (32 - (k + 1))) [u8 (tag 63 port)])
        simp only [List.length_drop, List.drop_drop] at hrun hframe
        have e3 : 64 * (32 - k) + (min (63 * k) (outq.length - 63) +
            (min (63 * k) (outq.length - 63) + 62) / 63) =
            64 * (32 - (k + 1)) + (min (63 * (k + 1)) outq.length +
              (min (63 * (k + 1)) outq.length + 62) / 63) := by omega
        have e4 : 63 + 63 * k = 63 * (k + 1) := by omega
        rw [e3] at hrun hframe
        rw [e4] at hrun
        refine ⟨pc', hrun, ?_⟩
        rw [hframe]
        have hw := write_step_frame pc (64 * (32 - (k + 1))) (u8 (tag 63 port)) (outq.take 63)
        rw [List.length_take, e1, e2] at hw
        rw [hw]
        simp
      · have e1 : min 63 outq.length = outq.length := by omega
        have e5 : outq.drop 63 = [] := by
          apply List.drop_eq_nil_of_le; omega
        have e6 : outq.drop (63 * (k + 1)) = [] := by
          apply List.drop_eq_nil_of_le; omega
        have e7 : outq.take 63 = outq := by
          apply List.take_of_length_le; omega
        obtain ⟨f', rfl⟩ : ∃ f', f = f' + 1 := ⟨f - 1, by omega⟩
        rw [e1, e5, e7, write_loop_empty tag sc f' _ _ _ rfl]
        have e3 : 64 * (32 - (k + 1)) + (outq.length + 1) =
            64 * (32 - (k + 1)) + (min (63 * (k + 1)) outq.length +
              (min (63 * (k + 1)) outq.length + 62) / 63) := by omega
        refine ⟨usbd_copy_in (usbd_copy_in pc (64 * (32 - (k + 1)) + 1) outq)
          (64 * (32 - (k + 1))) [u8 (tag outq.length port)], ?_, ?_⟩
        · simp only [e6]
          rw [e3]
        · rw [← e3, write_step_frame]
          simp [headered_frame_nil]


theorem out_chunks_bounds (l : List Nat) : ∀ c ∈ out_chunks l, 1 ≤ c.length ∧ c.length ≤ 63 := by
  induction' hn : l.length using Nat.strong_induction_on with n ih generalizing l
  by_cases h : l = []
  · subst h; simp [out_chunks_nil]
  · rw [out_chunks_cons l h]
    have hp := List.length_pos.mpr h
    intro c hc
    rcases List.mem_cons.mp hc with rfl | hc
    · simp only [List.length_take]; omega
    · exact ih (l.drop 63).length (by simp only [List.length_drop]; omega) (l.drop 63) rfl c hc

theorem out_chunks_flatten (l : List Nat) : (out_chunks l).flatten = l := by
  induction' hn : l.length using Nat.strong_induction_on with n ih generalizing l
  by_cases h : l = []
  · subst h; simp [out_chunks_nil]
  · rw [out_chunks_cons l h, List.flatten_cons]
    have hp := List.length_pos.mpr h
    rw [ih (l.drop 63).length (by simp only [List.length_drop]; omega) (l.drop 63) rfl]
    exact List.take_append_drop 63 l

theorem write_callback_headered (tag : Nat → Nat → Nat) (sc : uftdi_softc) (xfer : usb_xfer)
    (st : usb_state) (cancelled : Bool) (h1 : sc.sc_hdrlen = 1)
    (hN : 0 < sc.sc_ucom.outq.length) :
    ∃ sc' xfer', uftdi_write_callback tag sc xfer st cancelled = some (sc', xfer') ∧
      sc'.sc_ucom.outq = sc.sc_ucom.outq.drop 2016 ∧
      xfer'.submits = xfer.submits + 1 ∧
      xfer'.frame_len = min 2016 sc.sc_ucom.outq.length +
        (min 2016 sc.sc_ucom.outq.length + 62) / 63 ∧
      usbd_copy_out xfer'.frame 0 xfer'.frame_len =
        headered_frame tag sc.sc_ucom.sc_portno (sc.sc_ucom.outq.take 2016) := by
  obtain ⟨pc', hrun, hframe⟩ := write_loop_spec tag sc h1 32 (le_refl _) UFTDI_OBUFSIZE
    (by decide) sc.sc_ucom
    (if st = usb_state.USB_ST_ERROR ∧ cancelled = false
      then usbd_xfer_set_stall xfer else xfer).frame
  simp only [Nat.sub_self, Nat.mul_zero, Nat.zero_add, Nat.reduceMul] at hrun hframe
  have hne : ¬ (min 2016 sc.sc_ucom.outq.length +
      (min 2016 sc.sc_ucom.outq.length + 62) / 63 = 0) := by omega
  have hs : (if st = usb_state.USB_ST_ERROR ∧ cancelled = false
      then usbd_xfer_set_stall xfer else xfer).submits = xfer.submits := by
    split <;> rfl
  simp only [uftdi_write_callback, h1, one_ne_zero, if_false, hrun, ne_eq, hne,
    not_false_eq_true, if_true]
  refine ⟨_, _, rfl, rfl, ?_, rfl, ?_⟩
  · simp only [usbd_transfer_submit, usbd_xfer_set_frame_len, hs]
  · simpa [usbd_transfer_submit, usbd_xfer_set_frame_len, usbd_copy_out] using hframe

/-- Claim C7, as amended: one invocation of the headered output framer
(`sc_hdrlen = 1`) on N > 0 pending bytes frames the first n = min(N, 2016) of
them and leaves the rest pending: the frame is the concatenation of
ceil(n/63) chunks of 1..63 payload bytes, each preceded by the header byte
built from that chunk's payload length and the port number, the frame length
is n + ceil(n/63), and the transfer is submitted once. -/
theorem headered_framing_chunks (tag : Nat → Nat → Nat) (sc : uftdi_softc) (xfer : usb_xfer)
    (st : usb_state) (cancelled : Bool) (h1 : sc.sc_hdrlen = 1)
    (hN : 0 < sc.sc_ucom.outq.length) :
    ∃ sc' xfer', uftdi_write_callback tag sc xfer st cancelled = some (sc', xfer') ∧
      sc'.sc_ucom.outq = sc.sc_ucom.outq.drop 2016 ∧
      xfer'.submits = xfer.submits + 1 ∧
      xfer'.frame_len = min 2016 sc.sc_ucom.outq.length +
        (min 2016 sc.sc_ucom.outq.length + 62) / 63 ∧
      usbd_copy_out xfer'.frame 0 xfer'.frame_len =
        headered_frame tag sc.sc_ucom.sc_portno (sc.sc_ucom.outq.take 2016) ∧
      (out_chunks (sc.sc_ucom.outq.take 2016)).length =
        (min 2016 sc.sc_ucom.outq.length + 62) / 63 ∧
      (out_chunks (sc.sc_ucom.outq.take 2016)).flatten = sc.sc_ucom.outq.take 2016 ∧
      ∀ c ∈ out_chunks (sc.sc_ucom.outq.take 2016), 1 ≤ c.length ∧ c.length ≤ 63 := by
  obtain ⟨sc', xfer', h, ho, hs, hl, hf⟩ :=
    write_callback_headered tag sc xfer st cancelled h1 hN
  refine ⟨sc', xfer', h, ho, hs, hl, hf, ?_, ?_, out_chunks_bounds _⟩
  · rw [out_chunks_length, List.length_take]
  · exact out_chunks_flatten _

theorem headered_framing_chunks_witness :
    ∃ sc' xfer', uftdi_write_callback out_tag_sample (softc_sio [1, 2, 3])
        xfer_idle usb_state.USB_ST_SETUP false = some (sc', xfer') ∧
      sc'.sc_ucom.outq = List.drop 2016 [1, 2, 3] ∧
      xfer'.submits = 0 + 1 ∧
      xfer'.frame_len = min 2016 3 + (min 2016 3 + 62) / 63 ∧
      usbd_copy_out xfer'.frame 0 xfer'.frame_len =
        headered_frame out_tag_sample 0 (List.take 2016 [1, 2, 3]) ∧
      (out_chunks (List.take 2016 [1, 2, 3])).length = (min 2016 3 + 62) / 63 ∧
      (out_chunks (List.take 2016 [1, 2, 3])).flatten = List.take 2016 [1, 2, 3] ∧
      ∀ c ∈ out_chunks (List.take 2016 [1, 2, 3]), 1 ≤ c.length ∧ c.length ≤ 63 :=
  headered_framing_chunks out_tag_sample (softc_sio [1, 2, 3]) xfer_idle usb_state.USB_ST_SETUP false rfl
    (by decide)

/-- Claim C7 fails as stated for N = 2017: the framer stops after 32 chunks,
so the frame length is 2048 and not 2017 + ceil(2017/63) = 2050, and one byte
stays pending. -/
theorem headered_framing_2017_truncated :
    ∃ r, uftdi_write_callback out_tag_sample (softc_sio (List.replicate 2017 7))
        xfer_idle usb_state.USB_ST_SETUP false = some r ∧
      r.2.frame_len = 2048 ∧ r.2.frame_len ≠ 2017 + (2017 + 62) / 63 ∧
      r.1.sc_ucom.outq = [7] := by
  have hlen : (softc_sio (List.replicate 2017 7)).sc_ucom.outq.length = 2017 :=
    List.length_replicate 2017 7
  obtain ⟨sc', xfer', h, ho, -, hl, -⟩ := write_callback_headered out_tag_sample
    (softc_sio (List.replicate 2017 7))
    xfer_idle usb_state.USB_ST_SETUP false rfl (by rw [hlen]; decide)
  rw [hlen] at hl
  refine ⟨(sc', xfer'), h, ?_, ?_, ?_⟩
  · rw [hl]; decide
  · rw [hl]; decide
  · rw [ho]
    show List.drop 2016 (List.replicate 2017 7) = [7]
    rw [List.drop_replicate]
    rfl

/-- Claim C8: with headerless framing (`sc_hdrlen = 0`) the write callback
submits a transfer exactly when at least one byte is pending; the submitted
frame then has length min(N, 2048), which is neither 0 nor above
`UFTDI_OBUFSIZE`, and holds the first min(N, 2048) pending bytes in order;
the bytes beyond them stay pending. -/
theorem headerless_framing (tag : Nat → Nat → Nat) (sc : uftdi_softc) (xfer : usb_xfer)
    (st : usb_state) (cancelled : Bool) (h0 : sc.sc_hdrlen = 0) :
    ∃ sc' xfer', uftdi_write_callback tag sc xfer st cancelled = some (sc', xfer') ∧
      sc'.sc_ucom.outq = sc.sc_ucom.outq.drop UFTDI_OBUFSIZE ∧
      xfer'.submits = xfer.submits + (if 0 < sc.sc_ucom.outq.length then 1 else 0) ∧
      (0 < sc.sc_ucom.outq.length →
        xfer'.frame_len = min sc.sc_ucom.outq.length 2048 ∧ xfer'.frame_len ≠ 0 ∧
        xfer'.frame_len ≤ UFTDI_OBUFSIZE ∧
        usbd_copy_out xfer'.frame 0 xfer'.frame_len =
          sc.sc_ucom.outq.take (min sc.sc_ucom.outq.length 2048)) := by
  have hs : (if st = usb_state.USB_ST_ERROR ∧ cancelled = false
      then usbd_xfer_set_stall xfer else xfer).submits = xfer.submits := by
    split <;> rfl
  by_cases hN : 0 < sc.sc_ucom.outq.length
  · have hne : ¬ (min UFTDI_OBUFSIZE sc.sc_ucom.outq.length = 0) := by
      simp only [UFTDI_OBUFSIZE]; omega
    simp only [uftdi_write_callback, h0, if_true, ucom_get_data, List.length_take, hne,
      if_false, one_ne_zero, ne_eq, not_false_eq_true]
    refine ⟨_, _, rfl, rfl, ?_, fun _ => ⟨?_, ?_, ?_, ?_⟩⟩
    · simp only [usbd_transfer_submit, usbd_xfer_set_frame_len, hs, hN, if_true]
    · simp only [usbd_transfer_submit, usbd_xfer_set_frame_len, UFTDI_OBUFSIZE]
      omega
    · simp only [usbd_transfer_submit, usbd_xfer_set_frame_len, UFTDI_OBUFSIZE]
      omega
    · simp only [usbd_transfer_submit, usbd_xfer_set_frame_len, UFTDI_OBUFSIZE]
      omega
    · simp only [usbd_transfer_submit, usbd_xfer_set_frame_len]
      have := copy_out_copy_in_same (if st = usb_state.USB_ST_ERROR ∧ cancelled = false
        then usbd_xfer_set_stall xfer else xfer).frame 0 (sc.sc_ucom.outq.take UFTDI_OBUFSIZE)
      rw [List.length_take] at this
      rw [this, List.take_eq_take]
      simp only [UFTDI_OBUFSIZE]
      omega
  · have he : sc.sc_ucom.outq = [] := List.length_eq_zero.mp (by omega)
    simp only [uftdi_write_callback, h0, if_true, ucom_get_data, he, List.take_nil,
      List.length_nil]
    refine ⟨_, _, rfl, by simp, ?_, fun h => absurd h (by simp)⟩
    simp [hs]

theorem headerless_framing_witness :
    ∃ sc' xfer', uftdi_write_callback out_tag_sample
        { softc_sio [1, 2, 3] with sc_hdrlen := 0 } xfer_idle usb_state.USB_ST_SETUP false
          = some (sc', xfer') ∧
      sc'.sc_ucom.outq = List.drop UFTDI_OBUFSIZE [1, 2, 3] ∧
      xfer'.submits = 0 + (if 0 < 3 then 1 else 0) ∧
      (0 < 3 →
        xfer'.frame_len = min 3 2048 ∧ xfer'.frame_len ≠ 0 ∧
        xfer'.frame_len ≤ UFTDI_OBUFSIZE ∧
        usbd_copy_out xfer'.frame 0 xfer'.frame_len = List.take (min 3 2048) [1, 2, 3]) :=
  headerless_framing out_tag_sample { softc_sio [1, 2, 3] with sc_hdrlen := 0 } xfer_idle
    usb_state.USB_ST_SETUP false rfl

/-! ### Input parsing and status tracking -/

theorem u8_or (a b : Nat) : u8 (a ||| b) = u8 a ||| u8 b := by
  unfold u8
  apply Nat.eq_of_testBit_eq
  intro i
  have h : (256 : Nat) = 2 ^ 8 := by norm_num
  rw [h]
  simp only [Nat.testBit_mod_two_pow, Nat.testBit_or]
  cases decide (i < 8) <;> simp

theorem u8_u8 (a : Nat) : u8 (u8 a) = u8 a := by
  unfold u8; omega

theorem read_loop_succ (reg : uftdi_reg) (pc : PageCache) (pktmax fuel : Nat)
    (ucom : ucom_softc) (lsr msr offset buflen : Nat) (buf : List Nat) :
    uftdi_read_loop reg pc pktmax (fuel + 1) ucom lsr msr offset buflen buf =
      if buflen ≥ 2 then
        uftdi_read_loop reg pc pktmax fuel
          (if min (buflen - 2) pktmax ≠ 0
            then ucom_put_data ucom pc (offset + 2) (min (buflen - 2) pktmax) else ucom)
          (u8 (lsr ||| reg.FTDI_GET_LSR (usbd_copy_out pc offset 2)))
          (if reg.FTDI_GET_MSR (usbd_copy_out pc offset 2) &&& reg.FTDI_SIO_RI_MASK ≠ 0
            then u8 (msr ||| reg.SER_RI) else msr)
          (offset + 2 + min (buflen - 2) pktmax)
          (buflen - 2 - min (buflen - 2) pktmax)
          (usbd_copy_out pc offset 2)
      else some (ucom, lsr, msr, buf) := by
  rw [uftdi_read_loop]
  simp only [UFTDI_IHDRSIZE]
  by_cases h : buflen ≥ 2
  · simp only [h, if_true]
    by_cases h2 : min (buflen - 2) pktmax = 0
    · simp [h2]
    · simp [h2]
  · simp only [h, if_false]



theorem two_header_msr_eq (reg : uftdi_reg) (A B : List Nat) :
    uftdi_read_msr reg
      (if reg.FTDI_GET_MSR B &&& reg.FTDI_SIO_RI_MASK ≠ 0
        then u8 ((if reg.FTDI_GET_MSR A &&& reg.FTDI_SIO_RI_MASK ≠ 0
          then u8 (0 ||| reg.SER_RI) else 0) ||| reg.SER_RI)
        else (if reg.FTDI_GET_MSR A &&& reg.FTDI_SIO_RI_MASK ≠ 0
          then u8 (0 ||| reg.SER_RI) else 0)) B = spec_two_header_msr reg A B := by
  have hz : u8 0 = 0 := rfl
  have hoo : ∀ a b : Nat, a ||| (a ||| b) = a ||| b := by
    intro a b; rw [← Nat.or_assoc, Nat.or_self]
  have hlc : ∀ a b c : Nat, a ||| (b ||| c) = b ||| (a ||| c) := by
    intro a b c; rw [← Nat.or_assoc, Nat.or_comm a b, Nat.or_assoc]
  unfold uftdi_read_msr spec_two_header_msr
  by_cases h1 : reg.FTDI_GET_MSR A &&& reg.FTDI_SIO_RI_MASK = 0 <;>
  by_cases h2 : reg.FTDI_GET_MSR B &&& reg.FTDI_SIO_RI_MASK = 0 <;>
  by_cases h3 : u8 (reg.FTDI_GET_MSR B) &&& reg.FTDI_SIO_RI_MASK = 0 <;>
  by_cases h4 : u8 (reg.FTDI_GET_MSR B) &&& reg.FTDI_SIO_CTS_MASK = 0 <;>
  by_cases h5 : u8 (reg.FTDI_GET_MSR B) &&& reg.FTDI_SIO_DSR_MASK = 0 <;>
  by_cases h6 : u8 (reg.FTDI_GET_MSR B) &&& reg.FTDI_SIO_RLSD_MASK = 0 <;>
  simp only [h1, h2, h3, h4, h5, h6, ne_eq, not_true_eq_false, not_false_eq_true, if_true,
    if_false, or_self, or_true, true_or, or_false, false_or, u8_or, u8_u8, hz, Nat.zero_or,
    Nat.or_zero, Nat.or_self, hoo] <;>
  try simp only [Nat.or_assoc, Nat.or_comm, hlc, hoo, Nat.or_self]



theorem two_packets_split (pc : PageCache) (A B P1 P2 : List Nat) (m k : Nat) (hm : 3 ≤ m)
    (hA : A.length = 2) (hP1 : P1.length = m - 2) (hB : B.length = 2)
    (hbuf : usbd_copy_out pc 0 (m + 2 + k) = A ++ P1 ++ B ++ P2) :
    usbd_copy_out pc 0 2 = A ∧ usbd_copy_out pc 2 (m - 2) = P1 ∧
    usbd_copy_out pc m 2 = B ∧ usbd_copy_out pc (m + 2) k = P2 := by
  have e : m + 2 + k = 2 + ((m - 2) + (2 + k)) := by omega
  rw [e, copy_out_add, copy_out_add, copy_out_add] at hbuf
  have e2 : 0 + 2 + (m - 2) = m := by omega
  rw [e2, Nat.zero_add, List.append_assoc, List.append_assoc] at hbuf
  obtain ⟨h1, hbuf⟩ := List.append_inj hbuf (by rw [copy_out_length, hA])
  obtain ⟨h2, hbuf⟩ := List.append_inj hbuf (by rw [copy_out_length, hP1])
  obtain ⟨h3, h4⟩ := List.append_inj hbuf (by rw [copy_out_length, hB])
  exact ⟨h1, h2, h3, h4⟩

theorem read_loop_two_packets (reg : uftdi_reg) (pc : PageCache) (ucom : ucom_softc)
    (A B P1 P2 : List Nat) (m k : Nat) (hm : 3 ≤ m) (hk : k ≤ m - 2)
    (hA : A.length = 2) (hP1 : P1.length = m - 2) (hB : B.length = 2) (hP2 : P2.length = k)
    (hbuf : usbd_copy_out pc 0 (m + 2 + k) = A ++ P1 ++ B ++ P2) :
    uftdi_read_loop reg pc (m - 2) (m + 2 + k + 1) ucom 0 0 0 (m + 2 + k) [0, 0] =
      some ({ ucom with inq := ucom.inq ++ P1 ++ P2 },
        u8 (u8 (0 ||| reg.FTDI_GET_LSR A) ||| reg.FTDI_GET_LSR B),
        (if reg.FTDI_GET_MSR B &&& reg.FTDI_SIO_RI_MASK ≠ 0
          then u8 ((if reg.FTDI_GET_MSR A &&& reg.FTDI_SIO_RI_MASK ≠ 0
            then u8 (0 ||| reg.SER_RI) else 0) ||| reg.SER_RI)
          else (if reg.FTDI_GET_MSR A &&& reg.FTDI_SIO_RI_MASK ≠ 0
            then u8 (0 ||| reg.SER_RI) else 0)), B) := by
  obtain ⟨h1, h2, h3, h4⟩ := two_packets_split pc A B P1 P2 m k hm hA hP1 hB hbuf
  have ef : m + 2 + k + 1 = (m + k) + 1 + 1 + 1 := by omega
  have c1 : m + 2 + k ≥ 2 := by omega
  have p1 : min (m + 2 + k - 2) (m - 2) = m - 2 := by omega
  have n1 : m - 2 ≠ 0 := by omega
  have o1 : 0 + 2 + (m - 2) = m := by omega
  have b1 : m + 2 + k - 2 - (m - 2) = k + 2 := by omega
  have c2 : k + 2 ≥ 2 := by omega
  have p2 : min (k + 2 - 2) (m - 2) = k := by omega
  have b2 : k + 2 - 2 - k = 0 := by omega
  have c3 : ¬ (0 ≥ 2) := by omega
  rw [ef, read_loop_succ, if_pos c1, p1, if_pos n1, o1, b1, Nat.zero_add, h1,
    read_loop_succ, if_pos c2, p2, b2, h3, read_loop_succ, if_neg c3]
  by_cases hk0 : k = 0
  · subst hk0
    have : P2 = [] := List.length_eq_zero.mp hP2
    subst this
    simp [ucom_put_data, h2]
  · simp [ucom_put_data, h2, h4, hk0]

/-- Claim C9: for a maximum packet size m ≥ 3 and a read buffer made of a
full first packet (header `A`, m - 2 payload bytes `P1`) and a second packet
(header `B`, k ≤ m - 2 payload bytes `P2`), the read callback forwards exactly
the m - 2 + k bytes `P1 ++ P2` in order, computes the line status as
`A.lsr | B.lsr` and the modem bits CTS, DSR and DCD from header `B` only, with
RI set when `A` or `B` has the RI bit; these values then go through the status
tracking and the transfer is resubmitted. -/
theorem read_two_packets (reg : uftdi_reg) (sc : uftdi_softc) (xfer : usb_xfer)
    (A B P1 P2 : List Nat) (m k : Nat) (hm : 3 ≤ m) (hm32 : m < 4294967296)
    (hx : xfer.max_packet_size = m) (hk : k ≤ m - 2)
    (hA : A.length = 2) (hP1 : P1.length = m - 2) (hB : B.length = 2) (hP2 : P2.length = k)
    (hlen : xfer.actlen = m + 2 + k)
    (hbuf : usbd_copy_out xfer.frame 0 xfer.actlen = A ++ P1 ++ B ++ P2) :
    read_computed reg xfer =
      some (spec_two_header_msr reg A B, spec_two_header_lsr reg A B) ∧
    uftdi_read_callback reg sc xfer usb_state.USB_ST_TRANSFERRED false =
      some (uftdi_read_status reg
          { sc with sc_ucom := { sc.sc_ucom with inq := sc.sc_ucom.inq ++ P1 ++ P2 } }
          (spec_two_header_msr reg A B) (spec_two_header_lsr reg A B),
        uftdi_read_tr_setup xfer) ∧
    (P1 ++ P2).length = m - 2 + k := by
  rw [hlen] at hbuf
  have hp : uftdi_pktmax xfer = m - 2 := by
    unfold uftdi_pktmax u32 UFTDI_IHDRSIZE
    rw [hx]; omega
  have hl : spec_two_header_lsr reg A B =
      u8 (u8 (0 ||| reg.FTDI_GET_LSR A) ||| reg.FTDI_GET_LSR B) := by
    simp only [spec_two_header_lsr, u8_or, u8_u8, Nat.zero_or]
  have hlt : ¬ (m + 2 + k < UFTDI_IHDRSIZE) := by unfold UFTDI_IHDRSIZE; omega
  refine ⟨?_, ?_, by rw [List.length_append, hP1, hP2]⟩
  · simp only [read_computed, hp, hlen,
      read_loop_two_packets reg xfer.frame _ A B P1 P2 m k hm hk hA hP1 hB hP2 hbuf,
      two_header_msr_eq, hl]
  · simp only [uftdi_read_callback, hp, hlen, hlt, if_false,
      read_loop_two_packets reg xfer.frame _ A B P1 P2 m k hm hk hA hP1 hB hP2 hbuf,
      two_header_msr_eq, hl]

theorem read_two_packets_witness :
    (uftdi_read_callback reg_sample softc_zero
      (xfer_of ([0x10, 2] ++ [1, 2, 3, 4, 5, 6, 7, 8, 9, 10] ++ [0x40, 4] ++
        [11, 12, 13, 14, 15]) 12)
      usb_state.USB_ST_TRANSFERRED false).map
        (fun r => (r.1.sc_ucom.inq, r.1.sc_msr, r.1.sc_lsr)) =
      some ([1, 2, 3, 4, 5, 6, 7, 8, 9, 10, 11, 12, 13, 14, 15], 0x40, 6) := by
  have h := (read_two_packets reg_sample softc_zero
    (xfer_of ([0x10, 2] ++ [1, 2, 3, 4, 5, 6, 7, 8, 9, 10] ++ [0x40, 4] ++
        [11, 12, 13, 14, 15]) 12)
    [0x10, 2] [0x40, 4] [1, 2, 3, 4, 5, 6, 7, 8, 9, 10] [11, 12, 13, 14, 15] 12 5
    (by decide) (by decide) rfl (by decide) rfl rfl rfl rfl (by decide) (by decide)).2.1
  rw [h]
  decide



theorem read_loop_status_indep (reg : uftdi_reg) (pc : PageCache) (pktmax : Nat) :
    ∀ (fuel : Nat) (ucom ucom' : ucom_softc) (lsr msr offset buflen : Nat) (buf : List Nat),
      (uftdi_read_loop reg pc pktmax fuel ucom lsr msr offset buflen buf).map (fun r => r.2) =
      (uftdi_read_loop reg pc pktmax fuel ucom' lsr msr offset buflen buf).map (fun r => r.2) := by
  intro fuel
  induction fuel with
  | zero => intros; rfl
  | succ f ih =>
    intro ucom ucom' lsr msr offset buflen buf
    rw [read_loop_succ, read_loop_succ]
    by_cases h : buflen ≥ 2
    · rw [if_pos h, if_pos h]
      exact ih _ _ _ _ _ _ _
    · rw [if_neg h, if_neg h]
      rfl

theorem read_loop_total (reg : uftdi_reg) (pc : PageCache) (pktmax : Nat) :
    ∀ (fuel : Nat) (ucom : ucom_softc) (lsr msr offset buflen : Nat) (buf : List Nat),
      buflen < fuel →
      ∃ r, uftdi_read_loop reg pc pktmax fuel ucom lsr msr offset buflen buf = some r ∧
        r.1.status_changes = ucom.status_changes := by
  intro fuel
  induction fuel with
  | zero => intro _ _ _ _ _ _ h; omega
  | succ f ih =>
    intro ucom lsr msr offset buflen buf hlt
    rw [read_loop_succ]
    by_cases h : buflen ≥ 2
    · rw [if_pos h]
      obtain ⟨r, hr, hs⟩ := ih
        (if min (buflen - 2) pktmax ≠ 0
          then ucom_put_data ucom pc (offset + 2) (min (buflen - 2) pktmax) else ucom)
        (u8 (lsr ||| reg.FTDI_GET_LSR (usbd_copy_out pc offset 2)))
        (if reg.FTDI_GET_MSR (usbd_copy_out pc offset 2) &&& reg.FTDI_SIO_RI_MASK ≠ 0
          then u8 (msr ||| reg.SER_RI) else msr)
        (offset + 2 + min (buflen - 2) pktmax)
        (buflen - 2 - min (buflen - 2) pktmax)
        (usbd_copy_out pc offset 2) (by omega)
      refine ⟨r, hr, ?_⟩
      rw [hs]
      split <;> rfl
    · rw [if_neg h]
      exact ⟨_, rfl, rfl⟩

theorem read_callback_transferred (reg : uftdi_reg) (sc : uftdi_softc) (xfer : usb_xfer)
    (h2 : 2 ≤ xfer.actlen) :
    ∃ ucom' msr lsr, read_computed reg xfer = some (msr, lsr) ∧
      uftdi_read_callback reg sc xfer usb_state.USB_ST_TRANSFERRED false =
        some (uftdi_read_status reg { sc with sc_ucom := ucom' } msr lsr,
          uftdi_read_tr_setup xfer) ∧
      ucom'.status_changes = sc.sc_ucom.status_changes := by
  obtain ⟨⟨ucom', lsr, msr, buf⟩, hr, hs⟩ := read_loop_total reg xfer.frame (uftdi_pktmax xfer)
    (xfer.actlen + 1) sc.sc_ucom 0 0 0 xfer.actlen [0, 0] (by omega)
  have hi := read_loop_status_indep reg xfer.frame (uftdi_pktmax xfer) (xfer.actlen + 1)
    softc_zero.sc_ucom sc.sc_ucom 0 0 0 xfer.actlen [0, 0]
  rw [hr] at hi
  simp only [Option.map_some'] at hi
  have hlt : ¬ (xfer.actlen < UFTDI_IHDRSIZE) := by unfold UFTDI_IHDRSIZE; omega
  refine ⟨ucom', uftdi_read_msr reg msr buf, lsr, ?_, ?_, hs⟩
  · unfold read_computed
    cases hc : uftdi_read_loop reg xfer.frame (uftdi_pktmax xfer) (xfer.actlen + 1)
        softc_zero.sc_ucom 0 0 0 xfer.actlen [0, 0] with
    | none => rw [hc] at hi; simp at hi
    | some r =>
      rw [hc] at hi
      simp only [Option.map_some', Option.some.injEq] at hi
      obtain ⟨u, l, m, b⟩ := r
      simp only [Prod.mk.injEq] at hi
      obtain ⟨rfl, rfl, rfl⟩ := hi
      rfl
  · simp only [uftdi_read_callback, hlt, if_false, hr]

theorem read_status_spec (reg : uftdi_reg) (sc : uftdi_softc) (msr lsr : Nat) :
    (uftdi_read_status reg sc msr lsr).sc_msr = msr ∧
    (uftdi_read_status reg sc msr lsr).sc_lsr &&& reg.FTDI_LSR_MASK =
      lsr &&& reg.FTDI_LSR_MASK ∧
    (uftdi_read_status reg sc msr lsr).sc_ucom.status_changes - sc.sc_ucom.status_changes ≤ 1 ∧
    (sc.sc_msr = msr → sc.sc_lsr &&& reg.FTDI_LSR_MASK = lsr &&& reg.FTDI_LSR_MASK →
      (uftdi_read_status reg sc msr lsr).sc_ucom.status_changes - sc.sc_ucom.status_changes
        = 0) := by
  unfold uftdi_read_status
  by_cases h : sc.sc_msr ≠ msr ∨
      sc.sc_lsr &&& reg.FTDI_LSR_MASK ≠ lsr &&& reg.FTDI_LSR_MASK
  · rw [if_pos h]
    refine ⟨rfl, rfl, ?_, ?_⟩
    · simp [ucom_status_change]
    · intro h1 h2
      rcases h with h | h
      · exact absurd h1 h
      · exact absurd h2 h
  · rw [if_neg h]
    simp only [ne_eq, not_or, not_not] at h
    exact ⟨h.1, h.2, by simp, fun _ _ => by simp⟩

theorem read_run_spec (reg : uftdi_reg) :
    ∀ (xs : List usb_xfer) (sc : uftdi_softc), (∀ x ∈ xs, 2 ≤ x.actlen) →
      ∃ ns, read_run reg sc xs = some ns ∧ ns.length = xs.length ∧ (∀ n ∈ ns, n ≤ 1) ∧
        (∀ x msr lsr, xs.head? = some x → read_computed reg x = some (msr, lsr) →
          sc.sc_msr = msr → sc.sc_lsr &&& reg.FTDI_LSR_MASK = lsr &&& reg.FTDI_LSR_MASK →
          ns.head? = some 0) ∧
        (∀ i x y, xs[i]? = some x → xs[i + 1]? = some y →
          read_computed reg y = read_computed reg x → ns[i + 1]? = some 0) := by
  intro xs
  induction xs with
  | nil =>
    intro sc _
    exact ⟨[], rfl, rfl, by simp, by simp, by simp⟩
  | cons x xs ih =>
    intro sc hall
    obtain ⟨ucom', msr, lsr, hc, hcb, hsc⟩ :=
      read_callback_transferred reg sc x (hall x (List.mem_cons_self _ _))
    obtain ⟨hm, hl, hle, hz⟩ := read_status_spec reg { sc with sc_ucom := ucom' } msr lsr
    simp only at hle hz
    rw [hsc] at hle hz
    obtain ⟨ns, hrun, hlen, hbound, hhead, hidx⟩ :=
      ih (uftdi_read_status reg { sc with sc_ucom := ucom' } msr lsr)
        (fun y hy => hall y (List.mem_cons_of_mem _ hy))
    refine ⟨((uftdi_read_status reg { sc with sc_ucom := ucom' } msr lsr).sc_ucom.status_changes
      - sc.sc_ucom.status_changes) :: ns, ?_, ?_, ?_, ?_, ?_⟩
    · simp only [read_run, hcb, hrun]
    · simp [hlen]
    · intro n hn
      rcases List.mem_cons.mp hn with rfl | hn
      · exact hle
      · exact hbound n hn
    · intro x' msr' lsr' hx' hc' h1 h2
      simp only [List.head?_cons, Option.some.injEq] at hx'
      subst hx'
      rw [hc] at hc'
      simp only [Option.some.injEq, Prod.mk.injEq] at hc'
      obtain ⟨rfl, rfl⟩ := hc'
      simp only [List.head?_cons, Option.some.injEq]
      exact hz h1 h2
    · intro i a b ha hb hab
      cases i with
      | zero =>
        simp only [List.getElem?_cons_zero, Option.some.injEq] at ha
        subst ha
        simp only [Nat.zero_add, List.getElem?_cons_succ] at hb ⊢
        rw [hc] at hab
        have hh : xs.head? = some b := by
          rw [← hb]; cases xs <;> simp
        have := hhead b msr lsr hh hab hm hl
        rw [← this]
        cases ns <;> simp
      | succ j =>
        simp only [List.getElem?_cons_succ] at ha hb ⊢
        exact hidx j a b ha hb hab

/-- Claim C10: for every sequence of read buffers of at least 2 bytes each,
processed by the read callback from any stored state (in particular the
attach-time state with `sc_msr = 0` and `sc_lsr = 0`), every buffer is
processed, at most one status change notification is emitted per buffer, and
none is emitted for a buffer that is not the first one and whose computed
(modem bits, line-status bits) pair equals that of the buffer right before. -/
theorem status_change_not_repeated (reg : uftdi_reg) (sc : uftdi_softc)
    (xs : List usb_xfer) (hall : ∀ x ∈ xs, 2 ≤ x.actlen) :
    ∃ ns, read_run reg sc xs = some ns ∧ ns.length = xs.length ∧ (∀ n ∈ ns, n ≤ 1) ∧
      (∀ i x y, xs[i]? = some x → xs[i + 1]? = some y →
        read_computed reg y = read_computed reg x → ns[i + 1]? = some 0) := by
  obtain ⟨ns, h1, h2, h3, -, h5⟩ := read_run_spec reg xs sc hall
  exact ⟨ns, h1, h2, h3, h5⟩

theorem status_change_not_repeated_witness :
    ∃ ns, read_run reg_sample softc_zero
        [xfer_of [0x10, 0] 64, xfer_of [0x10, 0, 5] 64] = some ns ∧
      ns.length = [xfer_of [0x10, 0] 64, xfer_of [0x10, 0, 5] 64].length ∧
      (∀ n ∈ ns, n ≤ 1) ∧
      (∀ i x y, [xfer_of [0x10, 0] 64, xfer_of [0x10, 0, 5] 64][i]? = some x →
        [xfer_of [0x10, 0] 64, xfer_of [0x10, 0, 5] 64][i + 1]? = some y →
        read_computed reg_sample y = read_computed reg_sample x → ns[i + 1]? = some 0) :=
  status_change_not_repeated reg_sample softc_zero
    [xfer_of [0x10, 0] 64, xfer_of [0x10, 0, 5] 64] (by decide)


/-! ### Device profile -/

/-- Claim C12: `uftdi_devtype_setup`, applied to a zero-initialised softc,
maps 0x400 to 232B (no flags, port 0), 0x500 to 2232D (flag BAUDBITS_HINDEX,
port `FTDI_PIT_SIOA` + interface number), 0x600 to 232R (no flags, port 0),
0x700, 0x800 and 0x900 to 2232H, 4232H and 232H (flags BAUDBITS_HINDEX and
BAUDCLK_12M, port `FTDI_PIT_SIOA` + interface number) and 0x1000 to 230X (flag
BAUDBITS_HINDEX, port `FTDI_PIT_SIOA` + interface number), and records the
revision code in `sc_bcdDevice`; the port number is a 16-bit field. -/
theorem devtype_setup_known_codes (pit ser iface : Nat) (h : pit + iface < 65536) :
    (uftdi_devtype_setup pit softc_zero 0x400 ser iface).1 =
      { softc_zero with sc_bcdDevice := 0x400, sc_devtype := DEVT_232B } ∧
    (uftdi_devtype_setup pit softc_zero 0x500 ser iface).1 =
      { softc_zero with
        sc_bcdDevice := 0x500, sc_devtype := DEVT_2232D, sc_devflags := DEVF_BAUDBITS_HINDEX,
        sc_ucom := { softc_zero.sc_ucom with sc_portno := pit + iface } } ∧
    (uftdi_devtype_setup pit softc_zero 0x600 ser iface).1 =
      { softc_zero with sc_bcdDevice := 0x600, sc_devtype := DEVT_232R } ∧
    (uftdi_devtype_setup pit softc_zero 0x700 ser iface).1 =
      { softc_zero with
        sc_bcdDevice := 0x700, sc_devtype := DEVT_2232H, sc_devflags := DEVF_BAUDBITS_HINDEX ||| DEVF_BAUDCLK_12M,
        sc_ucom := { softc_zero.sc_ucom with sc_portno := pit + iface } } ∧
    (uftdi_devtype_setup pit softc_zero 0x800 ser iface).1 =
      { softc_zero with
        sc_bcdDevice := 0x800, sc_devtype := DEVT_4232H, sc_devflags := DEVF_BAUDBITS_HINDEX ||| DEVF_BAUDCLK_12M,
        sc_ucom := { softc_zero.sc_ucom with sc_portno := pit + iface } } ∧
    (uftdi_devtype_setup pit softc_zero 0x900 ser iface).1 =
      { softc_zero with
        sc_bcdDevice := 0x900, sc_devtype := DEVT_232H, sc_devflags := DEVF_BAUDBITS_HINDEX ||| DEVF_BAUDCLK_12M,
        sc_ucom := { softc_zero.sc_ucom with sc_portno := pit + iface } } ∧
    (uftdi_devtype_setup pit softc_zero 0x1000 ser iface).1 =
      { softc_zero with
        sc_bcdDevice := 0x1000, sc_devtype := DEVT_230X, sc_devflags := DEVF_BAUDBITS_HINDEX,
        sc_ucom := { softc_zero.sc_ucom with sc_portno := pit + iface } } ∧
    softc_zero.sc_devflags = 0 ∧ softc_zero.sc_hdrlen = 0 ∧ softc_zero.sc_ucom.sc_portno = 0 := by
  have hp : u16 (pit + iface) = pit + iface := Nat.mod_eq_of_lt h
  have h0 : u16 0 = 0 := rfl
  have f1 : u8 DEVF_BAUDBITS_HINDEX = DEVF_BAUDBITS_HINDEX := by decide
  have f2 : u8 (DEVF_BAUDBITS_HINDEX ||| DEVF_BAUDCLK_12M) =
      DEVF_BAUDBITS_HINDEX ||| DEVF_BAUDCLK_12M := by decide
  refine ⟨?_, ?_, ?_, ?_, ?_, ?_, ?_, rfl, rfl, rfl⟩ <;>
    simp [uftdi_devtype_setup, softc_zero, hp, h0, f1, f2]

/-- Claim C13: for revision code 0x200 `uftdi_devtype_setup` selects
`DEVT_232B` when `iSerialNumber` is 0 and `DEVT_232A` otherwise, in both cases
with no capability flags, header length 0, port number 0 and no warning. -/
theorem devtype_setup_0x200 (pit ser iface : Nat) :
    uftdi_devtype_setup pit softc_zero 0x200 ser iface =
      ({ softc_zero with
          sc_bcdDevice := 0x200,
          sc_devtype := if ser = 0 then DEVT_232B else DEVT_232A }, false) ∧
    (uftdi_devtype_setup pit softc_zero 0x200 ser iface).1.sc_devflags = 0 ∧
    (uftdi_devtype_setup pit softc_zero 0x200 ser iface).1.sc_hdrlen = 0 ∧
    (uftdi_devtype_setup pit softc_zero 0x200 ser iface).1.sc_ucom.sc_portno = 0 := by
  have h0 : u16 0 = 0 := rfl
  by_cases hs : ser = 0 <;> simp [uftdi_devtype_setup, softc_zero, hs, h0]

/-- Claim C14: for every revision code outside {0x200, 0x400, 0x500, 0x600,
0x700, 0x800, 0x900, 0x1000}, `uftdi_devtype_setup` selects `DEVT_SIO` with
header length 1 (no warning) when the code is below 0x200 and `DEVT_232R` with
header length 0 and the warning when it is 0x200 or above; in both cases with
no capability flags and port number 0. -/
theorem devtype_setup_unknown_codes (pit code ser iface : Nat)
    (h : code ∉ [0x200, 0x400, 0x500, 0x600, 0x700, 0x800, 0x900, 0x1000]) :
    uftdi_devtype_setup pit softc_zero code ser iface =
      (if code < 0x200
        then ({ softc_zero with sc_bcdDevice := code, sc_devtype := DEVT_SIO, sc_hdrlen := 1 },
          false)
        else ({ softc_zero with sc_bcdDevice := code, sc_devtype := DEVT_232R }, true)) ∧
    softc_zero.sc_devflags = 0 ∧ softc_zero.sc_hdrlen = 0 ∧ softc_zero.sc_ucom.sc_portno = 0 := by
  have h0 : u16 0 = 0 := rfl
  simp only [List.mem_cons, List.mem_singleton, List.not_mem_nil, or_false, not_or] at h
  obtain ⟨h1, h2, h3, h4, h5, h6, h7, h8⟩ := h
  refine ⟨?_, rfl, rfl, rfl⟩
  by_cases hl : code < 0x200 <;>
    simp [uftdi_devtype_setup, softc_zero, h1, h2, h3, h4, h5, h6, h7, h8, hl, h0]


theorem devtype_setup_known_codes_witness :
    (uftdi_devtype_setup 1 softc_zero 0x700 0 1).1.sc_devtype = DEVT_2232H ∧
    (uftdi_devtype_setup 1 softc_zero 0x700 0 1).1.sc_devflags = 3 ∧
    (uftdi_devtype_setup 1 softc_zero 0x700 0 1).1.sc_ucom.sc_portno = 2 ∧
    (uftdi_devtype_setup 1 softc_zero 0x700 0 1).1.sc_bcdDevice = 0x700 := by
  rw [(devtype_setup_known_codes 1 0 1 (by decide)).2.2.2.1]
  decide

theorem devtype_setup_unknown_codes_witness :
    uftdi_devtype_setup 1 softc_zero 0x100 0 0 =
      (if 0x100 < 0x200
        then ({ softc_zero with sc_bcdDevice := 0x100, sc_devtype := DEVT_SIO, sc_hdrlen := 1 },
          false)
        else ({ softc_zero with sc_bcdDevice := 0x100, sc_devtype := DEVT_232R }, true)) ∧
    softc_zero.sc_devflags = 0 ∧ softc_zero.sc_hdrlen = 0 ∧ softc_zero.sc_ucom.sc_portno = 0 :=
  devtype_setup_unknown_codes 1 0x100 0 0 (by decide)

/-- Claim C15: for every revision code, serial number index and interface
number, the profile `uftdi_devtype_setup` produces from a zero-initialised
softc has `sc_hdrlen` 0 or 1, with `sc_hdrlen = 1` exactly when `sc_devtype` is
`DEVT_SIO`; so the baud encoder `uftdi_set_parm_soft` calls is the fixed-table
one exactly when the write callback uses headered framing. -/
theorem devtype_hdrlen_iff_sio (pit code ser iface : Nat) :
    ((uftdi_devtype_setup pit softc_zero code ser iface).1.sc_hdrlen = 0 ∨
      (uftdi_devtype_setup pit softc_zero code ser iface).1.sc_hdrlen = 1) ∧
    ((uftdi_devtype_setup pit softc_zero code ser iface).1.sc_hdrlen = 1 ↔
      (uftdi_devtype_setup pit softc_zero code ser iface).1.sc_devtype = DEVT_SIO) ∧
    ((uftdi_devtype_setup pit softc_zero code ser iface).1.sc_hdrlen ≠ 0 ↔
      (uftdi_devtype_setup pit softc_zero code ser iface).1.sc_devtype = DEVT_SIO) ∧
    (∀ speed cfg,
      uftdi_encode_dispatch (uftdi_devtype_setup pit softc_zero code ser iface).1 speed cfg =
        if (uftdi_devtype_setup pit softc_zero code ser iface).1.sc_hdrlen = 1
        then uftdi_sio_encode_baudrate
          (uftdi_devtype_setup pit softc_zero code ser iface).1 speed cfg
        else uftdi_encode_baudrate
          (uftdi_devtype_setup pit softc_zero code ser iface).1 speed cfg) := by
  have key : ((uftdi_devtype_setup pit softc_zero code ser iface).1.sc_hdrlen = 0 ∧
      (uftdi_devtype_setup pit softc_zero code ser iface).1.sc_devtype ≠ DEVT_SIO) ∨
      ((uftdi_devtype_setup pit softc_zero code ser iface).1.sc_hdrlen = 1 ∧
      (uftdi_devtype_setup pit softc_zero code ser iface).1.sc_devtype = DEVT_SIO) := by
    unfold uftdi_devtype_setup
    simp only
    split_ifs <;> simp [softc_zero, DEVT_SIO, DEVT_232A, DEVT_232B, DEVT_2232D, DEVT_232R,
      DEVT_2232H, DEVT_4232H, DEVT_232H, DEVT_230X]
  rcases key with ⟨h0, hd⟩ | ⟨h1, hd⟩
  · refine ⟨Or.inl h0, ?_, ?_, ?_⟩
    · rw [h0]; simp [hd]
    · rw [h0]; simp [hd]
    · intro speed cfg
      rw [h0]
      simp [uftdi_encode_dispatch, hd]
  · refine ⟨Or.inr h1, ?_, ?_, ?_⟩
    · rw [h1]; simp [hd]
    · rw [h1]; simp [hd]
    · intro speed cfg
      rw [h1]
      simp [uftdi_encode_dispatch, hd]

/-! ### Status tracking and short buffers -/

theorem or_eq_zero (a b : Nat) : a ||| b = 0 ↔ a = 0 ∧ b = 0 := by
  constructor
  · intro h
    have ht : ∀ i, (a ||| b).testBit i = false := by intro i; rw [h]; exact Nat.zero_testBit i
    simp only [Nat.testBit_or, Bool.or_eq_false_iff] at ht
    constructor
    · apply Nat.eq_of_testBit_eq; intro i; rw [(ht i).1, Nat.zero_testBit]
    · apply Nat.eq_of_testBit_eq; intro i; rw [(ht i).2, Nat.zero_testBit]
  · rintro ⟨rfl, rfl⟩; rfl

theorem and_or_ne_zero (a b c : Nat) :
    a &&& (b ||| c) ≠ 0 ↔ (a &&& b ≠ 0 ∨ a &&& c ≠ 0) := by
  rw [Nat.and_or_distrib_left, ne_eq, or_eq_zero]
  tauto

theorem sio_encode_loop_cases (speed : Nat) (cfg : uftdi_param_config) :
    ∀ (l : List Nat) (i : Nat),
      uftdi_sio_encode_loop speed cfg i l = (ERANGE, cfg) ∨
      ∃ lo hi, uftdi_sio_encode_loop speed cfg i l =
        (0, { cfg with baud_lobits := lo, baud_hibits := hi }) := by
  intro l
  induction l with
  | nil => intro i; exact Or.inl rfl
  | cons s rest ih =>
    intro i
    rw [uftdi_sio_encode_loop]
    by_cases h : speed = s
    · rw [if_pos h]
      exact Or.inr ⟨u16 i, 0, rfl⟩
    · rw [if_neg h]
      exact ih (i + 1)

theorem encode_dispatch_cases (sc : uftdi_softc) (speed : Nat) (cfg : uftdi_param_config) :
    uftdi_encode_dispatch sc speed cfg = (ERANGE, cfg) ∨
    ∃ lo hi, uftdi_encode_dispatch sc speed cfg =
      (0, { cfg with baud_lobits := lo, baud_hibits := hi }) := by
  unfold uftdi_encode_dispatch
  by_cases hd : sc.sc_devtype = DEVT_SIO
  · rw [if_pos hd]
    exact sio_encode_loop_cases speed cfg sio_speeds 0
  · rw [if_neg hd, uftdi_encode_baudrate_eq]
    split
    · exact Or.inl rfl
    · split
      · exact Or.inl rfl
      · right
        unfold baud_cfg
        by_cases hx : sc.sc_devflags &&& DEVF_BAUDBITS_HINDEX ≠ 0
        · rw [if_pos hx]
          exact ⟨_, _, rfl⟩
        · rw [if_neg hx]
          exact ⟨_, _, rfl⟩

/-- Claim C18: when a completed read buffer is shorter than the 2-byte header,
the read callback leaves the softc as it was (no payload forwarded, `sc_msr`
and `sc_lsr` unchanged, no status change notification) and resubmits the
transfer with the maximum frame length. -/
theorem read_short_buffer (reg : uftdi_reg) (sc : uftdi_softc) (xfer : usb_xfer) (cancelled : Bool)
    (h : xfer.actlen < 2) :
    uftdi_read_callback reg sc xfer usb_state.USB_ST_TRANSFERRED cancelled =
      some (sc, uftdi_read_tr_setup xfer) ∧
    (uftdi_read_tr_setup xfer).submits = xfer.submits + 1 ∧
    (uftdi_read_tr_setup xfer).frame_len = xfer.max_len := by
  refine ⟨?_, rfl, rfl⟩
  have hlt : xfer.actlen < UFTDI_IHDRSIZE := h
  simp only [uftdi_read_callback, hlt, if_true]

theorem read_short_buffer_witness :
    uftdi_read_callback reg_sample softc_zero (xfer_of [7] 64) usb_state.USB_ST_TRANSFERRED
        false = some (softc_zero, uftdi_read_tr_setup (xfer_of [7] 64)) ∧
    (uftdi_read_tr_setup (xfer_of [7] 64)).submits = (xfer_of [7] 64).submits + 1 ∧
    (uftdi_read_tr_setup (xfer_of [7] 64)).frame_len = (xfer_of [7] 64).max_len :=
  read_short_buffer reg_sample softc_zero (xfer_of [7] 64) false (by decide)

/-- Claim C11, as amended: in the status tracking of the read callback, when
the computed modem bits differ from `sc_msr` or the accumulated line-status
bits differ from `sc_lsr` on a bit of `FTDI_LSR_MASK`, the stored state is
replaced by the new values and exactly one notification is emitted; when the
modem bits are equal and the line-status bits agree on every bit of
`FTDI_LSR_MASK`, the stored state is unchanged and nothing is emitted. -/
theorem status_tracking_masked (reg : uftdi_reg) (sc : uftdi_softc) (xfer : usb_xfer) (h2 : 2 ≤ xfer.actlen) :
    ∃ sc' xfer' msr lsr,
      uftdi_read_callback reg sc xfer usb_state.USB_ST_TRANSFERRED false = some (sc', xfer') ∧
      read_computed reg xfer = some (msr, lsr) ∧
      ((sc.sc_msr ≠ msr ∨ sc.sc_lsr &&& reg.FTDI_LSR_MASK ≠ lsr &&& reg.FTDI_LSR_MASK) →
        sc'.sc_msr = msr ∧ sc'.sc_lsr = lsr ∧
        sc'.sc_ucom.status_changes = sc.sc_ucom.status_changes + 1) ∧
      ((sc.sc_msr = msr ∧ sc.sc_lsr &&& reg.FTDI_LSR_MASK = lsr &&& reg.FTDI_LSR_MASK) →
        sc'.sc_msr = sc.sc_msr ∧ sc'.sc_lsr = sc.sc_lsr ∧
        sc'.sc_ucom.status_changes = sc.sc_ucom.status_changes) := by
  obtain ⟨ucom', msr, lsr, hc, hcb, hs⟩ := read_callback_transferred reg sc xfer h2
  refine ⟨_, _, msr, lsr, hcb, hc, ?_, ?_⟩
  · intro hd
    have hd' : ({ sc with sc_ucom := ucom' } : uftdi_softc).sc_msr ≠ msr ∨
        ({ sc with sc_ucom := ucom' } : uftdi_softc).sc_lsr &&& reg.FTDI_LSR_MASK ≠
          lsr &&& reg.FTDI_LSR_MASK := hd
    unfold uftdi_read_status
    rw [if_pos hd']
    exact ⟨rfl, rfl, by simp [ucom_status_change, hs]⟩
  · intro he
    have hd' : ¬ (({ sc with sc_ucom := ucom' } : uftdi_softc).sc_msr ≠ msr ∨
        ({ sc with sc_ucom := ucom' } : uftdi_softc).sc_lsr &&& reg.FTDI_LSR_MASK ≠
          lsr &&& reg.FTDI_LSR_MASK) := by
      simp only [ne_eq, not_or, not_not]
      exact he
    unfold uftdi_read_status
    rw [if_neg hd']
    exact ⟨rfl, rfl, hs⟩

/-- Claim C11 fails as stated when the line status differs only outside
`FTDI_LSR_MASK`: from the zero state a buffer with line-status byte 0x60
computes the pair (0, 0x60), which differs from the stored `sc_lsr = 0`, yet
the stored state is not replaced and no notification is emitted. -/
theorem status_tracking_ignores_masked_out_bits :
    read_computed reg_sample (xfer_of [0, 0x60] 64) = some (0, 0x60) ∧
    softc_zero.sc_lsr ≠ 0x60 ∧
    (uftdi_read_callback reg_sample softc_zero (xfer_of [0, 0x60] 64)
      usb_state.USB_ST_TRANSFERRED false).map
        (fun r => (r.1.sc_msr, r.1.sc_lsr, r.1.sc_ucom.status_changes)) = some (0, 0, 0) := by
  decide

theorem status_tracking_masked_witness :
    ∃ sc' xfer' msr lsr,
      uftdi_read_callback reg_sample softc_zero (xfer_of [0x10, 0] 64)
        usb_state.USB_ST_TRANSFERRED false = some (sc', xfer') ∧
      read_computed reg_sample (xfer_of [0x10, 0] 64) = some (msr, lsr) ∧
      ((softc_zero.sc_msr ≠ msr ∨
          softc_zero.sc_lsr &&& reg_sample.FTDI_LSR_MASK ≠ lsr &&& reg_sample.FTDI_LSR_MASK) →
        sc'.sc_msr = msr ∧ sc'.sc_lsr = lsr ∧
        sc'.sc_ucom.status_changes = softc_zero.sc_ucom.status_changes + 1) ∧
      ((softc_zero.sc_msr = msr ∧
          softc_zero.sc_lsr &&& reg_sample.FTDI_LSR_MASK = lsr &&& reg_sample.FTDI_LSR_MASK) →
        sc'.sc_msr = softc_zero.sc_msr ∧ sc'.sc_lsr = softc_zero.sc_lsr ∧
        sc'.sc_ucom.status_changes = softc_zero.sc_ucom.status_changes) :=
  status_tracking_masked reg_sample softc_zero (xfer_of [0x10, 0] 64) (by decide)

/-! ### Line configuration -/

theorem set_parm_soft_cases (tc : tty_consts) (fs : ftdi_sio) (sc : uftdi_softc) (t : termios)
    (cfg : uftdi_param_config) :
    ((uftdi_encode_dispatch sc t.c_ospeed cfg_zero).1 = ERANGE ∧
      uftdi_set_parm_soft tc fs sc t cfg = (ERANGE, cfg_zero)) ∨
    ((uftdi_encode_dispatch sc t.c_ospeed cfg_zero).1 = 0 ∧
      (uftdi_set_parm_soft tc fs sc t cfg).1 = 0 ∧
      ((uftdi_set_parm_soft tc fs sc t cfg).2.v_flow,
        (uftdi_set_parm_soft tc fs sc t cfg).2.v_start,
        (uftdi_set_parm_soft tc fs sc t cfg).2.v_stop) =
      (if t.c_cflag &&& tc.CRTSCTS ≠ 0 then (u8 fs.FTDI_SIO_RTS_CTS_HS, 0, 0)
       else if t.c_iflag &&& (tc.IXON ||| tc.IXOFF) ≠ 0 then
        (u8 fs.FTDI_SIO_XON_XOFF_HS, u8 (t.c_cc tc.VSTART), u8 (t.c_cc tc.VSTOP))
       else (u8 fs.FTDI_SIO_DISABLE_FLOW_CTRL, 0, 0))) := by
  rcases encode_dispatch_cases sc t.c_ospeed cfg_zero with he | ⟨lo, hi, he⟩
  · left
    refine ⟨by rw [he], ?_⟩
    simp only [uftdi_set_parm_soft, he, ne_eq, ERANGE_ne_zero, not_false_eq_true, if_true]
  · right
    refine ⟨by rw [he], ?_⟩
    unfold uftdi_set_parm_soft
    simp only [he, ne_eq, not_true_eq_false, if_false, true_and]
    by_cases h1 : t.c_cflag &&& tc.CRTSCTS = 0
    · by_cases h2 : t.c_iflag &&& (tc.IXON ||| tc.IXOFF) = 0
      · simp only [h1, h2, not_true_eq_false, if_false, apply_ite uftdi_param_config.v_start,
          apply_ite uftdi_param_config.v_stop, ite_self, cfg_zero]
      · simp only [h1, h2, not_true_eq_false, not_false_eq_true, if_true, if_false]
    · simp only [h1, not_false_eq_true, if_true, apply_ite uftdi_param_config.v_start,
          apply_ite uftdi_param_config.v_stop, ite_self, cfg_zero]

/-- Claim C16: for every termios setting whose speed is accepted,
`uftdi_set_parm_soft` selects `FTDI_SIO_RTS_CTS_HS` when CRTSCTS is set (also
when IXON or IXOFF is set), otherwise `FTDI_SIO_XON_XOFF_HS` with `v_start`
and `v_stop` taken from `c_cc[VSTART]` and `c_cc[VSTOP]` when IXON or IXOFF is
set, otherwise `FTDI_SIO_DISABLE_FLOW_CTRL`; `v_start` and `v_stop` are 0 in
the two branches that are not XON/XOFF.  The fields are `uint8_t`. -/
theorem set_parm_soft_flow (tc : tty_consts) (fs : ftdi_sio) (sc : uftdi_softc) (t : termios)
    (cfg : uftdi_param_config) (hacc : (uftdi_set_parm_soft tc fs sc t cfg).1 = 0) :
    ((uftdi_set_parm_soft tc fs sc t cfg).2.v_flow,
      (uftdi_set_parm_soft tc fs sc t cfg).2.v_start,
      (uftdi_set_parm_soft tc fs sc t cfg).2.v_stop) =
    (if t.c_cflag &&& tc.CRTSCTS ≠ 0 then (u8 fs.FTDI_SIO_RTS_CTS_HS, 0, 0)
     else if t.c_iflag &&& tc.IXON ≠ 0 ∨ t.c_iflag &&& tc.IXOFF ≠ 0 then
      (u8 fs.FTDI_SIO_XON_XOFF_HS, u8 (t.c_cc tc.VSTART), u8 (t.c_cc tc.VSTOP))
     else (u8 fs.FTDI_SIO_DISABLE_FLOW_CTRL, 0, 0)) := by
  rcases set_parm_soft_cases tc fs sc t cfg with ⟨-, he⟩ | ⟨-, -, hf⟩
  · rw [he] at hacc
    exact absurd hacc ERANGE_ne_zero
  · rw [hf]
    simp only [and_or_ne_zero]

theorem set_parm_soft_flow_witness :
    ((uftdi_set_parm_soft tty_sample sio_sample softc_232b (termios_of 0x200 0x30300 9600)
        cfg_zero).2.v_flow,
      (uftdi_set_parm_soft tty_sample sio_sample softc_232b (termios_of 0x200 0x30300 9600)
        cfg_zero).2.v_start,
      (uftdi_set_parm_soft tty_sample sio_sample softc_232b (termios_of 0x200 0x30300 9600)
        cfg_zero).2.v_stop) = (1, 0, 0) ∧
    ((uftdi_set_parm_soft tty_sample sio_sample softc_232b (termios_of 0x200 0x300 9600)
        cfg_zero).2.v_flow,
      (uftdi_set_parm_soft tty_sample sio_sample softc_232b (termios_of 0x200 0x300 9600)
        cfg_zero).2.v_start,
      (uftdi_set_parm_soft tty_sample sio_sample softc_232b (termios_of 0x200 0x300 9600)
        cfg_zero).2.v_stop) = (4, 0x11, 0x13) := by
  rw [set_parm_soft_flow tty_sample sio_sample softc_232b (termios_of 0x200 0x30300 9600) cfg_zero (by decide),
    set_parm_soft_flow tty_sample sio_sample softc_232b (termios_of 0x200 0x300 9600) cfg_zero (by decide)]
  decide

/-- Claim C19: `uftdi_set_parm_soft`, and with it `uftdi_pre_param`, returns
the status of the baud encoder of the device type applied to `c_ospeed`; that
status is 0 or ERANGE (which is not 0), it is the same for every choice of the
flag words, control characters and constants, and on error every field of the
output configuration is 0. -/
theorem set_parm_soft_error (tc : tty_consts) (fs : ftdi_sio) (sc : uftdi_softc) (t : termios)
    (cfg : uftdi_param_config) :
    (uftdi_set_parm_soft tc fs sc t cfg).1 =
      (if sc.sc_devtype = DEVT_SIO then (uftdi_sio_encode_baudrate sc t.c_ospeed cfg_zero).1
       else (uftdi_encode_baudrate sc t.c_ospeed cfg_zero).1) ∧
    ((uftdi_set_parm_soft tc fs sc t cfg).1 = 0 ∨
      uftdi_set_parm_soft tc fs sc t cfg = (ERANGE, cfg_zero)) ∧
    ERANGE ≠ 0 ∧
    uftdi_pre_param tc fs sc t cfg = (uftdi_set_parm_soft tc fs sc t cfg).1 ∧
    (∀ (tc' : tty_consts) (fs' : ftdi_sio) (t' : termios) (cfg' : uftdi_param_config),
      (uftdi_set_parm_soft tc' fs' sc { t' with c_ospeed := t.c_ospeed } cfg').1 =
        (uftdi_set_parm_soft tc fs sc t cfg).1) := by
  have hd : ∀ (tc : tty_consts) (fs : ftdi_sio) (t : termios) (cfg : uftdi_param_config),
      (uftdi_set_parm_soft tc fs sc t cfg).1 = (uftdi_encode_dispatch sc t.c_ospeed cfg_zero).1 := by
    intro tc fs t cfg
    rcases set_parm_soft_cases tc fs sc t cfg with ⟨h1, h2⟩ | ⟨h1, h2, -⟩
    · rw [h2, h1]
    · rw [h2, h1]
  refine ⟨?_, ?_, ERANGE_ne_zero, rfl, ?_⟩
  · rw [hd]
    unfold uftdi_encode_dispatch
    split <;> rfl
  · rcases set_parm_soft_cases tc fs sc t cfg with ⟨-, h2⟩ | ⟨-, h2, -⟩
    · exact Or.inr h2
    · exact Or.inl h2
  · intro tc' fs' t' cfg'
    rw [hd, hd]

/-- Claim C20, evaluated on the code: on a 232B profile the speed 2666666 is
accepted with a rounded divisor of 9 eighths, whose integral part is 1 and
whose fraction is neither .0 nor .5; the re-pack step then sends it as
integral 1 with fraction code 0.  The same happens at 10666666 on a 2232H
profile with the 12 MHz clock. -/
theorem integral_one_fraction_eighth :
    (uftdi_encode_baudrate softc_232b 2666666 cfg_zero).1 = 0 ∧
    baud_div8 softc_232b 2666666 = 9 ∧ baud_div8 softc_232b 2666666 >>> 3 = 1 ∧
    baud_div8 softc_232b 2666666 ≠ 8 ∧ baud_div8 softc_232b 2666666 ≠ 12 ∧
    (uftdi_encode_baudrate softc_232b 2666666 cfg_zero).2.baud_lobits = 1 ∧
    softc_2232h.sc_devtype = DEVT_2232H ∧
    (uftdi_encode_baudrate softc_2232h 10666666 cfg_zero).1 = 0 ∧
    baud_div8 softc_2232h 10666666 = 9 := by
  decide

/-! ### Break control -/

theorem testBit_of_lt_65536 (x i : Nat) (hx : x < 65536) (hi : 16 ≤ i) : x.testBit i = false := by
  apply Nat.testBit_lt_two_pow
  calc x < 2 ^ 16 := hx
    _ ≤ 2 ^ i := Nat.pow_le_pow_right (by decide) hi

theorem bitnot32_testBit (m i : Nat) :
    (bitnot32 m).testBit i = (decide (i < 32) && !m.testBit i) := by
  have h : u32 m < 2 ^ 32 := Nat.mod_lt _ (by decide)
  have e : bitnot32 m = 2 ^ 32 - (u32 m + 1) := by unfold bitnot32; omega
  rw [e, Nat.testBit_two_pow_sub_succ h]
  have e2 : u32 m = m % 2 ^ 32 := rfl
  rw [e2, Nat.testBit_mod_two_pow]
  by_cases hi : i < 32 <;> simp [hi]

theorem u16_testBit (x i : Nat) : (u16 x).testBit i = (decide (i < 16) && x.testBit i) := by
  have e : u16 x = x % 2 ^ 16 := rfl
  rw [e, Nat.testBit_mod_two_pow]

theorem set_break_lcr (fs : ftdi_sio) (sc : uftdi_softc) (onoff : Nat) :
    uftdi_cfg_set_break fs sc onoff =
      ({ sc with sc_last_lcr := (uftdi_cfg_set_break fs sc onoff).1.sc_last_lcr },
        [{ bmRequestType := u8 fs.UT_WRITE_VENDOR_DEVICE, bRequest := u8 fs.FTDI_SIO_SET_DATA,
           wValue := USETW (uftdi_cfg_set_break fs sc onoff).1.sc_last_lcr,
           wIndex := USETW (u16 sc.sc_ucom.sc_portno), wLength := USETW 0 }]) ∧
    (uftdi_cfg_set_break fs sc onoff).1.sc_last_lcr < 65536 := by
  unfold uftdi_cfg_set_break
  by_cases h : onoff ≠ 0
  · simp only [h, if_true, not_false_eq_true, ne_eq]
    exact ⟨trivial, Nat.mod_lt _ (by decide)⟩
  · simp only [h, if_false]
    exact ⟨trivial, Nat.mod_lt _ (by decide)⟩

theorem set_break_testBit (fs : ftdi_sio) (sc : uftdi_softc) (onoff : Nat)
    (hl : sc.sc_last_lcr < 65536) (i : Nat) :
    (uftdi_cfg_set_break fs sc onoff).1.sc_last_lcr.testBit i =
      if fs.FTDI_SIO_SET_BREAK.testBit i = true ∧ i < 16 then decide (onoff ≠ 0)
      else sc.sc_last_lcr.testBit i := by
  unfold uftdi_cfg_set_break
  by_cases h : onoff ≠ 0
  · simp only [h, if_true, not_false_eq_true, ne_eq, u16_testBit, Nat.testBit_or, decide_True]
    by_cases hi : i < 16
    · cases hb : fs.FTDI_SIO_SET_BREAK.testBit i <;> simp [hi]
    · rw [testBit_of_lt_65536 _ i hl (by omega)]
      simp [hi]
  · have h' : onoff = 0 := by simpa using h
    simp only [h', ne_eq, not_true_eq_false, if_false, u16_testBit, Nat.testBit_and,
      bitnot32_testBit, decide_False]
    by_cases hi : i < 16
    · have hi2 : i < 32 := by omega
      cases hb : fs.FTDI_SIO_SET_BREAK.testBit i <;> simp [hi, hi2]
    · rw [testBit_of_lt_65536 _ i hl (by omega)]
      simp [hi]

/-- Claim C17: `uftdi_cfg_set_break` changes only the break bit of the
remembered 16-bit control word: every bit outside `FTDI_SIO_SET_BREAK` keeps
its value, the break bit is set exactly when `onoff` is not 0, no other softc
field changes, and the new word is the `wValue` of the one request issued;
applying the operation twice equals applying it once, and break-on followed by
break-off gives back a softc whose word had the break bit clear. -/
theorem set_break_frame (fs : ftdi_sio) (sc : uftdi_softc) (onoff : Nat) (hl : sc.sc_last_lcr < 65536) :
    (∀ i, fs.FTDI_SIO_SET_BREAK.testBit i = false →
      (uftdi_cfg_set_break fs sc onoff).1.sc_last_lcr.testBit i = sc.sc_last_lcr.testBit i) ∧
    (∀ i, i < 16 → fs.FTDI_SIO_SET_BREAK.testBit i = true →
      (uftdi_cfg_set_break fs sc onoff).1.sc_last_lcr.testBit i = decide (onoff ≠ 0)) ∧
    (uftdi_cfg_set_break fs sc onoff).2.map (fun r => r.wValue) =
      [(uftdi_cfg_set_break fs sc onoff).1.sc_last_lcr] ∧
    (uftdi_cfg_set_break fs sc onoff).1 =
      { sc with sc_last_lcr := (uftdi_cfg_set_break fs sc onoff).1.sc_last_lcr } ∧
    uftdi_cfg_set_break fs (uftdi_cfg_set_break fs sc onoff).1 onoff =
      uftdi_cfg_set_break fs sc onoff ∧
    (sc.sc_last_lcr &&& fs.FTDI_SIO_SET_BREAK = 0 →
      (uftdi_cfg_set_break fs (uftdi_cfg_set_break fs sc 1).1 0).1 = sc) := by
  obtain ⟨heq, hlt⟩ := set_break_lcr fs sc onoff
  have hidem : (uftdi_cfg_set_break fs (uftdi_cfg_set_break fs sc onoff).1 onoff).1.sc_last_lcr
      = (uftdi_cfg_set_break fs sc onoff).1.sc_last_lcr := by
    apply Nat.eq_of_testBit_eq
    intro i
    rw [set_break_testBit fs _ onoff hlt i, set_break_testBit fs sc onoff hl i]
    split <;> rfl
  refine ⟨?_, ?_, ?_, ?_, ?_, ?_⟩
  · intro i hb
    rw [set_break_testBit fs sc onoff hl i, if_neg]
    simp [hb]
  · intro i hi hb
    rw [set_break_testBit fs sc onoff hl i, if_pos ⟨hb, hi⟩]
  · rw [heq]
    simp only [List.map_cons, List.map_nil, USETW]
    rw [show u16 (uftdi_cfg_set_break fs sc onoff).1.sc_last_lcr =
      (uftdi_cfg_set_break fs sc onoff).1.sc_last_lcr from Nat.mod_eq_of_lt hlt]
  · exact congrArg Prod.fst heq
  · obtain ⟨heq2, -⟩ := set_break_lcr fs (uftdi_cfg_set_break fs sc onoff).1 onoff
    rw [heq2, hidem]
    have h1 := congrArg Prod.fst heq
    simp only at h1
    conv_rhs => rw [heq]
    rw [h1]
  · intro hz
    obtain ⟨heq1, hlt1⟩ := set_break_lcr fs sc 1
    obtain ⟨heq2, -⟩ := set_break_lcr fs (uftdi_cfg_set_break fs sc 1).1 0
    have hv : (uftdi_cfg_set_break fs (uftdi_cfg_set_break fs sc 1).1 0).1.sc_last_lcr
        = sc.sc_last_lcr := by
      apply Nat.eq_of_testBit_eq
      intro i
      rw [set_break_testBit fs _ 0 hlt1 i, set_break_testBit fs sc 1 hl i]
      have hzi : (sc.sc_last_lcr &&& fs.FTDI_SIO_SET_BREAK).testBit i = false := by
        rw [hz]; exact Nat.zero_testBit i
      rw [Nat.testBit_and] at hzi
      by_cases hc : fs.FTDI_SIO_SET_BREAK.testBit i = true ∧ i < 16
      · rw [if_pos hc]
        rw [hc.1] at hzi
        simp at hzi
        simp [hzi]
      · rw [if_neg hc, if_neg hc]
    have h1 := congrArg Prod.fst heq2
    simp only at h1
    rw [h1, hv]
    have h2 := congrArg Prod.fst heq1
    simp only at h2
    rw [h2]

theorem set_break_frame_witness :
    uftdi_cfg_set_break sio_sample (uftdi_cfg_set_break sio_sample (softc_lcr 0x1008) 1).1 1 =
      uftdi_cfg_set_break sio_sample (softc_lcr 0x1008) 1 ∧
    (uftdi_cfg_set_break sio_sample (softc_lcr 0x1008) 1).1.sc_last_lcr = 0x5008 :=
  ⟨(set_break_frame sio_sample (softc_lcr 0x1008) 1 (by decide)).2.2.2.2.1, by decide⟩


/-! ### Arithmetic of the divisor and its packing -/

theorem and_0xf (x : Nat) : x &&& 0xf = x % 16 :=
  Nat.and_pow_two_sub_one_eq_mod x 4

theorem and_0x7 (x : Nat) : x &&& 0x07 = x % 8 :=
  Nat.and_pow_two_sub_one_eq_mod x 3

theorem and_0xfffffff8 (x : Nat) (hx : x < 4294967296) : x &&& 0xfffffff8 = x - x % 8 := by
  have e : x - x % 8 = (x >>> 3) <<< 3 := by
    rw [Nat.shiftRight_eq_div_pow, Nat.shiftLeft_eq]
    omega
  rw [e]
  apply Nat.eq_of_testBit_eq
  intro i
  have h8 : (0xfffffff8 : Nat) = 2 ^ 32 - (7 + 1) := by norm_num
  have h7 : (7 : Nat) = 2 ^ 3 - 1 := by norm_num
  rw [Nat.testBit_and, h8, Nat.testBit_two_pow_sub_succ (by norm_num), h7,
    Nat.testBit_two_pow_sub_one, Nat.testBit_shiftLeft, Nat.testBit_shiftRight]
  by_cases h3 : i < 3
  · simp [h3]
  · have e3 : 3 + (i - 3) = i := by omega
    by_cases h32 : i < 32
    · simp [h3, h32, e3]
      omega
    · have : x.testBit i = false := by
        apply Nat.testBit_lt_two_pow
        calc x < 2 ^ 32 := hx
          _ ≤ 2 ^ i := Nat.pow_le_pow_right (by decide) (by omega)
      simp [h3, h32, e3, this]

theorem baud_div16_eq (sc : uftdi_softc) (speed : Nat) :
    baud_div16 sc speed = baud_clk sc speed * 16 / speed := by
  unfold baud_div16
  rcases baud_clk_cases sc speed with ⟨hc, -⟩ | ⟨hc, -⟩ <;> (rw [hc]; rfl)

theorem baud_div16_le (sc : uftdi_softc) (speed : Nat) : baud_div16 sc speed ≤ 192000000 := by
  rw [baud_div16_eq]
  have h : baud_clk sc speed * 16 ≤ 192000000 := by
    rcases baud_clk_cases sc speed with ⟨hc, -⟩ | ⟨hc, -⟩ <;> (rw [hc]; try decide)
  exact Nat.le_trans (Nat.div_le_self _ _) h

theorem roundoff_232a_le (n : Nat) : roundoff_232a.getD n 0 ≤ 255 := by
  by_cases h : n < 16
  · interval_cases n <;> decide
  · have : roundoff_232a.length ≤ n := by simp [roundoff_232a]; omega
    simp [List.getD, List.getElem?_eq_none this]

theorem baud_div8_eq (sc : uftdi_softc) (speed : Nat) :
    baud_div8 sc speed =
      if baud_div16 sc speed % 16 = 1 then (baud_div16 sc speed - 1) / 2
      else if sc.sc_devtype = DEVT_232A then
        (baud_div16 sc speed + roundoff_232a.getD (baud_div16 sc speed % 16) 0) / 2
      else (baud_div16 sc speed + 1) / 2 := by
  have hle := baud_div16_le sc speed
  have hr := roundoff_232a_le (baud_div16 sc speed % 16)
  unfold baud_div8
  simp only [and_0xf, and_0xfffffff8 _ (by omega : baud_div16 sc speed < 4294967296),
    Nat.shiftRight_eq_div_pow, Nat.pow_one]
  by_cases h1 : baud_div16 sc speed % 16 = 1
  · rw [if_pos h1, if_pos h1]
    have : baud_div16 sc speed % 8 = 1 := by omega
    rw [this]
  · rw [if_neg h1, if_neg h1]
    by_cases hd : sc.sc_devtype = DEVT_232A
    · rw [if_pos hd, if_pos hd]
      have : u32 (baud_div16 sc speed + roundoff_232a.getD (baud_div16 sc speed % 16) 0) =
          baud_div16 sc speed + roundoff_232a.getD (baud_div16 sc speed % 16) 0 := by
        unfold u32; omega
      rw [this]
    · rw [if_neg hd, if_neg hd]
      have : u32 (baud_div16 sc speed + 1) = baud_div16 sc speed + 1 := by
        unfold u32; omega
      rw [this]

theorem baud_in_range (sc : uftdi_softc) (speed : Nat)
    (h : ¬ (speed < (baud_clk sc speed >>> 14) ∨ speed > baud_clk sc speed)) :
    183 ≤ speed ∧ speed ≤ baud_clk sc speed ∧ 16 ≤ baud_div16 sc speed ∧
    baud_div16 sc speed ≤ 262295 := by
  rw [baud_div16_eq]
  rcases baud_clk_cases sc speed with ⟨hc, -, -, hs⟩ | ⟨hc, -, -⟩
  · rw [hc] at h ⊢
    rw [Nat.shiftRight_eq_div_pow] at h
    norm_num at h
    have hpos : 0 < speed := by omega
    refine ⟨by omega, h.2, ?_, ?_⟩
    · rw [Nat.le_div_iff_mul_le hpos]; omega
    · have : 12000000 * 16 / speed < 262296 := by
        rw [Nat.div_lt_iff_lt_mul hpos]; omega
      omega
  · rw [hc] at h ⊢
    rw [Nat.shiftRight_eq_div_pow] at h
    norm_num at h
    have hpos : 0 < speed := by omega
    refine ⟨h.1, h.2, ?_, ?_⟩
    · rw [Nat.le_div_iff_mul_le hpos]; omega
    · have : 3000000 * 16 / speed < 262296 := by
        rw [Nat.div_lt_iff_lt_mul hpos]; omega
      omega

theorem baud_div8_bounds (sc : uftdi_softc) (speed : Nat)
    (h : ¬ (speed < (baud_clk sc speed >>> 14) ∨ speed > baud_clk sc speed)) :
    8 ≤ baud_div8 sc speed ∧ baud_div8 sc speed ≤ 131275 := by
  obtain ⟨-, -, h16, hle⟩ := baud_in_range sc speed h
  have hr := roundoff_232a_le (baud_div16 sc speed % 16)
  rw [baud_div8_eq]
  split
  · omega
  · split <;> omega

theorem encode_accept_range (sc : uftdi_softc) (speed : Nat) (cfg : uftdi_param_config)
    (h : (uftdi_encode_baudrate sc speed cfg).1 = 0) :
    ¬ (speed < (baud_clk sc speed >>> 14) ∨ speed > baud_clk sc speed) := by
  rw [uftdi_encode_baudrate_eq] at h
  intro hr
  rw [if_pos hr] at h
  exact ERANGE_ne_zero h

theorem encoded_fraction_le (n : Nat) : encoded_fraction.getD n 0 ≤ 7 := by
  by_cases h : n < 8
  · interval_cases n <;> decide
  · have : encoded_fraction.length ≤ n := by simp [encoded_fraction]; omega
    simp [List.getD, List.getElem?_eq_none this]

theorem baud_frac_code_le (sc : uftdi_softc) (speed : Nat) : baud_frac_code sc speed ≤ 7 :=
  encoded_fraction_le _

theorem baud_integral_le (sc : uftdi_softc) (speed : Nat) :
    baud_integral sc speed ≤ baud_div8 sc speed / 8 := by
  unfold baud_integral
  rw [Nat.shiftRight_eq_div_pow]
  norm_num
  split
  · split <;> omega
  · exact Nat.le_refl _

theorem baud_pack_eq (sc : uftdi_softc) (speed : Nat) :
    baud_pack sc speed =
      baud_integral sc speed |||
        (baud_frac_code sc speed <<< 14 ||| baud_fastclk_flag sc speed) := by
  have hc := baud_frac_code_le sc speed
  have hu : u32 (baud_frac_code sc speed <<< 14) = baud_frac_code sc speed <<< 14 := by
    unfold u32
    rw [Nat.shiftLeft_eq]
    omega
  rw [← hu]
  unfold baud_pack baud_integral baud_frac_code
  by_cases h1 : baud_div8 sc speed >>> 3 = 1
  · by_cases h0 : baud_div8 sc speed &&& 0x07 = 0
    · simp only [h1, h0, if_true]
    · simp only [h1, h0, if_true, if_false]
  · simp only [h1, if_false]

theorem baud_flag_cases (sc : uftdi_softc) (speed : Nat) :
    baud_fastclk_flag sc speed = 0 ∨ baud_fastclk_flag sc speed = 131072 := by
  rcases baud_clk_cases sc speed with ⟨-, hf, -⟩ | ⟨-, hf, -⟩
  · exact Or.inr hf
  · exact Or.inl hf

/-- The packed divisor as a sum, when the integral part fits in 14 bits. -/
theorem baud_pack_sum (sc : uftdi_softc) (speed : Nat) (hi : baud_integral sc speed < 16384) :
    baud_pack sc speed =
      baud_integral sc speed + baud_frac_code sc speed * 16384 + baud_fastclk_flag sc speed := by
  have hc := baud_frac_code_le sc speed
  rw [baud_pack_eq, Nat.shiftLeft_eq]
  have e1 : baud_integral sc speed ||| (baud_frac_code sc speed * 2 ^ 14 |||
      baud_fastclk_flag sc speed) =
      baud_fastclk_flag sc speed ||| (2 ^ 14 * baud_frac_code sc speed |||
        baud_integral sc speed) := by
    rw [Nat.mul_comm, Nat.or_comm _ (baud_fastclk_flag sc speed), ← Nat.or_assoc,
      Nat.or_comm (baud_integral sc speed), Nat.or_assoc,
      Nat.or_comm (baud_integral sc speed)]
  rw [e1, ← Nat.mul_add_lt_is_or (by norm_num; exact hi)]
  rcases baud_flag_cases sc speed with hf | hf
  · rw [hf, Nat.zero_or]; omega
  · have e2 : (131072 : Nat) = 2 ^ 17 * 1 := by norm_num
    rw [hf, e2, ← Nat.mul_add_lt_is_or (by norm_num; omega)]
    omega

theorem baud_pack_lt (sc : uftdi_softc) (speed : Nat) (hi : baud_integral sc speed < 32768) :
    baud_pack sc speed < 262144 := by
  have hc := baud_frac_code_le sc speed
  rw [baud_pack_eq]
  have h18 : (262144 : Nat) = 2 ^ 18 := by norm_num
  rw [h18]
  apply Nat.or_lt_two_pow
  · calc baud_integral sc speed < 32768 := hi
      _ ≤ 2 ^ 18 := by norm_num
  · apply Nat.or_lt_two_pow
    · rw [Nat.shiftLeft_eq]; norm_num; omega
    · rcases baud_flag_cases sc speed with hf | hf <;> rw [hf] <;> norm_num

theorem baud_packed_cfg (sc : uftdi_softc) (speed : Nat) (cfg : uftdi_param_config)
    (hp : baud_pack sc speed < 262144) :
    baud_packed sc (baud_cfg sc speed cfg) = baud_pack sc speed := by
  unfold baud_packed baud_cfg
  by_cases hx : sc.sc_devflags &&& DEVF_BAUDBITS_HINDEX ≠ 0
  · simp only [hx, if_true, ne_eq, not_false_eq_true, u16, Nat.shiftRight_eq_div_pow,
      Nat.shiftLeft_eq]
    norm_num
    omega
  · simp only [hx, if_false, u16, Nat.shiftRight_eq_div_pow]
    norm_num
    omega

theorem baud_integral_lt (sc : uftdi_softc) (speed : Nat)
    (h : ¬ (speed < (baud_clk sc speed >>> 14) ∨ speed > baud_clk sc speed)) :
    baud_integral sc speed < 32768 := by
  have := baud_integral_le sc speed
  have := (baud_div8_bounds sc speed h).2
  omega

/-- Claim C27: `uftdi_encode_baudrate` never divides by zero and never wraps:
for every device and every speed, either the range check fails and ERANGE is
returned before `(clk << 4) / speed` is evaluated, or the speed is at least
183 and at most the clock, the rounded divisor used in `(clk << 3) / divisor`
is at least 8, and the values `clk << 4`, the divisor plus its roundoff,
`clk << 3`, `target * 100` (in 64 bits), the shifted fraction code and the
packed divisor all stay below 2^32. -/
theorem encode_no_division_by_zero (sc : uftdi_softc) (speed : Nat) (cfg : uftdi_param_config) :
    ((speed < (baud_clk sc speed >>> 14) ∨ speed > baud_clk sc speed) ∧
      uftdi_encode_baudrate sc speed cfg = (ERANGE, cfg)) ∨
    (183 ≤ speed ∧ speed ≤ baud_clk sc speed ∧ 8 ≤ baud_div8 sc speed ∧
      baud_clk sc speed <<< 4 < 4294967296 ∧
      roundoff_232a.getD (baud_div16 sc speed &&& 0x0f) 0 ≤ 255 ∧
      baud_div16 sc speed + 255 < 4294967296 ∧
      baud_clk sc speed <<< 3 < 4294967296 ∧
      speed * 100 < 18446744073709551616 ∧
      encoded_fraction.getD (baud_div8 sc speed &&& 0x07) 0 <<< 14 < 4294967296 ∧
      baud_pack sc speed < 4294967296) := by
  by_cases h : speed < (baud_clk sc speed >>> 14) ∨ speed > baud_clk sc speed
  · left
    refine ⟨h, ?_⟩
    rw [uftdi_encode_baudrate_eq, if_pos h]
  · right
    obtain ⟨h183, hle, -, h16⟩ := baud_in_range sc speed h
    have hd8 := (baud_div8_bounds sc speed h).1
    have hp := baud_pack_lt sc speed (baud_integral_lt sc speed h)
    have hc : baud_clk sc speed ≤ 12000000 := by
      rcases baud_clk_cases sc speed with ⟨hc, -⟩ | ⟨hc, -⟩ <;> omega
    have he := encoded_fraction_le (baud_div8 sc speed &&& 0x07)
    refine ⟨h183, hle, hd8, ?_, roundoff_232a_le _, by omega, ?_, by omega, ?_, by omega⟩
    · rw [Nat.shiftLeft_eq]; norm_num; omega
    · rw [Nat.shiftLeft_eq]; norm_num; omega
    · generalize encoded_fraction.getD (baud_div8 sc speed &&& 0x07) 0 = g at he ⊢
      rw [Nat.shiftLeft_eq]; norm_num; omega

theorem pack_testBit17 (sc : uftdi_softc) (speed : Nat) (hi : baud_integral sc speed < 32768) :
    (baud_pack sc speed).testBit 17 =
      (decide (sc.sc_devflags &&& DEVF_BAUDCLK_12M ≠ 0) && decide (1200 ≤ speed)) := by
  have hc := baud_frac_code_le sc speed
  have hI : (baud_integral sc speed).testBit 17 = false :=
    Nat.testBit_lt_two_pow (by norm_num; omega)
  have hC : (baud_frac_code sc speed <<< 14).testBit 17 = false :=
    Nat.testBit_lt_two_pow (by rw [Nat.shiftLeft_eq]; norm_num; omega)
  rw [baud_pack_eq, Nat.testBit_or, Nat.testBit_or, hI, hC]
  rcases baud_clk_cases sc speed with ⟨-, hf, h12, hs⟩ | ⟨-, hf, hs⟩
  · have e : (131072 : Nat) = 2 ^ 17 := by norm_num
    rw [hf, e, Nat.testBit_two_pow_self]
    simp [h12, hs]
  · rw [hf, Nat.zero_testBit]
    rcases hs with hs | hs
    · simp [hs]
    · have : ¬ (1200 ≤ speed) := by omega
      simp [this]

/-- Claim C24: for every accepted speed, bit 17 of the packed divisor (the
fast-clock flag) is set exactly when the device has `DEVF_BAUDCLK_12M` and the
speed is at least 1200; the packed divisor is integral | fraction code << 14 |
flag, `baud_lobits` is its low 16 bits and `baud_hibits` is its bits 16..17,
shifted left by 8 exactly when the device has `DEVF_BAUDBITS_HINDEX`. -/
theorem pack_flag_and_halves (sc : uftdi_softc) (speed : Nat) (cfg : uftdi_param_config)
    (hacc : (uftdi_encode_baudrate sc speed cfg).1 = 0) :
    (baud_packed sc (uftdi_encode_baudrate sc speed cfg).2).testBit 17 =
      (decide (sc.sc_devflags &&& DEVF_BAUDCLK_12M ≠ 0) && decide (1200 ≤ speed)) ∧
    baud_packed sc (uftdi_encode_baudrate sc speed cfg).2 =
      (baud_integral sc speed ||| (baud_frac_code sc speed <<< 14 |||
        (if sc.sc_devflags &&& DEVF_BAUDCLK_12M ≠ 0 ∧ 1200 ≤ speed then 1 <<< 17 else 0))) ∧
    (uftdi_encode_baudrate sc speed cfg).2.baud_lobits =
      (baud_integral sc speed ||| (baud_frac_code sc speed <<< 14 |||
        (if sc.sc_devflags &&& DEVF_BAUDCLK_12M ≠ 0 ∧ 1200 ≤ speed then 1 <<< 17 else 0)))
        % 65536 ∧
    (uftdi_encode_baudrate sc speed cfg).2.baud_hibits =
      (if sc.sc_devflags &&& DEVF_BAUDBITS_HINDEX ≠ 0 then
        (((baud_integral sc speed ||| (baud_frac_code sc speed <<< 14 |||
          (if sc.sc_devflags &&& DEVF_BAUDCLK_12M ≠ 0 ∧ 1200 ≤ speed then 1 <<< 17 else 0)))
            >>> 16) % 4) <<< 8
       else
        ((baud_integral sc speed ||| (baud_frac_code sc speed <<< 14 |||
          (if sc.sc_devflags &&& DEVF_BAUDCLK_12M ≠ 0 ∧ 1200 ≤ speed then 1 <<< 17 else 0)))
            >>> 16) % 4) := by
  have hr := encode_accept_range sc speed cfg hacc
  have hi := baud_integral_lt sc speed hr
  have hp := baud_pack_lt sc speed hi
  have hflag : (if sc.sc_devflags &&& DEVF_BAUDCLK_12M ≠ 0 ∧ 1200 ≤ speed then 1 <<< 17 else 0)
      = baud_fastclk_flag sc speed := by
    rcases baud_clk_cases sc speed with ⟨-, hf, h12, hs⟩ | ⟨-, hf, hs⟩
    · rw [hf, if_pos ⟨h12, hs⟩]; rfl
    · rw [hf, if_neg]
      rcases hs with hs | hs
      · intro h; exact h.1 hs
      · intro h; omega
  rw [hflag, ← baud_pack_eq, encode_accept sc speed cfg hacc]
  refine ⟨?_, ?_, ?_, ?_⟩
  · rw [baud_packed_cfg sc speed cfg hp]
    exact pack_testBit17 sc speed hi
  · exact baud_packed_cfg sc speed cfg hp
  · unfold baud_cfg
    split <;> rfl
  · unfold baud_cfg
    by_cases hx : sc.sc_devflags &&& DEVF_BAUDBITS_HINDEX ≠ 0
    · rw [if_pos hx, if_pos hx]
      simp only [u16, Nat.shiftRight_eq_div_pow, Nat.shiftLeft_eq]
      norm_num
      omega
    · rw [if_neg hx, if_neg hx]
      simp only [u16, Nat.shiftRight_eq_div_pow]
      norm_num
      omega

theorem pack_flag_and_halves_witness :
    (uftdi_encode_baudrate softc_2232h 9600 cfg_zero).2.baud_hibits = 0x200 ∧
    (baud_packed softc_2232h (uftdi_encode_baudrate softc_2232h 9600 cfg_zero).2).testBit 17 =
      (decide (softc_2232h.sc_devflags &&& DEVF_BAUDCLK_12M ≠ 0) && decide (1200 ≤ 9600)) :=
  ⟨by decide, (pack_flag_and_halves softc_2232h 9600 cfg_zero (by decide)).1⟩

theorem encoded_fraction_indexOf (f : Nat) (hf : f < 8) :
    encoded_fraction.indexOf (encoded_fraction.getD f 0) = f := by
  interval_cases f <;> decide

/-- Claim C30: the fraction table is a permutation of 0..7, and for every
accepted speed whose rounded divisor has an integral part between 2 and 16383,
unpacking the result (integral = packed & 0x3fff, fraction = position in the
table of (packed >> 14) & 7) gives back the integral part and the fraction of
the rounded divisor, so 8 * integral + fraction is the divisor that passed the
tolerance check. -/
theorem pack_roundtrip (sc : uftdi_softc) (speed : Nat) (cfg : uftdi_param_config)
    (hacc : (uftdi_encode_baudrate sc speed cfg).1 = 0)
    (h2 : 2 ≤ baud_div8 sc speed >>> 3) (h14 : baud_div8 sc speed >>> 3 ≤ 16383) :
    baud_packed sc (uftdi_encode_baudrate sc speed cfg).2 &&& 0x3fff =
      baud_div8 sc speed >>> 3 ∧
    encoded_fraction.indexOf
      ((baud_packed sc (uftdi_encode_baudrate sc speed cfg).2 >>> 14) &&& 7) =
      baud_div8 sc speed &&& 0x07 ∧
    8 * (baud_packed sc (uftdi_encode_baudrate sc speed cfg).2 &&& 0x3fff) +
      encoded_fraction.indexOf
        ((baud_packed sc (uftdi_encode_baudrate sc speed cfg).2 >>> 14) &&& 7) =
      baud_div8 sc speed ∧
    List.Perm encoded_fraction (List.range 8) := by
  have hr := encode_accept_range sc speed cfg hacc
  have hne : ¬ (baud_div8 sc speed >>> 3 = 1) := by omega
  have hI : baud_integral sc speed = baud_div8 sc speed >>> 3 := by
    unfold baud_integral; rw [if_neg hne]
  have hC : baud_frac_code sc speed = encoded_fraction.getD (baud_div8 sc speed &&& 0x07) 0 := by
    unfold baud_frac_code; rw [if_neg hne]
  have hIlt : baud_integral sc speed < 16384 := by omega
  have hp := baud_pack_lt sc speed (by omega)
  have hc := baud_frac_code_le sc speed
  have hsum := baud_pack_sum sc speed hIlt
  have hf8 : baud_div8 sc speed &&& 0x07 < 8 := by rw [and_0x7]; omega
  have e14 : (0x3fff : Nat) = 2 ^ 14 - 1 := by norm_num
  have hlow : baud_packed sc (uftdi_encode_baudrate sc speed cfg).2 &&& 0x3fff =
      baud_div8 sc speed >>> 3 := by
    rw [encode_accept sc speed cfg hacc, baud_packed_cfg sc speed cfg hp, e14,
      Nat.and_pow_two_sub_one_eq_mod, hsum, ← hI]
    rcases baud_flag_cases sc speed with hf | hf <;> rw [hf] <;> norm_num <;> omega
  have hcode : (baud_packed sc (uftdi_encode_baudrate sc speed cfg).2 >>> 14) &&& 7 =
      encoded_fraction.getD (baud_div8 sc speed &&& 0x07) 0 := by
    rw [← hC, encode_accept sc speed cfg hacc, baud_packed_cfg sc speed cfg hp, and_0x7,
      Nat.shiftRight_eq_div_pow, hsum]
    rcases baud_flag_cases sc speed with hf | hf <;> rw [hf] <;> norm_num <;> omega
  refine ⟨hlow, ?_, ?_, by decide⟩
  · rw [hcode, encoded_fraction_indexOf _ hf8]
  · rw [hlow, hcode, encoded_fraction_indexOf _ hf8, and_0x7, Nat.shiftRight_eq_div_pow]
    norm_num
    omega

theorem pack_roundtrip_witness :
    baud_packed softc_232b (uftdi_encode_baudrate softc_232b 9600 cfg_zero).2 &&& 0x3fff =
      baud_div8 softc_232b 9600 >>> 3 ∧
    baud_div8 softc_232b 9600 = 2500 :=
  ⟨(pack_roundtrip softc_232b 9600 cfg_zero (by decide) (by decide) (by decide)).1, by decide⟩

theorem div8_232a_mod (sc : uftdi_softc) (speed : Nat) (hd : sc.sc_devtype = DEVT_232A) :
    baud_div8 sc speed % 8 = 0 ∨ baud_div8 sc speed % 8 = 1 ∨ baud_div8 sc speed % 8 = 2 ∨
    baud_div8 sc speed % 8 = 4 := by
  rw [baud_div8_eq]
  by_cases h1 : baud_div16 sc speed % 16 = 1
  · rw [if_pos h1]; omega
  · rw [if_neg h1, if_pos hd]
    have hn : baud_div16 sc speed % 16 < 16 := Nat.mod_lt _ (by decide)
    obtain ⟨n, hnn⟩ : ∃ n, baud_div16 sc speed % 16 = n := ⟨_, rfl⟩
    rw [hnn] at hn h1 ⊢
    interval_cases n <;> simp only [roundoff_232a, u8, List.getD_cons_zero, List.getD_cons_succ]
      <;> omega

/-- Claim C22: on `DEVT_232A`, for every accepted speed, the fraction code in
bits 14..16 of the packed divisor is 0, 1, 2 or 3, as is the table entry the
code selects; a later generation does produce a code above 3 (a 232B at speed
184 packs fraction code 4). -/
theorem frac_code_232a (sc : uftdi_softc) (speed : Nat) (cfg : uftdi_param_config)
    (hd : sc.sc_devtype = DEVT_232A) (hacc : (uftdi_encode_baudrate sc speed cfg).1 = 0) :
    (baud_packed sc (uftdi_encode_baudrate sc speed cfg).2 >>> 14) % 8 ≤ 3 ∧
    baud_frac_code sc speed ≤ 3 ∧
    (softc_232b.sc_devtype = DEVT_232B ∧
      (uftdi_encode_baudrate softc_232b 184 cfg_zero).1 = 0 ∧
      (baud_packed softc_232b (uftdi_encode_baudrate softc_232b 184 cfg_zero).2 >>> 14) % 8
        = 4) := by
  have hr := encode_accept_range sc speed cfg hacc
  have hi := baud_integral_lt sc speed hr
  have hp := baud_pack_lt sc speed hi
  have hc3 : baud_frac_code sc speed ≤ 3 := by
    unfold baud_frac_code
    split
    · decide
    · rw [and_0x7]
      rcases div8_232a_mod sc speed hd with h | h | h | h <;> rw [h] <;> decide
  have hI : (baud_integral sc speed).testBit 16 = false :=
    Nat.testBit_lt_two_pow (by norm_num; omega)
  have hC : (baud_frac_code sc speed <<< 14).testBit 16 = false :=
    Nat.testBit_lt_two_pow (by rw [Nat.shiftLeft_eq]; norm_num; omega)
  have hF : (baud_fastclk_flag sc speed).testBit 16 = false := by
    rcases baud_flag_cases sc speed with hf | hf <;> rw [hf] <;> decide
  have hbit : (baud_pack sc speed).testBit 16 = false := by
    rw [baud_pack_eq, Nat.testBit_or, Nat.testBit_or, hI, hC, hF]; rfl
  rw [Nat.testBit_to_div_mod] at hbit
  simp only [decide_eq_false_iff_not] at hbit
  refine ⟨?_, hc3, by decide⟩
  rw [encode_accept sc speed cfg hacc, baud_packed_cfg sc speed cfg hp,
    Nat.shiftRight_eq_div_pow]
  norm_num at hbit ⊢
  omega

theorem frac_code_232a_witness :
    (baud_packed softc_232a (uftdi_encode_baudrate softc_232a 9600 cfg_zero).2 >>> 14) % 8 ≤ 3 :=
  (frac_code_232a softc_232a 9600 cfg_zero (by decide) (by decide)).1

/-- Claim C23, as amended: on every divisor-based generation other than
`DEVT_232A` and for every in-range speed, the rounded eighths divisor d8 is the
raw 16ths divisor d16 = `(clk << 4) / speed` rounded to a neighbouring eighth:
d8 = d16 >> 1 when the low nibble of d16 is 1 and d8 = (d16 + 1) >> 1
otherwise, so |2 * d8 - d16| ≤ 1; and d8 does not increase when the speed
grows to a speed that uses the same clock. -/
theorem round_to_eighths (sc : uftdi_softc) (speed speed' : Nat) (hd : sc.sc_devtype ≠ DEVT_232A)
    (hr : baud_clk sc speed / 16384 ≤ speed ∧ speed ≤ baud_clk sc speed)
    (hle : speed ≤ speed') (hclk : baud_clk sc speed' = baud_clk sc speed) :
    baud_div16 sc speed = baud_clk sc speed <<< 4 / speed ∧
    baud_div8 sc speed =
      (if baud_div16 sc speed &&& 0xf = 1 then baud_div16 sc speed >>> 1
       else (baud_div16 sc speed + 1) >>> 1) ∧
    2 * baud_div8 sc speed ≤ baud_div16 sc speed + 1 ∧
    baud_div16 sc speed ≤ 2 * baud_div8 sc speed + 1 ∧
    baud_div8 sc speed' ≤ baud_div8 sc speed := by
  have hform : ∀ s, baud_div8 sc s =
      (if baud_div16 sc s % 16 = 1 then (baud_div16 sc s - 1) / 2
       else (baud_div16 sc s + 1) / 2) := by
    intro s
    rw [baud_div8_eq, if_neg hd]
  have hpos : 0 < speed := by
    rcases baud_clk_cases sc speed with ⟨hc, -⟩ | ⟨hc, -⟩ <;> rw [hc] at hr <;> omega
  have hmono : baud_div16 sc speed' ≤ baud_div16 sc speed := by
    rw [baud_div16_eq, baud_div16_eq, hclk]
    exact Nat.div_le_div_left hle hpos
  refine ⟨?_, ?_, ?_, ?_, ?_⟩
  · rw [baud_div16_eq, Nat.shiftLeft_eq]
  · rw [hform, and_0xf, Nat.shiftRight_eq_div_pow, Nat.shiftRight_eq_div_pow]
    norm_num
    split <;> omega
  · rw [hform]; split <;> omega
  · rw [hform]; split <;> omega
  · rw [hform, hform]
    split <;> split <;> omega

theorem round_to_eighths_witness :
    baud_div8 softc_232b 9601 ≤ baud_div8 softc_232b 9600 ∧
    baud_div8 softc_232b 9600 = 2500 :=
  ⟨(round_to_eighths softc_232b 9600 9601 (by decide) (by decide) (by decide)
      (by decide)).2.2.2.2, by decide⟩

/-- Claim C23 fails as stated on a device with the fast clock: on a 2232H the
in-range speeds 1199 and 1200 use the 3 MHz and the 12 MHz clock, and the
rounded divisor grows from 20016 to 80000 eighths. -/
theorem round_to_eighths_clock_switch :
    softc_2232h.sc_devtype ≠ DEVT_232A ∧
    (baud_clk softc_2232h 1199 / 16384 ≤ 1199 ∧ 1199 ≤ baud_clk softc_2232h 1199) ∧
    (baud_clk softc_2232h 1200 / 16384 ≤ 1200 ∧ 1200 ≤ baud_clk softc_2232h 1200) ∧
    baud_div8 softc_2232h 1199 = 20016 ∧ baud_div8 softc_2232h 1200 = 80000 ∧
    ¬ (baud_div8 softc_2232h 1200 ≤ baud_div8 softc_2232h 1199) := by
  decide

/-- Claim C21, evaluated on the code: on a 232A at speed 1800 the raw 16ths
divisor is 26666 with low nibble 10; the `uint8_t` table entry is 254 where
the specified signed value is -2, so the code rounds to 26920 instead of 26664
and returns `baud_lobits` 18066 where the specified algorithm returns 18050. -/
theorem roundoff_232a_unsigned_1800 :
    softc_232a.sc_devtype = DEVT_232A ∧
    uftdi_encode_baudrate softc_232a 1800 cfg_zero =
      (0, { cfg_zero with baud_lobits := 18066, baud_hibits := 0 }) ∧
    spec_encode_baudrate_232a softc_232a 1800 = some (18050, 0) ∧
    baud_div16 softc_232a 1800 = 26666 ∧
    roundoff_232a.getD (26666 % 16) 0 = 254 ∧
    spec_roundoff_232a.getD (26666 % 16) 0 = -2 ∧
    2 * baud_div8 softc_232a 1800 = 26666 + 254 ∧
    spec_round16_232a 26666 = 26664 := by
  decide

/-! ### Payload and header offsets of the read callback -/

/-- The payload bytes of a buffer region starting at `off`, by relative offset. -/
theorem payload_rel_short (pc : PageCache) (m off bl : Nat) (hbl : bl ≤ m) :
    ((List.range bl).filter (fun j => decide (2 ≤ j % m))).map (fun j => pc (off + j)) =
      usbd_copy_out pc (off + 2) (bl - 2) := by
  by_cases h2 : 2 ≤ bl
  · have e : bl = 2 + (bl - 2) := by omega
    have hf1 : (List.range 2).filter (fun j => decide (2 ≤ j % m)) = [] := by
      rw [List.filter_eq_nil_iff]
      intro a ha
      rw [List.mem_range] at ha
      have : a % m = a := Nat.mod_eq_of_lt (by omega)
      simp only [this, decide_eq_true_eq]
      omega
    have hf2 : ((List.range (bl - 2)).map (fun x => 2 + x)).filter
        (fun j => decide (2 ≤ j % m)) = (List.range (bl - 2)).map (fun x => 2 + x) := by
      rw [List.filter_eq_self]
      intro a ha
      rw [List.mem_map] at ha
      obtain ⟨x, hx, rfl⟩ := ha
      rw [List.mem_range] at hx
      have : (2 + x) % m = 2 + x := Nat.mod_eq_of_lt (by omega)
      simp only [this, decide_eq_true_eq]
      omega
    conv_lhs => rw [e, List.range_add, List.filter_append, hf1, hf2]
    simp only [List.nil_append, List.map_map, usbd_copy_out]
    apply List.map_congr_left
    intro a _
    simp only [Function.comp, Nat.add_assoc]
  · have hf : (List.range bl).filter (fun j => decide (2 ≤ j % m)) = [] := by
      rw [List.filter_eq_nil_iff]
      intro a ha
      rw [List.mem_range] at ha
      have : a % m = a := Nat.mod_eq_of_lt (by omega)
      simp only [this, decide_eq_true_eq]
      omega
    have e0 : bl - 2 = 0 := by omega
    rw [hf, e0]
    rfl

theorem payload_rel_long (pc : PageCache) (m off bl : Nat) (hbl : m ≤ bl) :
    ((List.range bl).filter (fun j => decide (2 ≤ j % m))).map (fun j => pc (off + j)) =
      usbd_copy_out pc (off + 2) (m - 2) ++
        ((List.range (bl - m)).filter (fun j => decide (2 ≤ j % m))).map
          (fun j => pc (off + m + j)) := by
  have e : bl = m + (bl - m) := by omega
  conv_lhs => rw [e, List.range_add, List.filter_append, List.map_append]
  rw [payload_rel_short pc m off m (Nat.le_refl m), List.filter_map, List.map_map]
  congr 1
  have hp : ((fun j => decide (2 ≤ j % m)) ∘ fun x => m + x) =
      (fun j => decide (2 ≤ j % m)) := by
    funext x
    simp only [Function.comp, Nat.add_mod_left]
  rw [hp]
  apply List.map_congr_left
  intro a _
  simp only [Function.comp, Nat.add_assoc]

theorem header_offsets_one (m off bl : Nat) (hm : 0 < m) (hbl : bl < m + 2) :
    (List.range ((bl - 2) / m + 1)).map (fun k => off + k * m) = [off] := by
  have : (bl - 2) / m = 0 := Nat.div_eq_of_lt (by omega)
  rw [this, List.range_succ_eq_map]
  simp

theorem header_offsets_cons (m off bl : Nat) (hm : 0 < m) (hbl : m + 2 ≤ bl) :
    (List.range ((bl - 2) / m + 1)).map (fun k => off + k * m) =
      off :: (List.range ((bl - m - 2) / m + 1)).map (fun k => off + m + k * m) := by
  have e : (bl - 2) / m = (bl - m - 2) / m + 1 := by
    have : bl - 2 = (bl - m - 2) + m := by omega
    rw [this, Nat.add_div_right _ hm]
  rw [e, List.range_succ_eq_map, List.map_cons, List.map_map]
  simp only [Nat.zero_mul, Nat.add_zero, List.cons.injEq, true_and]
  apply List.map_congr_left
  intro a _
  simp only [Function.comp, Nat.succ_eq_add_one, Nat.add_mul, Nat.one_mul]
  omega

theorem payload_rel_last (pc : PageCache) (m off bl : Nat) (hm : 2 ≤ m) (hbl : bl < m + 2) :
    ((List.range bl).filter (fun j => decide (2 ≤ j % m))).map (fun j => pc (off + j)) =
      usbd_copy_out pc (off + 2) (min (bl - 2) (m - 2)) := by
  by_cases h : bl ≤ m
  · rw [payload_rel_short pc m off bl h]
    have : min (bl - 2) (m - 2) = bl - 2 := by omega
    rw [this]
  · have e : bl - m = 1 := by omega
    rw [payload_rel_long pc m off bl (by omega), e,
      payload_rel_short pc m (off + m) 1 (by omega)]
    have : min (bl - 2) (m - 2) = m - 2 := by omega
    rw [this]
    simp [usbd_copy_out]

theorem put_data_inq (ucom : ucom_softc) (pc : PageCache) (off len : Nat) :
    (if len ≠ 0 then ucom_put_data ucom pc off len else ucom) =
      { ucom with inq := ucom.inq ++ usbd_copy_out pc off len } := by
  obtain ⟨p, o, i, n⟩ := ucom
  by_cases h : len = 0
  · subst h
    simp [usbd_copy_out]
  · simp [h, ucom_put_data]

theorem read_loop_spec (reg : uftdi_reg) (pc : PageCache) (m : Nat) (hm : 2 ≤ m) :
    ∀ (fuel : Nat) (ucom : ucom_softc) (lsr msr off bl : Nat) (buf : List Nat),
      bl < 2 * fuel → 2 ≤ bl →
      uftdi_read_loop reg pc (m - 2) fuel ucom lsr msr off bl buf =
        some ({ ucom with
                inq := ucom.inq ++
                  ((List.range bl).filter (fun j => decide (2 ≤ j % m))).map
                    (fun j => pc (off + j)) },
          spec_headers_lsr reg pc
            ((List.range ((bl - 2) / m + 1)).map (fun k => off + k * m)) lsr,
          spec_headers_ri reg pc
            ((List.range ((bl - 2) / m + 1)).map (fun k => off + k * m)) msr,
          usbd_copy_out pc (off + (bl - 2) / m * m) 2) := by
  intro fuel
  induction fuel with
  | zero => intro _ _ _ _ bl _ h; omega
  | succ f ih =>
    intro ucom lsr msr off bl buf hfuel h2
    rw [read_loop_succ, if_pos h2, put_data_inq]
    by_cases hlong : m + 2 ≤ bl
    · have pk : min (bl - 2) (m - 2) = m - 2 := by omega
      have eo : off + 2 + (m - 2) = off + m := by omega
      have eb : bl - 2 - (m - 2) = bl - m := by omega
      have ediv : (bl - 2) / m = (bl - m - 2) / m + 1 := by
        have : bl - 2 = (bl - m - 2) + m := by omega
        rw [this, Nat.add_div_right _ (by omega)]
      rw [pk, eo, eb, ih _ _ _ _ _ _ (by omega) (by omega),
        payload_rel_long pc m off bl (by omega),
        header_offsets_cons m off bl (by omega) hlong]
      simp only [spec_headers_lsr, spec_headers_ri, List.foldl_cons, List.append_assoc]
      rw [ediv, Nat.add_mul, Nat.one_mul]
      have eoff : off + m + (bl - m - 2) / m * m = off + ((bl - m - 2) / m * m + m) := by omega
      rw [eoff]
    · obtain ⟨f', rfl⟩ : ∃ f', f = f' + 1 := ⟨f - 1, by omega⟩
      have hend : ¬ (bl - 2 - min (bl - 2) (m - 2) ≥ 2) := by omega
      have ediv : (bl - 2) / m = 0 := Nat.div_eq_of_lt (by omega)
      rw [read_loop_succ, if_neg hend, payload_rel_last pc m off bl hm (by omega),
        header_offsets_one m off bl (by omega) (by omega), ediv]
      simp only [spec_headers_lsr, spec_headers_ri, List.foldl_cons, List.foldl_nil,
        Nat.zero_mul, Nat.add_zero]

theorem read_status_inq (reg : uftdi_reg) (sc : uftdi_softc) (msr lsr : Nat) :
    (uftdi_read_status reg sc msr lsr).sc_ucom.inq = sc.sc_ucom.inq := by
  unfold uftdi_read_status
  split <;> rfl

theorem pktmax_eq (xfer : usb_xfer) (m : Nat) (hm : 2 ≤ m) (hm32 : m < 4294967296)
    (hx : xfer.max_packet_size = m) : uftdi_pktmax xfer = m - 2 := by
  unfold uftdi_pktmax u32 UFTDI_IHDRSIZE
  rw [hx]; omega

/-- Claim C25: for a maximum packet size `m ≥ 2` and a received buffer of
length `L ≥ 2` the read callback returns, and the bytes it forwards are exactly
the buffer bytes at the offsets `i < L` with `i mod m ≥ 2`, in increasing
order; the status it computes is accumulated from the two-byte headers at the
offsets `k * m` for `k ≤ (L - 2) / m`, each of which is a multiple of `m` and
lies with both bytes inside the buffer, so a single trailing byte at a multiple
of `m` is neither a header nor forwarded. -/
theorem read_payload_offsets (reg : uftdi_reg) (sc : uftdi_softc) (xfer : usb_xfer) (m : Nat)
    (hm : 2 ≤ m) (hm32 : m < 4294967296) (hx : xfer.max_packet_size = m)
    (hL : 2 ≤ xfer.actlen) :
    ∃ sc', uftdi_read_callback reg sc xfer usb_state.USB_ST_TRANSFERRED false =
        some (sc', uftdi_read_tr_setup xfer) ∧
      sc'.sc_ucom.inq = sc.sc_ucom.inq ++ spec_payload xfer.frame m xfer.actlen ∧
      read_computed reg xfer =
        some (uftdi_read_msr reg
            (spec_headers_ri reg xfer.frame (spec_header_offsets m xfer.actlen) 0)
            (usbd_copy_out xfer.frame ((xfer.actlen - 2) / m * m) 2),
          spec_headers_lsr reg xfer.frame (spec_header_offsets m xfer.actlen) 0) ∧
      (∀ o ∈ spec_header_offsets m xfer.actlen, o % m = 0 ∧ o + 2 ≤ xfer.actlen) ∧
      (spec_header_offsets m xfer.actlen).length = (xfer.actlen - 2) / m + 1 := by
  have hp := pktmax_eq xfer m hm hm32 hx
  have hlt : ¬ (xfer.actlen < UFTDI_IHDRSIZE) := by unfold UFTDI_IHDRSIZE; omega
  have hloop := fun ucom => read_loop_spec reg xfer.frame m hm (xfer.actlen + 1) ucom 0 0 0
    xfer.actlen [0, 0] (by omega) hL
  simp only [Nat.zero_add] at hloop
  refine ⟨uftdi_read_status reg
      { sc with
        sc_ucom := { sc.sc_ucom with
          inq := sc.sc_ucom.inq ++ spec_payload xfer.frame m xfer.actlen } }
      (uftdi_read_msr reg
        (spec_headers_ri reg xfer.frame (spec_header_offsets m xfer.actlen) 0)
        (usbd_copy_out xfer.frame ((xfer.actlen - 2) / m * m) 2))
      (spec_headers_lsr reg xfer.frame (spec_header_offsets m xfer.actlen) 0), ?_, ?_, ?_, ?_, ?_⟩
  · simp only [uftdi_read_callback, hlt, if_false, hp, hloop, spec_payload,
      spec_header_offsets]
  · rw [read_status_inq]
  · simp only [read_computed, hp, hloop, spec_header_offsets]
  · intro o ho
    unfold spec_header_offsets at ho
    rw [List.mem_map] at ho
    obtain ⟨k, hk, rfl⟩ := ho
    rw [List.mem_range] at hk
    refine ⟨Nat.mul_mod_left k m, ?_⟩
    have h1 : k ≤ (xfer.actlen - 2) / m := by omega
    have h2 : k * m ≤ (xfer.actlen - 2) / m * m := Nat.mul_le_mul_right m h1
    have h3 : (xfer.actlen - 2) / m * m ≤ xfer.actlen - 2 := Nat.div_mul_le_self _ _
    omega
  · simp [spec_header_offsets]

theorem read_payload_offsets_witness :
    ∃ sc', uftdi_read_callback reg_sample softc_zero
        (xfer_of [0x10, 2, 1, 2, 0x40, 4, 3, 4, 0x20] 4)
        usb_state.USB_ST_TRANSFERRED false =
        some (sc', uftdi_read_tr_setup (xfer_of [0x10, 2, 1, 2, 0x40, 4, 3, 4, 0x20] 4)) ∧
      sc'.sc_ucom.inq = [1, 2, 3, 4] := by
  obtain ⟨sc', h1, h2, -⟩ := read_payload_offsets reg_sample softc_zero
    (xfer_of [0x10, 2, 1, 2, 0x40, 4, 3, 4, 0x20] 4) 4 (by decide) (by decide) rfl (by decide)
  exact ⟨sc', h1, by rw [h2]; decide⟩

/-! ### Termination of the read loop -/

theorem read_loop_total_half (reg : uftdi_reg) (pc : PageCache) (pktmax : Nat) :
    ∀ (fuel : Nat) (ucom : ucom_softc) (lsr msr offset buflen : Nat) (buf : List Nat),
      buflen < 2 * fuel →
      ∃ r, uftdi_read_loop reg pc pktmax fuel ucom lsr msr offset buflen buf = some r := by
  intro fuel
  induction fuel with
  | zero => intro _ _ _ _ _ _ h; omega
  | succ f ih =>
    intro ucom lsr msr offset buflen buf hlt
    rw [read_loop_succ]
    by_cases h : buflen ≥ 2
    · rw [if_pos h]
      exact ih _ _ _ _ _ _ (by omega)
    · rw [if_neg h]
      exact ⟨_, rfl⟩

theorem read_loop_fuel_succ (reg : uftdi_reg) (pc : PageCache) (pktmax : Nat) :
    ∀ (fuel : Nat) (ucom : ucom_softc) (lsr msr offset buflen : Nat) (buf : List Nat)
      (r : ucom_softc × Nat × Nat × List Nat),
      uftdi_read_loop reg pc pktmax fuel ucom lsr msr offset buflen buf = some r →
      uftdi_read_loop reg pc pktmax (fuel + 1) ucom lsr msr offset buflen buf = some r := by
  intro fuel
  induction fuel with
  | zero => intro _ _ _ _ _ _ _ h; simp [uftdi_read_loop] at h
  | succ f ih =>
    intro ucom lsr msr offset buflen buf r h
    rw [read_loop_succ] at h ⊢
    by_cases hb : buflen ≥ 2
    · rw [if_pos hb] at h ⊢
      exact ih _ _ _ _ _ _ _ h
    · rw [if_neg hb] at h ⊢
      exact h

theorem read_loop_fuel_add (reg : uftdi_reg) (pc : PageCache) (pktmax fuel : Nat)
    (ucom : ucom_softc) (lsr msr offset buflen : Nat) (buf : List Nat)
    (r : ucom_softc × Nat × Nat × List Nat)
    (h : uftdi_read_loop reg pc pktmax fuel ucom lsr msr offset buflen buf = some r) :
    ∀ k, uftdi_read_loop reg pc pktmax (fuel + k) ucom lsr msr offset buflen buf = some r := by
  intro k
  induction k with
  | zero => exact h
  | succ k ih => exact read_loop_fuel_succ reg pc pktmax _ _ _ _ _ _ _ _ ih

/-- Claim C28: the packet loop of the read callback terminates for every
buffer length and every packet payload size: `buflen / 2 + 1` evaluations of
the loop condition (at most `buflen / 2` headers) give a result, and more fuel
gives the same result; one iteration consumes the two header bytes and at most
the remaining length, so the remaining length drops by at least 2 and never
goes below zero; and the read callback returns for every input. -/
theorem read_loop_terminates (reg : uftdi_reg) (pc : PageCache) (pktmax fuel : Nat) (ucom : ucom_softc)
    (lsr msr offset buflen : Nat) (buf : List Nat) (sc : uftdi_softc) (xfer : usb_xfer)
    (st : usb_state) (cancelled : Bool) :
    (∃ r, uftdi_read_loop reg pc pktmax (buflen / 2 + 1) ucom lsr msr offset buflen buf
        = some r ∧
      ∀ k, uftdi_read_loop reg pc pktmax (buflen / 2 + 1 + k) ucom lsr msr offset buflen buf
        = some r) ∧
    uftdi_read_loop reg pc pktmax (fuel + 1) ucom lsr msr offset buflen buf =
      (if buflen ≥ 2 then
        uftdi_read_loop reg pc pktmax fuel
          (if min (buflen - 2) pktmax ≠ 0
            then ucom_put_data ucom pc (offset + 2) (min (buflen - 2) pktmax) else ucom)
          (u8 (lsr ||| reg.FTDI_GET_LSR (usbd_copy_out pc offset 2)))
          (if reg.FTDI_GET_MSR (usbd_copy_out pc offset 2) &&& reg.FTDI_SIO_RI_MASK ≠ 0
            then u8 (msr ||| reg.SER_RI) else msr)
          (offset + 2 + min (buflen - 2) pktmax)
          (buflen - 2 - min (buflen - 2) pktmax)
          (usbd_copy_out pc offset 2)
      else some (ucom, lsr, msr, buf)) ∧
    min (buflen - 2) pktmax ≤ buflen - 2 ∧
    (if buflen ≥ 2 then buflen - 2 - min (buflen - 2) pktmax + 2 ≤ buflen else True) ∧
    (∃ r, uftdi_read_callback reg sc xfer st cancelled = some r) := by
  refine ⟨?_, read_loop_succ _ _ _ _ _ _ _ _ _ _, Nat.min_le_left _ _, ?_, ?_⟩
  · obtain ⟨r, hr⟩ := read_loop_total_half reg pc pktmax (buflen / 2 + 1) ucom lsr msr offset
      buflen buf (by omega)
    exact ⟨r, hr, read_loop_fuel_add reg pc pktmax _ _ _ _ _ _ _ r hr⟩
  · split
    · omega
    · trivial
  · cases st with
    | USB_ST_SETUP => exact ⟨_, rfl⟩
    | USB_ST_ERROR =>
      cases cancelled with
      | false => exact ⟨_, rfl⟩
      | true => exact ⟨_, rfl⟩
    | USB_ST_TRANSFERRED =>
      by_cases hlt : xfer.actlen < UFTDI_IHDRSIZE
      · simp only [uftdi_read_callback, hlt, if_true, Option.some.injEq, exists_eq']
      · obtain ⟨⟨u, l, m, b⟩, hr⟩ := read_loop_total_half reg xfer.frame (uftdi_pktmax xfer)
          (xfer.actlen + 1) sc.sc_ucom 0 0 0 xfer.actlen [0, 0] (by omega)
        simp only [uftdi_read_callback, hlt, if_false, hr, Option.some.injEq, exists_eq']

/-! ### Safety of headered output framing -/

theorem copy_in_outside (pc : PageCache) (off : Nat) (data : List Nat) (i : Nat)
    (h : off + data.length ≤ i) : usbd_copy_in pc off data i = pc i := by
  unfold usbd_copy_in
  rw [if_neg]
  omega

theorem write_loop_within (tag : Nat → Nat → Nat) (sc : uftdi_softc) (h1 : sc.sc_hdrlen = 1) :
    ∀ k, k ≤ 32 → ∀ (fuel : Nat) (ucom : ucom_softc) (pc : PageCache)
      (r : ucom_softc × PageCache × Nat),
      uftdi_write_loop tag sc fuel ucom pc (64 * (32 - k)) = some r →
      ∀ i, 2048 ≤ i → r.2.1 i = pc i := by
  intro k
  induction k with
  | zero =>
    intro _ fuel ucom pc r hr i _
    cases fuel with
    | zero => simp [uftdi_write_loop] at hr
    | succ f =>
      simp [uftdi_write_loop, UFTDI_OBUFSIZE, h1] at hr
      rw [← hr]
  | succ k ih =>
    intro hk fuel ucom pc r hr i hi
    cases fuel with
    | zero => simp [uftdi_write_loop] at hr
    | succ f =>
      obtain ⟨port, outq, inq, n⟩ := ucom
      by_cases he : outq = []
      · subst he
        rw [write_loop_empty tag sc f _ pc _ rfl] at hr
        simp only [Option.some.injEq] at hr
        rw [← hr]
      · have hp := List.length_pos.mpr he
        rw [write_loop_step tag sc h1 f port outq inq n pc _ (by omega) he] at hr
        have hpc : usbd_copy_in (usbd_copy_in pc (64 * (32 - (k + 1)) + 1) (outq.take 63))
            (64 * (32 - (k + 1))) [u8 (tag (min 63 outq.length) port)] i = pc i := by
          rw [copy_in_outside _ _ _ _ (by simp only [List.length_singleton]; omega),
            copy_in_outside _ _ _ _ (by simp only [List.length_take]; omega)]
        by_cases hL : 63 ≤ outq.length
        · have e1 : min 63 outq.length = 63 := by omega
          have e2 : 64 * (32 - (k + 1)) + (63 + 1) = 64 * (32 - k) := by omega
          rw [e1, e2] at hr
          rw [e1] at hpc
          rw [ih (by omega) f _ _ r hr i hi]
          exact hpc
        · have e5 : outq.drop 63 = [] := by
            apply List.drop_eq_nil_of_le; omega
          cases f with
          | zero => simp [uftdi_write_loop] at hr
          | succ f' =>
            rw [e5, write_loop_empty tag sc f' _ _ _ rfl] at hr
            simp only [Option.some.injEq] at hr
            rw [← hr]
            exact hpc

theorem stall_frame (xfer : usb_xfer) (st : usb_state) (cancelled : Bool) :
    (if st = usb_state.USB_ST_ERROR ∧ cancelled = false
      then usbd_xfer_set_stall xfer else xfer).frame = xfer.frame ∧
    (if st = usb_state.USB_ST_ERROR ∧ cancelled = false
      then usbd_xfer_set_stall xfer else xfer).submits = xfer.submits ∧
    (if st = usb_state.USB_ST_ERROR ∧ cancelled = false
      then usbd_xfer_set_stall xfer else xfer).frame_len = xfer.frame_len := by
  split <;> exact ⟨rfl, rfl, rfl⟩

/-- Claim C29: one invocation of the headered output framer (`sc_hdrlen = 1`)
on any number N of pending bytes returns; its loop ends with a frame length of
n + c, where n = min(N, 2016) and c is the number of chunks, which is at most
the 2048 bytes of the buffer, and it stores nothing at or beyond offset 2048;
the transfer is submitted, with that length, exactly when the length is not
zero; the frame is the chunks in order, each preceded by the header byte built
from its payload length and the port number; there are at most 32 chunks, each
of 1..63 payload bytes, and their concatenation is the first min(N, 2016)
pending bytes; the other bytes stay pending. -/
theorem headered_framing_safe (tag : Nat → Nat → Nat) (sc : uftdi_softc) (xfer : usb_xfer)
    (st : usb_state) (cancelled : Bool) (h1 : sc.sc_hdrlen = 1) :
    ∃ ucom pc buflen,
      uftdi_write_loop tag sc UFTDI_OBUFSIZE sc.sc_ucom xfer.frame 0 =
        some (ucom, pc, buflen) ∧
      (∃ xfer', uftdi_write_callback tag sc xfer st cancelled =
          some ({ sc with sc_ucom := ucom }, xfer') ∧
        xfer'.frame = pc ∧
        xfer'.submits = xfer.submits + (if buflen ≠ 0 then 1 else 0) ∧
        xfer'.frame_len = (if buflen ≠ 0 then buflen else xfer.frame_len)) ∧
      buflen = min 2016 sc.sc_ucom.outq.length +
        (out_chunks (sc.sc_ucom.outq.take 2016)).length ∧
      buflen ≤ UFTDI_OBUFSIZE ∧
      (∀ i, UFTDI_OBUFSIZE ≤ i → pc i = xfer.frame i) ∧
      ucom.outq = sc.sc_ucom.outq.drop 2016 ∧
      usbd_copy_out pc 0 buflen =
        headered_frame tag sc.sc_ucom.sc_portno (sc.sc_ucom.outq.take 2016) ∧
      (out_chunks (sc.sc_ucom.outq.take 2016)).length ≤ 32 ∧
      (out_chunks (sc.sc_ucom.outq.take 2016)).flatten =
        sc.sc_ucom.outq.take (min sc.sc_ucom.outq.length 2016) ∧
      ∀ c ∈ out_chunks (sc.sc_ucom.outq.take 2016), 1 ≤ c.length ∧ c.length ≤ 63 := by
  obtain ⟨pc', hrun, hframe⟩ := write_loop_spec tag sc h1 32 (le_refl _) UFTDI_OBUFSIZE
    (by decide) sc.sc_ucom xfer.frame
  have hin := write_loop_within tag sc h1 32 (le_refl _) UFTDI_OBUFSIZE sc.sc_ucom xfer.frame
    _ hrun
  simp only [Nat.sub_self, Nat.mul_zero, Nat.zero_add, Nat.reduceMul] at hrun hframe hin
  obtain ⟨hsf, hss, hsl⟩ := stall_frame xfer st cancelled
  have hlen : (out_chunks (sc.sc_ucom.outq.take 2016)).length =
      (min 2016 sc.sc_ucom.outq.length + 62) / 63 := by
    rw [out_chunks_length, List.length_take]
  refine ⟨_, pc', _, hrun, ?_, ?_, ?_, ?_, rfl, hframe, ?_, ?_, out_chunks_bounds _⟩
  · simp only [uftdi_write_callback, h1, one_ne_zero, if_false, hsf, hrun]
    split
    · exact ⟨_, rfl, rfl, by simp only [usbd_transfer_submit, usbd_xfer_set_frame_len, hss],
        rfl⟩
    · exact ⟨_, rfl, rfl, by simp only [hss, Nat.add_zero], hsl⟩
  · rw [hlen]
  · unfold UFTDI_OBUFSIZE; omega
  · intro i hi
    exact hin i (by unfold UFTDI_OBUFSIZE at hi; exact hi)
  · rw [hlen]; omega
  · rw [out_chunks_flatten]
    by_cases h : sc.sc_ucom.outq.length ≤ 2016
    · rw [Nat.min_eq_left h, List.take_of_length_le h, List.take_of_length_le (le_refl _)]
    · rw [Nat.min_eq_right (by omega)]

theorem headered_framing_safe_witness :
    ∃ ucom pc buflen,
      uftdi_write_loop out_tag_sample (softc_sio [1, 2, 3]) UFTDI_OBUFSIZE
        (softc_sio [1, 2, 3]).sc_ucom xfer_idle.frame 0 = some (ucom, pc, buflen) ∧
      buflen = 4 ∧ usbd_copy_out pc 0 buflen = [12, 1, 2, 3] ∧ ucom.outq = [] := by
  obtain ⟨ucom, pc, buflen, h, -, hb, -, -, ho, hf, -⟩ := headered_framing_safe out_tag_sample
    (softc_sio [1, 2, 3]) xfer_idle usb_state.USB_ST_SETUP false rfl
  refine ⟨ucom, pc, buflen, h, ?_, ?_, ?_⟩
  · rw [hb, out_chunks_length]; decide
  · rw [hf]
    have e : List.take 2016 (softc_sio [1, 2, 3]).sc_ucom.outq = [1, 2, 3] := by decide
    rw [e, headered_frame_cons _ _ _ (by decide)]
    have e2 : List.drop 63 [1, 2, 3] = ([] : List Nat) := by decide
    rw [e2, headered_frame_nil]
    decide
  · rw [ho]; rfl

/-! ### Independence of line control and flow from the hardware -/

theorem u16_or (a b : Nat) : u16 (u16 a ||| b) = u16 (a ||| b) := by
  apply Nat.eq_of_testBit_eq
  intro i
  simp only [u16_testBit, Nat.testBit_or]
  cases decide (i < 16) <;> simp

theorem u16_and_eq_zero (a m : Nat) (h : a &&& m = 0) : u16 a &&& m = 0 := by
  apply Nat.eq_of_testBit_eq
  intro i
  have hi := congrArg (fun x => x.testBit i) h
  simp only [Nat.testBit_and, Nat.zero_testBit] at hi
  simp only [Nat.testBit_and, u16_testBit, Nat.zero_testBit, Bool.and_assoc, hi,
    Bool.and_false]

theorem or_and_eq_zero (a b m : Nat) (ha : a &&& m = 0) (hb : b &&& m = 0) :
    (a ||| b) &&& m = 0 := by
  rw [Nat.and_comm, Nat.and_or_distrib_left, Nat.and_comm m a, Nat.and_comm m b, ha, hb]
  rfl

/-- The line control word of an accepted setting in closed form. -/
theorem set_parm_soft_lcr (tc : tty_consts) (fs : ftdi_sio) (sc : uftdi_softc) (t : termios)
    (cfg : uftdi_param_config) (hacc : (uftdi_set_parm_soft tc fs sc t cfg).1 = 0) :
    (uftdi_set_parm_soft tc fs sc t cfg).2.lcr =
      u16 ((if t.c_cflag &&& tc.CSTOPB ≠ 0 then fs.FTDI_SIO_SET_DATA_STOP_BITS_2
            else fs.FTDI_SIO_SET_DATA_STOP_BITS_1) |||
           (if t.c_cflag &&& tc.PARENB ≠ 0 then
              (if t.c_cflag &&& tc.PARODD ≠ 0 then fs.FTDI_SIO_SET_DATA_PARITY_ODD
               else fs.FTDI_SIO_SET_DATA_PARITY_EVEN)
            else fs.FTDI_SIO_SET_DATA_PARITY_NONE) |||
           (if t.c_cflag &&& tc.CSIZE = tc.CS5 then fs.FTDI_SIO_SET_DATA_BITS 5
            else if t.c_cflag &&& tc.CSIZE = tc.CS6 then fs.FTDI_SIO_SET_DATA_BITS 6
            else if t.c_cflag &&& tc.CSIZE = tc.CS7 then fs.FTDI_SIO_SET_DATA_BITS 7
            else if t.c_cflag &&& tc.CSIZE = tc.CS8 then fs.FTDI_SIO_SET_DATA_BITS 8
            else 0)) := by
  rcases encode_dispatch_cases sc t.c_ospeed cfg_zero with he | ⟨lo, hi, he⟩
  · exfalso
    simp only [uftdi_set_parm_soft, he, ne_eq, ERANGE_ne_zero, not_false_eq_true, if_true]
      at hacc
  · unfold uftdi_set_parm_soft
    simp only [he, ne_eq, not_true_eq_false, if_false]
    simp only [apply_ite uftdi_param_config.lcr, ite_self, cfg_zero]
    by_cases h1 : t.c_cflag &&& tc.CSTOPB = 0 <;>
    by_cases h2 : t.c_cflag &&& tc.PARENB = 0 <;>
    by_cases h3 : t.c_cflag &&& tc.PARODD = 0 <;>
    simp only [h1, h2, h3, not_true_eq_false, not_false_eq_true, if_true, if_false] <;>
    split_ifs <;>
    simp only [u16_or, Nat.or_zero]

/-- Claim C26: the line control word and the flow fields `uftdi_set_parm_soft`
produces depend neither on the device nor on the speed: for two devices and
two termios records that agree on `c_cflag`, `c_iflag`, `c_cc[VSTART]` and
`c_cc[VSTOP]` and whose speeds are both accepted, `lcr`, `v_flow`, `v_start`
and `v_stop` are equal.  When `c_cflag & CSIZE` is one of CS5..CS8 (with the
constants of termios.h it always is), `lcr` is the OR of one stop-bits code
(2 stop bits iff CSTOPB), one parity code (none iff PARENB is clear, odd iff
PARENB and PARODD, even otherwise) and the data-bits value 5..8 selected by
CSIZE; when none of those codes contains the break bit, `lcr` does not
contain it. -/
theorem set_parm_soft_hw_independent (tc : tty_consts) (fs : ftdi_sio) (sc sc' : uftdi_softc) (t t' : termios)
    (cfg cfg' : uftdi_param_config)
    (hc : t.c_cflag = t'.c_cflag) (hi : t.c_iflag = t'.c_iflag)
    (hstart : t.c_cc tc.VSTART = t'.c_cc tc.VSTART)
    (hstop : t.c_cc tc.VSTOP = t'.c_cc tc.VSTOP)
    (ha : (uftdi_set_parm_soft tc fs sc t cfg).1 = 0)
    (ha' : (uftdi_set_parm_soft tc fs sc' t' cfg').1 = 0) :
    (uftdi_set_parm_soft tc fs sc t cfg).2.lcr = (uftdi_set_parm_soft tc fs sc' t' cfg').2.lcr ∧
    (uftdi_set_parm_soft tc fs sc t cfg).2.v_flow =
      (uftdi_set_parm_soft tc fs sc' t' cfg').2.v_flow ∧
    (uftdi_set_parm_soft tc fs sc t cfg).2.v_start =
      (uftdi_set_parm_soft tc fs sc' t' cfg').2.v_start ∧
    (uftdi_set_parm_soft tc fs sc t cfg).2.v_stop =
      (uftdi_set_parm_soft tc fs sc' t' cfg').2.v_stop ∧
    ((t.c_cflag &&& tc.CSIZE = tc.CS5 ∨ t.c_cflag &&& tc.CSIZE = tc.CS6 ∨
        t.c_cflag &&& tc.CSIZE = tc.CS7 ∨ t.c_cflag &&& tc.CSIZE = tc.CS8) →
      (uftdi_set_parm_soft tc fs sc t cfg).2.lcr = spec_lcr tc fs t.c_cflag) ∧
    ((fs.FTDI_SIO_SET_DATA_STOP_BITS_1 &&& fs.FTDI_SIO_SET_BREAK = 0 ∧
        fs.FTDI_SIO_SET_DATA_STOP_BITS_2 &&& fs.FTDI_SIO_SET_BREAK = 0 ∧
        fs.FTDI_SIO_SET_DATA_PARITY_NONE &&& fs.FTDI_SIO_SET_BREAK = 0 ∧
        fs.FTDI_SIO_SET_DATA_PARITY_ODD &&& fs.FTDI_SIO_SET_BREAK = 0 ∧
        fs.FTDI_SIO_SET_DATA_PARITY_EVEN &&& fs.FTDI_SIO_SET_BREAK = 0 ∧
        fs.FTDI_SIO_SET_DATA_BITS 5 &&& fs.FTDI_SIO_SET_BREAK = 0 ∧
        fs.FTDI_SIO_SET_DATA_BITS 6 &&& fs.FTDI_SIO_SET_BREAK = 0 ∧
        fs.FTDI_SIO_SET_DATA_BITS 7 &&& fs.FTDI_SIO_SET_BREAK = 0 ∧
        fs.FTDI_SIO_SET_DATA_BITS 8 &&& fs.FTDI_SIO_SET_BREAK = 0) →
      (uftdi_set_parm_soft tc fs sc t cfg).2.lcr &&& fs.FTDI_SIO_SET_BREAK = 0) := by
  have hl := set_parm_soft_lcr tc fs sc t cfg ha
  have hl' := set_parm_soft_lcr tc fs sc' t' cfg' ha'
  have hflow : ∀ (s : uftdi_softc) (u : termios) (c : uftdi_param_config),
      (uftdi_set_parm_soft tc fs s u c).1 = 0 →
      ((uftdi_set_parm_soft tc fs s u c).2.v_flow,
        (uftdi_set_parm_soft tc fs s u c).2.v_start,
        (uftdi_set_parm_soft tc fs s u c).2.v_stop) =
      (if u.c_cflag &&& tc.CRTSCTS ≠ 0 then (u8 fs.FTDI_SIO_RTS_CTS_HS, 0, 0)
       else if u.c_iflag &&& (tc.IXON ||| tc.IXOFF) ≠ 0 then
        (u8 fs.FTDI_SIO_XON_XOFF_HS, u8 (u.c_cc tc.VSTART), u8 (u.c_cc tc.VSTOP))
       else (u8 fs.FTDI_SIO_DISABLE_FLOW_CTRL, 0, 0)) := by
    intro s u c h
    rcases set_parm_soft_cases tc fs s u c with ⟨-, he⟩ | ⟨-, -, hf⟩
    · rw [he] at h
      exact absurd h ERANGE_ne_zero
    · exact hf
  have hf := hflow sc t cfg ha
  have hf' := hflow sc' t' cfg' ha'
  rw [← hc, ← hi, ← hstart, ← hstop, ← hf] at hf'
  rw [← hc, ← hl] at hl'
  simp only [Prod.mk.injEq] at hf'
  refine ⟨hl'.symm, hf'.1.symm, hf'.2.1.symm, hf'.2.2.symm, ?_, ?_⟩
  · intro hcs
    have hpar : (if t.c_cflag &&& tc.PARENB ≠ 0 then
          (if t.c_cflag &&& tc.PARODD ≠ 0 then fs.FTDI_SIO_SET_DATA_PARITY_ODD
           else fs.FTDI_SIO_SET_DATA_PARITY_EVEN)
        else fs.FTDI_SIO_SET_DATA_PARITY_NONE) =
        (if t.c_cflag &&& tc.PARENB = 0 then fs.FTDI_SIO_SET_DATA_PARITY_NONE
         else if t.c_cflag &&& tc.PARODD ≠ 0 then fs.FTDI_SIO_SET_DATA_PARITY_ODD
         else fs.FTDI_SIO_SET_DATA_PARITY_EVEN) := by
      by_cases h : t.c_cflag &&& tc.PARENB = 0
      · rw [if_neg (not_not.mpr h), if_pos h]
      · rw [if_pos h, if_neg h]
    have hdat : (if t.c_cflag &&& tc.CSIZE = tc.CS5 then fs.FTDI_SIO_SET_DATA_BITS 5
          else if t.c_cflag &&& tc.CSIZE = tc.CS6 then fs.FTDI_SIO_SET_DATA_BITS 6
          else if t.c_cflag &&& tc.CSIZE = tc.CS7 then fs.FTDI_SIO_SET_DATA_BITS 7
          else if t.c_cflag &&& tc.CSIZE = tc.CS8 then fs.FTDI_SIO_SET_DATA_BITS 8
          else 0) =
        fs.FTDI_SIO_SET_DATA_BITS
          (if t.c_cflag &&& tc.CSIZE = tc.CS5 then 5
           else if t.c_cflag &&& tc.CSIZE = tc.CS6 then 6
           else if t.c_cflag &&& tc.CSIZE = tc.CS7 then 7 else 8) := by
      split_ifs with a b c d
      · rfl
      · rfl
      · rfl
      · rfl
      · rcases hcs with h | h | h | h
        · exact absurd h a
        · exact absurd h b
        · exact absurd h c
        · exact absurd h d
    rw [hl, hpar, hdat]
    rfl
  · rintro ⟨b1, b2, b3, b4, b5, b6, b7, b8, b9⟩
    rw [hl]
    apply u16_and_eq_zero
    apply or_and_eq_zero
    · apply or_and_eq_zero
      · split <;> assumption
      · split
        · split <;> assumption
        · assumption
    · split_ifs
      · assumption
      · assumption
      · assumption
      · assumption
      · exact Nat.zero_and _


theorem set_parm_soft_hw_independent_witness :
    (uftdi_set_parm_soft tty_sample sio_sample softc_232b (termios_of 0x200 0x1700 9600)
        cfg_zero).2.lcr =
      (uftdi_set_parm_soft tty_sample sio_sample softc_2232h (termios_of 0x200 0x1700 115200)
        cfg_zero).2.lcr ∧
    (uftdi_set_parm_soft tty_sample sio_sample softc_232b (termios_of 0x200 0x1700 9600)
        cfg_zero).2.lcr = 0x1208 ∧
    (uftdi_set_parm_soft tty_sample sio_sample softc_232b (termios_of 0x200 0x1700 9600)
        cfg_zero).2.lcr &&& sio_sample.FTDI_SIO_SET_BREAK = 0 :=
  have h := set_parm_soft_hw_independent tty_sample sio_sample softc_232b softc_2232h
    (termios_of 0x200 0x1700 9600) (termios_of 0x200 0x1700 115200) cfg_zero cfg_zero
    rfl rfl rfl rfl (by decide) (by decide)
  ⟨h.1, (h.2.2.2.2.1 (by decide)).trans (by decide), h.2.2.2.2.2 (by decide)⟩

/-! ### Profiles and the divisor encoder -/

/-- The profiles `uftdi_devtype_setup` produces from a zeroed softc: the
device type, the capability flags and the port number go together. -/
theorem devtype_setup_profile (pit code ser iface : Nat) :
    ((uftdi_devtype_setup pit softc_zero code ser iface).1.sc_devflags = 0 ∧
      (uftdi_devtype_setup pit softc_zero code ser iface).1.sc_ucom.sc_portno = 0 ∧
      ((uftdi_devtype_setup pit softc_zero code ser iface).1.sc_devtype = DEVT_SIO ∨
       (uftdi_devtype_setup pit softc_zero code ser iface).1.sc_devtype = DEVT_232A ∨
       (uftdi_devtype_setup pit softc_zero code ser iface).1.sc_devtype = DEVT_232B ∨
       (uftdi_devtype_setup pit softc_zero code ser iface).1.sc_devtype = DEVT_232R)) ∨
    ((uftdi_devtype_setup pit softc_zero code ser iface).1.sc_devflags =
        DEVF_BAUDBITS_HINDEX ∧
      (uftdi_devtype_setup pit softc_zero code ser iface).1.sc_ucom.sc_portno =
        u16 (pit + iface) ∧
      ((uftdi_devtype_setup pit softc_zero code ser iface).1.sc_devtype = DEVT_2232D ∨
       (uftdi_devtype_setup pit softc_zero code ser iface).1.sc_devtype = DEVT_230X)) ∨
    ((uftdi_devtype_setup pit softc_zero code ser iface).1.sc_devflags =
        (DEVF_BAUDBITS_HINDEX ||| DEVF_BAUDCLK_12M) ∧
      (uftdi_devtype_setup pit softc_zero code ser iface).1.sc_ucom.sc_portno =
        u16 (pit + iface) ∧
      ((uftdi_devtype_setup pit softc_zero code ser iface).1.sc_devtype = DEVT_2232H ∨
       (uftdi_devtype_setup pit softc_zero code ser iface).1.sc_devtype = DEVT_4232H ∨
       (uftdi_devtype_setup pit softc_zero code ser iface).1.sc_devtype = DEVT_232H)) := by
  have h0 : u16 0 = 0 := rfl
  have f1 : u8 DEVF_BAUDBITS_HINDEX = DEVF_BAUDBITS_HINDEX := by decide
  have f2 : u8 (DEVF_BAUDBITS_HINDEX ||| DEVF_BAUDCLK_12M) =
      DEVF_BAUDBITS_HINDEX ||| DEVF_BAUDCLK_12M := by decide
  unfold uftdi_devtype_setup
  simp only
  split_ifs <;> simp [softc_zero, h0, f1, f2]

theorem encode_status_congr (sc sc' : uftdi_softc) (speed : Nat) (cfg cfg' : uftdi_param_config)
    (hf : sc.sc_devflags = sc'.sc_devflags)
    (ht : sc.sc_devtype = DEVT_232A ↔ sc'.sc_devtype = DEVT_232A) :
    (uftdi_encode_baudrate sc speed cfg).1 = (uftdi_encode_baudrate sc' speed cfg').1 := by
  have hc : baud_clk sc speed = baud_clk sc' speed := by
    unfold baud_clk baud_fast; rw [hf]
  have h16 : baud_div16 sc speed = baud_div16 sc' speed := by
    unfold baud_div16; rw [hc]
  have h8 : baud_div8 sc speed = baud_div8 sc' speed := by
    unfold baud_div8
    simp only [h16]
    by_cases h : sc.sc_devtype = DEVT_232A
    · rw [if_pos h, if_pos (ht.mp h)]
    · rw [if_neg h, if_neg (fun h' => h (ht.mpr h'))]
  have hh : baud_hwspeed sc speed = baud_hwspeed sc' speed := by
    unfold baud_hwspeed; rw [hc, h8]
  rw [uftdi_encode_baudrate_eq, uftdi_encode_baudrate_eq, hc, hh]
  split_ifs <;> rfl

theorem sio_speeds_accepted_232a :
    ∀ speed ∈ sio_speeds, (uftdi_encode_baudrate softc_232a speed cfg_zero).1 = 0 := by
  decide

theorem sio_speeds_accepted_232b :
    ∀ speed ∈ sio_speeds, (uftdi_encode_baudrate softc_232b speed cfg_zero).1 = 0 := by
  decide

theorem sio_speeds_accepted_2232d :
    ∀ speed ∈ sio_speeds,
      (uftdi_encode_baudrate (uftdi_devtype_setup 1 softc_zero 0x500 0 0).1 speed cfg_zero).1
        = 0 := by
  decide

theorem sio_speeds_accepted_2232h :
    ∀ speed ∈ sio_speeds, (uftdi_encode_baudrate softc_2232h speed cfg_zero).1 = 0 := by
  decide

/-- Claim C31: every speed of the fixed table (300, 600, 1200, 2400, 4800,
9600, 19200, 38400, 57600, 115200) is accepted by `uftdi_encode_baudrate` on
every profile `uftdi_devtype_setup` produces with a device type other than
`DEVT_SIO`; it is also what `uftdi_set_parm_soft` calls for such a profile, and
the fixed-table encoder accepts the speed as well. -/
theorem sio_speeds_accepted_by_divisor (pit code ser iface speed : Nat) (cfg : uftdi_param_config)
    (hd : (uftdi_devtype_setup pit softc_zero code ser iface).1.sc_devtype ≠ DEVT_SIO)
    (hs : speed ∈ sio_speeds) :
    (uftdi_encode_baudrate (uftdi_devtype_setup pit softc_zero code ser iface).1 speed cfg).1
      = 0 ∧
    (uftdi_encode_dispatch (uftdi_devtype_setup pit softc_zero code ser iface).1 speed cfg).1
      = 0 ∧
    (uftdi_sio_encode_baudrate (uftdi_devtype_setup pit softc_zero code ser iface).1 speed
      cfg).1 = 0 := by
  have h1 : (uftdi_encode_baudrate (uftdi_devtype_setup pit softc_zero code ser iface).1
      speed cfg).1 = 0 := by
    rcases devtype_setup_profile pit code ser iface with ⟨hf, -, ht⟩ | ⟨hf, -, ht⟩ | ⟨hf, -, ht⟩
    · rcases ht with ht | ht | ht | ht
      · exact absurd ht hd
      · rw [encode_status_congr _ softc_232a speed cfg cfg_zero (by rw [hf]; rfl)
          (by rw [ht]; decide)]
        exact sio_speeds_accepted_232a speed hs
      · rw [encode_status_congr _ softc_232b speed cfg cfg_zero (by rw [hf]; rfl)
          (by rw [ht]; decide)]
        exact sio_speeds_accepted_232b speed hs
      · rw [encode_status_congr _ softc_232b speed cfg cfg_zero (by rw [hf]; rfl)
          (by rw [ht]; decide)]
        exact sio_speeds_accepted_232b speed hs
    · rw [encode_status_congr _ (uftdi_devtype_setup 1 softc_zero 0x500 0 0).1 speed cfg
        cfg_zero (by rw [hf]; rfl) (by rcases ht with ht | ht <;> rw [ht] <;> decide)]
      exact sio_speeds_accepted_2232d speed hs
    · rw [encode_status_congr _ softc_2232h speed cfg cfg_zero (by rw [hf]; rfl)
        (by rcases ht with ht | ht | ht <;> rw [ht] <;> decide)]
      exact sio_speeds_accepted_2232h speed hs
  refine ⟨h1, ?_, ?_⟩
  · unfold uftdi_encode_dispatch
    rw [if_neg hd]
    exact h1
  · unfold uftdi_sio_encode_baudrate
    simp only [sio_speeds, List.mem_cons, List.mem_singleton, List.not_mem_nil, or_false] at hs
    rcases hs with h | h | h | h | h | h | h | h | h | h <;> subst h <;> rfl

theorem sio_speeds_accepted_by_divisor_witness :
    (uftdi_encode_baudrate (uftdi_devtype_setup 1 softc_zero 0x900 0 0).1 57600 cfg_zero).1
      = 0 :=
  (sio_speeds_accepted_by_divisor 1 0x900 0 0 57600 cfg_zero (by decide) (by decide)).1

/-- Claim C33: for every revision code, serial number index and interface
number, the profile `uftdi_devtype_setup` produces from a zero-initialised
softc satisfies: `DEVF_BAUDCLK_12M` set implies `DEVF_BAUDBITS_HINDEX` set; the
port number is `FTDI_PIT_SIOA` + interface number when `DEVF_BAUDBITS_HINDEX`
is set and 0 otherwise; `DEVT_SIO` and `DEVT_232A` carry no capability flag;
and the flags are one of none, HINDEX, or HINDEX and 12M.  The port number is
a 16-bit field, so the sum is taken below 65536. -/
theorem devtype_profile_invariant (pit code ser iface : Nat) (hfit : pit + iface < 65536) :
    ((uftdi_devtype_setup pit softc_zero code ser iface).1.sc_devflags &&& DEVF_BAUDCLK_12M ≠ 0 →
      (uftdi_devtype_setup pit softc_zero code ser iface).1.sc_devflags &&&
        DEVF_BAUDBITS_HINDEX ≠ 0) ∧
    (uftdi_devtype_setup pit softc_zero code ser iface).1.sc_ucom.sc_portno =
      (if (uftdi_devtype_setup pit softc_zero code ser iface).1.sc_devflags &&&
          DEVF_BAUDBITS_HINDEX ≠ 0 then pit + iface else 0) ∧
    (((uftdi_devtype_setup pit softc_zero code ser iface).1.sc_devtype = DEVT_SIO ∨
      (uftdi_devtype_setup pit softc_zero code ser iface).1.sc_devtype = DEVT_232A) →
      (uftdi_devtype_setup pit softc_zero code ser iface).1.sc_devflags = 0) ∧
    ((uftdi_devtype_setup pit softc_zero code ser iface).1.sc_devflags = 0 ∨
      (uftdi_devtype_setup pit softc_zero code ser iface).1.sc_devflags =
        DEVF_BAUDBITS_HINDEX ∨
      (uftdi_devtype_setup pit softc_zero code ser iface).1.sc_devflags =
        (DEVF_BAUDBITS_HINDEX ||| DEVF_BAUDCLK_12M)) := by
  have hp : u16 (pit + iface) = pit + iface := Nat.mod_eq_of_lt hfit
  rcases devtype_setup_profile pit code ser iface with ⟨hf, hn, ht⟩ | ⟨hf, hn, ht⟩ | ⟨hf, hn, ht⟩
  · rw [hf, hn]
    exact ⟨by decide, by rw [if_neg (by decide)], fun _ => rfl, Or.inl rfl⟩
  · rw [hf, hn, hp]
    refine ⟨by decide, by rw [if_pos (by decide)], ?_, Or.inr (Or.inl rfl)⟩
    rintro (h | h) <;> rcases ht with ht | ht <;> rw [ht] at h <;> exact absurd h (by decide)
  · rw [hf, hn, hp]
    refine ⟨by decide, by rw [if_pos (by decide)], ?_, Or.inr (Or.inr rfl)⟩
    rintro (h | h) <;> rcases ht with ht | ht | ht <;> rw [ht] at h <;>
      exact absurd h (by decide)

theorem devtype_profile_invariant_witness :
    (uftdi_devtype_setup 1 softc_zero 0x800 0 3).1.sc_ucom.sc_portno = 4 ∧
    (uftdi_devtype_setup 1 softc_zero 0x800 0 3).1.sc_devflags = 3 :=
  ⟨(devtype_profile_invariant 1 0x800 0 3 (by decide)).2.1.trans (by decide), by decide⟩

/-! ### The index word of the set-baud-rate request -/

theorem baud_pack_lt_slow (sc : uftdi_softc) (speed : Nat) (hi : baud_integral sc speed < 32768)
    (hf : sc.sc_devflags &&& DEVF_BAUDCLK_12M = 0) : baud_pack sc speed < 131072 := by
  have hc := baud_frac_code_le sc speed
  have hflag : baud_fastclk_flag sc speed = 0 := by
    rcases baud_clk_cases sc speed with ⟨-, -, h, -⟩ | ⟨-, h, -⟩
    · exact absurd hf h
    · exact h
  rw [baud_pack_eq, hflag]
  have h17 : (131072 : Nat) = 2 ^ 17 := by norm_num
  rw [h17]
  apply Nat.or_lt_two_pow
  · calc baud_integral sc speed < 32768 := hi
      _ ≤ 2 ^ 17 := by norm_num
  · apply Nat.or_lt_two_pow
    · rw [Nat.shiftLeft_eq]; norm_num; omega
    · norm_num

/-- The value of `baud_hibits` an accepted speed gets. -/
theorem baud_cfg_hibits (sc : uftdi_softc) (speed : Nat) (cfg : uftdi_param_config)
    (hp : baud_pack sc speed < 262144) :
    (baud_cfg sc speed cfg).baud_hibits =
      (if sc.sc_devflags &&& DEVF_BAUDBITS_HINDEX ≠ 0 then 256 * (baud_pack sc speed / 65536)
       else baud_pack sc speed / 65536) := by
  unfold baud_cfg
  by_cases hx : sc.sc_devflags &&& DEVF_BAUDBITS_HINDEX ≠ 0
  · simp only [hx, if_true, ne_eq, not_false_eq_true, u16, Nat.shiftRight_eq_div_pow,
      Nat.shiftLeft_eq]
    norm_num
    omega
  · simp only [hx, if_false, u16, Nat.shiftRight_eq_div_pow]
    norm_num
    omega

theorem or_low_byte (k p : Nat) : (256 * k ||| p) % 256 = p % 256 ∧
    (p < 256 → 256 * k ||| p = 256 * k + p ∧ 256 * k &&& p = 0) := by
  have e : 256 * k = k <<< 8 := by rw [Nat.shiftLeft_eq]; omega
  constructor
  · apply Nat.eq_of_testBit_eq
    intro i
    have h256 : (256 : Nat) = 2 ^ 8 := by norm_num
    rw [h256, Nat.testBit_mod_two_pow, Nat.testBit_mod_two_pow, Nat.testBit_or, ← h256, e,
      Nat.testBit_shiftLeft]
    by_cases hi : i < 8
    · have : ¬ (i ≥ 8) := by omega
      simp [hi, this]
    · simp [hi]
  · intro hp
    have hp8 : p < 2 ^ 8 := by norm_num; exact hp
    constructor
    · exact (Nat.mul_add_lt_is_or hp8 k).symm
    · apply Nat.eq_of_testBit_eq
      intro i
      rw [Nat.testBit_and, e, Nat.testBit_shiftLeft, Nat.zero_testBit]
      by_cases hi : i < 8
      · have : ¬ (i ≥ 8) := by omega
        simp [this]
      · have hpi : p.testBit i = false :=
          Nat.testBit_lt_two_pow (lt_of_lt_of_le hp8 (Nat.pow_le_pow_right (by decide)
            (by omega)))
        simp [hpi]


/-- Claim C34, as amended: for every profile `uftdi_devtype_setup` produces
and every speed `uftdi_encode_baudrate` accepts on it: when
`DEVF_BAUDBITS_HINDEX` is set, `baud_hibits` is one of 0x000, 0x100, 0x200,
0x300, its low byte is zero, the low byte of `baud_hibits | port` is the low
byte of the port number, and for a port number below 256 it is the port number
and the two share no bit; when the flag is clear, `baud_hibits` is 0 or 1, the
port number is 0 and `baud_hibits | port` is `baud_hibits` itself. -/
theorem baud_hibits_and_port (pit code ser iface speed : Nat) (cfg : uftdi_param_config)
    (hacc : (uftdi_encode_baudrate (uftdi_devtype_setup pit softc_zero code ser iface).1 speed
      cfg).1 = 0) :
    (if (uftdi_devtype_setup pit softc_zero code ser iface).1.sc_devflags &&&
        DEVF_BAUDBITS_HINDEX ≠ 0 then
      ((uftdi_encode_baudrate (uftdi_devtype_setup pit softc_zero code ser iface).1 speed
          cfg).2.baud_hibits ∈ [0x000, 0x100, 0x200, 0x300]) ∧
      (uftdi_encode_baudrate (uftdi_devtype_setup pit softc_zero code ser iface).1 speed
          cfg).2.baud_hibits % 256 = 0 ∧
      ((uftdi_encode_baudrate (uftdi_devtype_setup pit softc_zero code ser iface).1 speed
          cfg).2.baud_hibits |||
        (uftdi_devtype_setup pit softc_zero code ser iface).1.sc_ucom.sc_portno) % 256 =
        (uftdi_devtype_setup pit softc_zero code ser iface).1.sc_ucom.sc_portno % 256 ∧
      ((uftdi_devtype_setup pit softc_zero code ser iface).1.sc_ucom.sc_portno < 256 →
        ((uftdi_encode_baudrate (uftdi_devtype_setup pit softc_zero code ser iface).1 speed
            cfg).2.baud_hibits |||
          (uftdi_devtype_setup pit softc_zero code ser iface).1.sc_ucom.sc_portno) % 256 =
          (uftdi_devtype_setup pit softc_zero code ser iface).1.sc_ucom.sc_portno ∧
        (uftdi_encode_baudrate (uftdi_devtype_setup pit softc_zero code ser iface).1 speed
            cfg).2.baud_hibits &&&
          (uftdi_devtype_setup pit softc_zero code ser iface).1.sc_ucom.sc_portno = 0)
     else
      ((uftdi_encode_baudrate (uftdi_devtype_setup pit softc_zero code ser iface).1 speed
          cfg).2.baud_hibits ∈ [0, 1]) ∧
      (uftdi_devtype_setup pit softc_zero code ser iface).1.sc_ucom.sc_portno = 0 ∧
      ((uftdi_encode_baudrate (uftdi_devtype_setup pit softc_zero code ser iface).1 speed
          cfg).2.baud_hibits |||
        (uftdi_devtype_setup pit softc_zero code ser iface).1.sc_ucom.sc_portno) =
        (uftdi_encode_baudrate (uftdi_devtype_setup pit softc_zero code ser iface).1 speed
          cfg).2.baud_hibits) := by
  have hr := encode_accept_range _ speed cfg hacc
  have hi := baud_integral_lt _ speed hr
  have hp := baud_pack_lt _ speed hi
  have hh := baud_cfg_hibits (uftdi_devtype_setup pit softc_zero code ser iface).1 speed cfg hp
  rw [encode_accept _ speed cfg hacc]
  simp only
  rw [hh]
  by_cases hx : (uftdi_devtype_setup pit softc_zero code ser iface).1.sc_devflags &&&
      DEVF_BAUDBITS_HINDEX ≠ 0
  · rw [if_pos hx, if_pos hx]
    obtain ⟨hlow, hport⟩ := or_low_byte
      (baud_pack (uftdi_devtype_setup pit softc_zero code ser iface).1 speed / 65536)
      (uftdi_devtype_setup pit softc_zero code ser iface).1.sc_ucom.sc_portno
    refine ⟨?_, by omega, hlow, fun hlt => ⟨?_, (hport hlt).2⟩⟩
    · have : baud_pack (uftdi_devtype_setup pit softc_zero code ser iface).1 speed / 65536 < 4 := by
        omega
      simp only [List.mem_cons, List.mem_singleton, List.not_mem_nil, or_false]
      omega
    · rw [hlow]; exact Nat.mod_eq_of_lt hlt
  · rw [if_neg hx, if_neg hx]
    have hflags : (uftdi_devtype_setup pit softc_zero code ser iface).1.sc_devflags = 0 ∧
        (uftdi_devtype_setup pit softc_zero code ser iface).1.sc_ucom.sc_portno = 0 := by
      rcases devtype_setup_profile pit code ser iface with ⟨hf, hn, -⟩ | ⟨hf, -, -⟩ | ⟨hf, -, -⟩
      · exact ⟨hf, hn⟩
      · rw [hf] at hx; exact absurd (by decide) hx
      · rw [hf] at hx; exact absurd (by decide) hx
    have hslow := baud_pack_lt_slow _ speed hi (by rw [hflags.1]; rfl)
    rw [hflags.2]
    refine ⟨?_, rfl, Nat.or_zero _⟩
    simp only [List.mem_cons, List.mem_singleton, List.not_mem_nil, or_false]
    omega

theorem baud_hibits_and_port_witness :
    (uftdi_encode_baudrate softc_2232h 9600 cfg_zero).2.baud_hibits = 0x200 ∧
    (uftdi_encode_baudrate softc_232b 184 cfg_zero).2.baud_hibits = 1 ∧
    (uftdi_encode_baudrate (uftdi_devtype_setup 1 softc_zero 0x700 0 1).1 9600
        cfg_zero).2.baud_hibits ∈ [0x000, 0x100, 0x200, 0x300] := by
  have h := baud_hibits_and_port 1 0x700 0 1 9600 cfg_zero (by decide)
  rw [if_pos (by decide)] at h
  exact ⟨by decide, by decide, h.1⟩

/-- Claim C34 fails as stated on a profile without `DEVF_BAUDBITS_HINDEX`: a
232B accepts speed 14400 with `baud_hibits` 1 and port number 0, so the low
byte of `baud_hibits | port` is 1 and not the port number. -/
theorem index_low_byte_not_port_14400 :
    softc_232b.sc_devflags &&& DEVF_BAUDBITS_HINDEX = 0 ∧
    softc_232b.sc_ucom.sc_portno = 0 ∧
    (uftdi_encode_baudrate softc_232b 14400 cfg_zero).1 = 0 ∧
    (uftdi_encode_baudrate softc_232b 14400 cfg_zero).2.baud_hibits = 1 ∧
    ((uftdi_encode_baudrate softc_232b 14400 cfg_zero).2.baud_hibits |||
      softc_232b.sc_ucom.sc_portno) % 256 = 1 ∧
    ¬ (((uftdi_encode_baudrate softc_232b 14400 cfg_zero).2.baud_hibits |||
      softc_232b.sc_ucom.sc_portno) % 256 = softc_232b.sc_ucom.sc_portno) := by
  decide

/-! ### Invariant of the status tracker -/

theorem u8_testBit (x i : Nat) : (u8 x).testBit i = (decide (i < 8) && x.testBit i) := by
  have e : u8 x = x % 2 ^ 8 := rfl
  rw [e, Nat.testBit_mod_two_pow]

theorem u8_lt (x : Nat) : u8 x < 256 := Nat.mod_lt _ (by decide)

theorem read_loop_msr_bits (reg : uftdi_reg) (pc : PageCache) (pktmax : Nat) :
    ∀ (fuel : Nat) (ucom : ucom_softc) (lsr msr offset buflen : Nat) (buf : List Nat)
      (r : ucom_softc × Nat × Nat × List Nat),
      uftdi_read_loop reg pc pktmax fuel ucom lsr msr offset buflen buf = some r →
      (msr < 256 → r.2.2.1 < 256) ∧
      ∀ i, r.2.2.1.testBit i = true → msr.testBit i = true ∨ reg.SER_RI.testBit i = true := by
  intro fuel
  induction fuel with
  | zero => intro _ _ _ _ _ _ _ h; simp [uftdi_read_loop] at h
  | succ f ih =>
    intro ucom lsr msr offset buflen buf r h
    rw [read_loop_succ] at h
    by_cases hb : buflen ≥ 2
    · rw [if_pos hb] at h
      obtain ⟨hlt, hbits⟩ := ih _ _ _ _ _ _ _ h
      constructor
      · intro hm
        apply hlt
        split
        · exact u8_lt _
        · exact hm
      · intro i hi
        rcases hbits i hi with h1 | h1
        · split at h1
          · rw [u8_testBit, Nat.testBit_or] at h1
            simp only [Bool.and_eq_true, Bool.or_eq_true, decide_eq_true_eq] at h1
            exact h1.2
          · exact Or.inl h1
        · exact Or.inr h1
    · rw [if_neg hb] at h
      simp only [Option.some.injEq] at h
      subst h
      exact ⟨fun hm => hm, fun i hi => Or.inl hi⟩

theorem read_msr_bits (reg : uftdi_reg) (msr : Nat) (buf : List Nat) :
    (msr < 256 → uftdi_read_msr reg msr buf < 256) ∧
    ∀ i, (uftdi_read_msr reg msr buf).testBit i = true →
      msr.testBit i = true ∨
      (reg.SER_CTS ||| reg.SER_DSR ||| reg.SER_RI ||| reg.SER_DCD).testBit i = true := by
  unfold uftdi_read_msr
  simp only
  constructor
  · intro hm
    split_ifs <;> first | exact u8_lt _ | exact hm
  · intro i
    split_ifs <;>
      simp only [u8_testBit, Nat.testBit_or, Bool.and_eq_true, Bool.or_eq_true,
        decide_eq_true_eq] <;> tauto

theorem read_computed_msr_bits (reg : uftdi_reg) (xfer : usb_xfer) (msr lsr : Nat)
    (h : read_computed reg xfer = some (msr, lsr)) :
    msr < 256 ∧
    ∀ i, msr.testBit i = true →
      (reg.SER_CTS ||| reg.SER_DSR ||| reg.SER_RI ||| reg.SER_DCD).testBit i = true := by
  unfold read_computed at h
  cases hc : uftdi_read_loop reg xfer.frame (uftdi_pktmax xfer) (xfer.actlen + 1)
      softc_zero.sc_ucom 0 0 0 xfer.actlen [0, 0] with
  | none => rw [hc] at h; simp at h
  | some r =>
    obtain ⟨u, l, m, b⟩ := r
    rw [hc] at h
    simp only [Option.some.injEq, Prod.mk.injEq] at h
    obtain ⟨hm, -⟩ := h
    obtain ⟨hlt, hbits⟩ := read_loop_msr_bits reg _ _ _ _ _ _ _ _ _ _ hc
    obtain ⟨hlt2, hbits2⟩ := read_msr_bits reg m b
    simp only at hlt hbits
    rw [← hm]
    refine ⟨hlt2 (hlt (by decide)), ?_⟩
    intro i hi
    rcases hbits2 i hi with h1 | h1
    · rcases hbits i h1 with h2 | h2
      · simp at h2
      · simp only [Nat.testBit_or, Bool.or_eq_true]
        tauto
    · exact h1

/-- Claim C32: after the read callback has processed a buffer of length at
least 2, the stored `sc_msr` equals the modem bits computed from that buffer
and the stored `sc_lsr` agrees with the accumulated line-status bits on every
bit of `FTDI_LSR_MASK`; `uftdi_cfg_get_status` reports these stored values;
the stored `sc_msr` is a byte whose bits are among `SER_CTS`, `SER_DSR`,
`SER_RI` and `SER_DCD`, and it stays so through every later invocation of the
callback, whatever its state and buffer. -/
theorem status_tracker_invariant (reg : uftdi_reg) (sc : uftdi_softc) (xfer : usb_xfer) (hL : 2 ≤ xfer.actlen) :
    ∃ sc' msr lsr,
      uftdi_read_callback reg sc xfer usb_state.USB_ST_TRANSFERRED false =
        some (sc', uftdi_read_tr_setup xfer) ∧
      read_computed reg xfer = some (msr, lsr) ∧
      sc'.sc_msr = msr ∧
      sc'.sc_lsr &&& reg.FTDI_LSR_MASK = lsr &&& reg.FTDI_LSR_MASK ∧
      uftdi_cfg_get_status sc' = (sc'.sc_lsr, msr) ∧
      sc'.sc_msr < 256 ∧
      (∀ i, sc'.sc_msr.testBit i = true →
        (reg.SER_CTS ||| reg.SER_DSR ||| reg.SER_RI ||| reg.SER_DCD).testBit i = true) ∧
      (∀ (x : usb_xfer) (st : usb_state) (cancelled : Bool) (r : uftdi_softc × usb_xfer),
        uftdi_read_callback reg sc' x st cancelled = some r →
        ∀ i, r.1.sc_msr.testBit i = true →
          (reg.SER_CTS ||| reg.SER_DSR ||| reg.SER_RI ||| reg.SER_DCD).testBit i = true) := by
  have key : ∀ (s : uftdi_softc) (x : usb_xfer), 2 ≤ x.actlen →
      ∃ s' msr lsr,
        uftdi_read_callback reg s x usb_state.USB_ST_TRANSFERRED false =
          some (s', uftdi_read_tr_setup x) ∧
        read_computed reg x = some (msr, lsr) ∧ s'.sc_msr = msr ∧
        s'.sc_lsr &&& reg.FTDI_LSR_MASK = lsr &&& reg.FTDI_LSR_MASK ∧
        s'.sc_msr < 256 ∧
        (∀ i, s'.sc_msr.testBit i = true →
          (reg.SER_CTS ||| reg.SER_DSR ||| reg.SER_RI ||| reg.SER_DCD).testBit i = true) := by
    intro s x hx
    obtain ⟨ucom', msr, lsr, hc, hcb, -⟩ := read_callback_transferred reg s x hx
    obtain ⟨hm, hl, -, -⟩ := read_status_spec reg { s with sc_ucom := ucom' } msr lsr
    obtain ⟨hlt, hbits⟩ := read_computed_msr_bits reg x msr lsr hc
    exact ⟨_, msr, lsr, hcb, hc, hm, hl, by rw [hm]; exact hlt, by rw [hm]; exact hbits⟩
  obtain ⟨sc', msr, lsr, hcb, hc, hm, hl, hlt, hbits⟩ := key sc xfer hL
  refine ⟨sc', msr, lsr, hcb, hc, hm, hl, by rw [← hm]; rfl, hlt, hbits, ?_⟩
  intro x st cancelled r hr
  have hsame : r.1 = sc' → ∀ i, r.1.sc_msr.testBit i = true →
      (reg.SER_CTS ||| reg.SER_DSR ||| reg.SER_RI ||| reg.SER_DCD).testBit i = true := by
    intro e; rw [e]; exact hbits
  cases st with
  | USB_ST_SETUP =>
    simp only [uftdi_read_callback, Option.some.injEq] at hr
    exact hsame (by rw [← hr])
  | USB_ST_ERROR =>
    cases cancelled with
    | false =>
      simp only [uftdi_read_callback, if_true, Option.some.injEq] at hr
      exact hsame (by rw [← hr])
    | true =>
      simp only [uftdi_read_callback, Bool.true_eq_false, if_false, Option.some.injEq] at hr
      exact hsame (by rw [← hr])
  | USB_ST_TRANSFERRED =>
    by_cases hx : 2 ≤ x.actlen
    · obtain ⟨s', m', l', hcb', -, -, -, -, hbits'⟩ := key sc' x hx
      have e : uftdi_read_callback reg sc' x usb_state.USB_ST_TRANSFERRED cancelled =
          uftdi_read_callback reg sc' x usb_state.USB_ST_TRANSFERRED false := rfl
      rw [e, hcb'] at hr
      simp only [Option.some.injEq] at hr
      rw [← hr]
      exact hbits'
    · have hlt' : x.actlen < UFTDI_IHDRSIZE := by unfold UFTDI_IHDRSIZE; omega
      simp only [uftdi_read_callback, hlt', if_true, Option.some.injEq] at hr
      exact hsame (by rw [← hr])

theorem status_tracker_invariant_witness :
    ∃ sc' msr lsr,
      uftdi_read_callback reg_sample softc_zero (xfer_of [0x10, 0x62, 5] 64)
        usb_state.USB_ST_TRANSFERRED false =
        some (sc', uftdi_read_tr_setup (xfer_of [0x10, 0x62, 5] 64)) ∧
      read_computed reg_sample (xfer_of [0x10, 0x62, 5] 64) = some (msr, lsr) ∧
      sc'.sc_msr = msr ∧
      sc'.sc_lsr &&& reg_sample.FTDI_LSR_MASK = lsr &&& reg_sample.FTDI_LSR_MASK := by
  obtain ⟨sc', msr, lsr, h1, h2, h3, h4, -⟩ :=
    status_tracker_invariant reg_sample softc_zero (xfer_of [0x10, 0x62, 5] 64) (by decide)
  exact ⟨sc', msr, lsr, h1, h2, h3, h4⟩

/-! ### Reconfiguration -/

theorem u16_lt (x : Nat) : u16 x < 65536 := Nat.mod_lt _ (by decide)

theorem u16_of_lt (x : Nat) (h : x < 65536) : u16 x = x := Nat.mod_eq_of_lt h

theorem u8_of_lt (x : Nat) (h : x < 256) : u8 x = x := Nat.mod_eq_of_lt h

theorem sio_encode_loop_ranges (speed : Nat) (cfg : uftdi_param_config) :
    ∀ (l : List Nat) (i : Nat), (uftdi_sio_encode_loop speed cfg i l).1 = 0 →
      (uftdi_sio_encode_loop speed cfg i l).2.baud_lobits < 65536 ∧
      (uftdi_sio_encode_loop speed cfg i l).2.baud_hibits < 65536 := by
  intro l
  induction l with
  | nil => intro i h; exact absurd h ERANGE_ne_zero
  | cons s rest ih =>
    intro i
    rw [uftdi_sio_encode_loop]
    by_cases h : speed = s
    · rw [if_pos h]
      intro _
      exact ⟨u16_lt _, by show (0 : Nat) < 65536; omega⟩
    · rw [if_neg h]
      exact ih (i + 1)

theorem encode_dispatch_ranges (sc : uftdi_softc) (speed : Nat) (cfg : uftdi_param_config)
    (h : (uftdi_encode_dispatch sc speed cfg).1 = 0) :
    (uftdi_encode_dispatch sc speed cfg).2.baud_lobits < 65536 ∧
    (uftdi_encode_dispatch sc speed cfg).2.baud_hibits < 65536 := by
  unfold uftdi_encode_dispatch at h ⊢
  by_cases hd : sc.sc_devtype = DEVT_SIO
  · rw [if_pos hd] at h ⊢
    exact sio_encode_loop_ranges speed cfg sio_speeds 0 h
  · rw [if_neg hd] at h ⊢
    rw [encode_accept sc speed cfg h]
    unfold baud_cfg
    simp only
    split
    · exact ⟨u16_lt _, u16_lt _⟩
    · exact ⟨u16_lt _, u16_lt _⟩

/-- An accepted setting keeps the baud halves of the encoder, and every field
of the configuration fits its C type. -/
theorem set_parm_soft_ranges (tc : tty_consts) (fs : ftdi_sio) (sc : uftdi_softc) (t : termios)
    (cfg : uftdi_param_config) (hacc : (uftdi_set_parm_soft tc fs sc t cfg).1 = 0) :
    (uftdi_set_parm_soft tc fs sc t cfg).2.baud_lobits =
      (uftdi_encode_dispatch sc t.c_ospeed cfg_zero).2.baud_lobits ∧
    (uftdi_set_parm_soft tc fs sc t cfg).2.baud_hibits =
      (uftdi_encode_dispatch sc t.c_ospeed cfg_zero).2.baud_hibits ∧
    (uftdi_set_parm_soft tc fs sc t cfg).2.baud_lobits < 65536 ∧
    (uftdi_set_parm_soft tc fs sc t cfg).2.baud_hibits < 65536 ∧
    (uftdi_set_parm_soft tc fs sc t cfg).2.lcr < 65536 ∧
    (uftdi_set_parm_soft tc fs sc t cfg).2.v_start < 256 ∧
    (uftdi_set_parm_soft tc fs sc t cfg).2.v_stop < 256 ∧
    (uftdi_set_parm_soft tc fs sc t cfg).2.v_flow < 256 := by
  have hl := set_parm_soft_lcr tc fs sc t cfg hacc
  rcases set_parm_soft_cases tc fs sc t cfg with ⟨-, he⟩ | ⟨hd0, -, hf⟩
  · rw [he] at hacc
    exact absurd hacc ERANGE_ne_zero
  · obtain ⟨hlo, hhi⟩ := encode_dispatch_ranges sc t.c_ospeed cfg_zero hd0
    have hb : (uftdi_set_parm_soft tc fs sc t cfg).2.baud_lobits =
          (uftdi_encode_dispatch sc t.c_ospeed cfg_zero).2.baud_lobits ∧
        (uftdi_set_parm_soft tc fs sc t cfg).2.baud_hibits =
          (uftdi_encode_dispatch sc t.c_ospeed cfg_zero).2.baud_hibits := by
      unfold uftdi_set_parm_soft
      simp only [hd0, ne_eq, not_true_eq_false, if_false,
        apply_ite uftdi_param_config.baud_lobits, apply_ite uftdi_param_config.baud_hibits,
        ite_self, and_self]
    have hv : (uftdi_set_parm_soft tc fs sc t cfg).2.v_flow < 256 ∧
        (uftdi_set_parm_soft tc fs sc t cfg).2.v_start < 256 ∧
        (uftdi_set_parm_soft tc fs sc t cfg).2.v_stop < 256 := by
      simp only [Prod.ext_iff] at hf
      obtain ⟨h1, h2, h3⟩ := hf
      rw [h1, h2, h3]
      split_ifs <;> exact ⟨u8_lt _,
        by first | exact u8_lt _ | (show (0 : Nat) < 256; omega),
        by first | exact u8_lt _ | (show (0 : Nat) < 256; omega)⟩
    refine ⟨hb.1, hb.2, by rw [hb.1]; exact hlo, by rw [hb.2]; exact hhi, ?_, hv.2.1, hv.2.2,
      hv.1⟩
    rw [hl]
    exact u16_lt _


theorem set_parm_soft_no_break (tc : tty_consts) (fs : ftdi_sio) (sc : uftdi_softc)
    (t : termios) (cfg : uftdi_param_config)
    (hacc : (uftdi_set_parm_soft tc fs sc t cfg).1 = 0)
    (hb : fs.FTDI_SIO_SET_DATA_STOP_BITS_1 &&& fs.FTDI_SIO_SET_BREAK = 0 ∧
      fs.FTDI_SIO_SET_DATA_STOP_BITS_2 &&& fs.FTDI_SIO_SET_BREAK = 0 ∧
      fs.FTDI_SIO_SET_DATA_PARITY_NONE &&& fs.FTDI_SIO_SET_BREAK = 0 ∧
      fs.FTDI_SIO_SET_DATA_PARITY_ODD &&& fs.FTDI_SIO_SET_BREAK = 0 ∧
      fs.FTDI_SIO_SET_DATA_PARITY_EVEN &&& fs.FTDI_SIO_SET_BREAK = 0 ∧
      fs.FTDI_SIO_SET_DATA_BITS 5 &&& fs.FTDI_SIO_SET_BREAK = 0 ∧
      fs.FTDI_SIO_SET_DATA_BITS 6 &&& fs.FTDI_SIO_SET_BREAK = 0 ∧
      fs.FTDI_SIO_SET_DATA_BITS 7 &&& fs.FTDI_SIO_SET_BREAK = 0 ∧
      fs.FTDI_SIO_SET_DATA_BITS 8 &&& fs.FTDI_SIO_SET_BREAK = 0) :
    (uftdi_set_parm_soft tc fs sc t cfg).2.lcr &&& fs.FTDI_SIO_SET_BREAK = 0 := by
  obtain ⟨b1, b2, b3, b4, b5, b6, b7, b8, b9⟩ := hb
  rw [set_parm_soft_lcr tc fs sc t cfg hacc]
  apply u16_and_eq_zero
  apply or_and_eq_zero
  · apply or_and_eq_zero
    · split <;> assumption
    · split
      · split <;> assumption
      · assumption
  · split_ifs
    · assumption
    · assumption
    · assumption
    · assumption
    · exact Nat.zero_and _

theorem usetw2_of_lt (b1 b0 : Nat) (h1 : b1 < 256) (h0 : b0 < 256) :
    USETW2 b1 b0 = b0 + 256 * b1 ∧ USETW2 b1 b0 % 256 = b0 ∧ USETW2 b1 b0 / 256 = b1 := by
  unfold USETW2
  rw [u8_of_lt b0 h0, u8_of_lt b1 h1]
  omega

/-- The result of `uftdi_cfg_param` for an accepted setting. -/
theorem cfg_param_accept (tc : tty_consts) (fs : ftdi_sio) (sc : uftdi_softc) (t : termios)
    (cfg : uftdi_param_config) (hacc : (uftdi_set_parm_soft tc fs sc t cfg).1 = 0) :
    uftdi_cfg_param tc fs sc t cfg =
      ({ sc with sc_last_lcr := (uftdi_set_parm_soft tc fs sc t cfg).2.lcr },
        [{ bmRequestType := u8 fs.UT_WRITE_VENDOR_DEVICE,
           bRequest := u8 fs.FTDI_SIO_SET_BAUD_RATE,
           wValue := (uftdi_set_parm_soft tc fs sc t cfg).2.baud_lobits,
           wIndex := (uftdi_set_parm_soft tc fs sc t cfg).2.baud_hibits |||
             u16 sc.sc_ucom.sc_portno,
           wLength := 0 },
         { bmRequestType := u8 fs.UT_WRITE_VENDOR_DEVICE,
           bRequest := u8 fs.FTDI_SIO_SET_DATA,
           wValue := (uftdi_set_parm_soft tc fs sc t cfg).2.lcr,
           wIndex := u16 sc.sc_ucom.sc_portno,
           wLength := 0 },
         { bmRequestType := u8 fs.UT_WRITE_VENDOR_DEVICE,
           bRequest := u8 fs.FTDI_SIO_SET_FLOW_CTRL,
           wValue := (uftdi_set_parm_soft tc fs sc t cfg).2.v_start +
             256 * (uftdi_set_parm_soft tc fs sc t cfg).2.v_stop,
           wIndex := u8 sc.sc_ucom.sc_portno +
             256 * (uftdi_set_parm_soft tc fs sc t cfg).2.v_flow,
           wLength := 0 }]) := by
  have h : ¬ (uftdi_set_parm_soft tc fs sc t cfg).1 ≠ 0 := not_not.mpr hacc
  obtain ⟨-, -, hlo, hhi, hlcr, hstart, hstop, hflow⟩ :=
    set_parm_soft_ranges tc fs sc t cfg hacc
  have hor : (uftdi_set_parm_soft tc fs sc t cfg).2.baud_hibits ||| u16 sc.sc_ucom.sc_portno
      < 2 ^ 16 := Nat.or_lt_two_pow (by norm_num; exact hhi) (by norm_num; exact u16_lt _)
  have hor2 : u16 ((uftdi_set_parm_soft tc fs sc t cfg).2.baud_hibits |||
      u16 sc.sc_ucom.sc_portno) =
      (uftdi_set_parm_soft tc fs sc t cfg).2.baud_hibits ||| u16 sc.sc_ucom.sc_portno :=
    u16_of_lt _ (by norm_num at hor; exact hor)
  unfold uftdi_cfg_param
  simp only [h, if_false, USETW, USETW2, u16_of_lt _ hlo, u16_of_lt _ hlcr,
    u8_of_lt _ hstart, u8_of_lt _ hstop, u8_of_lt _ hflow, hor2]
  have e : u8 (u16 sc.sc_ucom.sc_portno) = u8 sc.sc_ucom.sc_portno := by
    unfold u8 u16; omega
  have e0 : u16 0 = 0 := rfl
  have euu : u16 (u16 sc.sc_ucom.sc_portno) = u16 sc.sc_ucom.sc_portno := by
    unfold u16; omega
  rw [e, e0, euu]

theorem cfg_param_reject (tc : tty_consts) (fs : ftdi_sio) (sc : uftdi_softc) (t : termios)
    (cfg : uftdi_param_config) (h : (uftdi_set_parm_soft tc fs sc t cfg).1 ≠ 0) :
    uftdi_cfg_param tc fs sc t cfg = (sc, []) := by
  unfold uftdi_cfg_param
  simp only [h, if_true, ne_eq, not_false_eq_true]

theorem set_parm_soft_last_lcr (tc : tty_consts) (fs : ftdi_sio) (sc : uftdi_softc)
    (t : termios) (cfg : uftdi_param_config) (x : Nat) :
    uftdi_set_parm_soft tc fs { sc with sc_last_lcr := x } t cfg =
      uftdi_set_parm_soft tc fs sc t cfg := rfl

/-- Claim C35: `uftdi_cfg_param` either does nothing or applies one whole
configuration.  When `uftdi_set_parm_soft` rejects the settings (exactly when
`uftdi_pre_param` returns non-zero) the softc, with `sc_last_lcr`, is returned
unchanged and no request is issued.  When it accepts them, `sc_last_lcr`
becomes the computed `lcr`, nothing else in the softc changes, and exactly
three requests are issued in order: set-baud-rate with value `baud_lobits` and
index `baud_hibits | port`, set-data with value `lcr`, and set-flow-control
with `v_start` and `v_stop` in the low and high byte of the value and `v_flow`
in the high byte of the index, all taken from that one configuration; the
contents of the local configuration record beforehand do not matter. -/
theorem cfg_param_atomic (tc : tty_consts) (fs : ftdi_sio) (sc : uftdi_softc) (t : termios)
    (cfg : uftdi_param_config) :
    (if (uftdi_set_parm_soft tc fs sc t cfg).1 ≠ 0 then
      uftdi_cfg_param tc fs sc t cfg = (sc, []) ∧
      uftdi_pre_param tc fs sc t cfg ≠ 0
     else
      uftdi_pre_param tc fs sc t cfg = 0 ∧
      uftdi_cfg_param tc fs sc t cfg =
        ({ sc with sc_last_lcr := (uftdi_set_parm_soft tc fs sc t cfg).2.lcr },
          [{ bmRequestType := u8 fs.UT_WRITE_VENDOR_DEVICE,
             bRequest := u8 fs.FTDI_SIO_SET_BAUD_RATE,
             wValue := (uftdi_set_parm_soft tc fs sc t cfg).2.baud_lobits,
             wIndex := (uftdi_set_parm_soft tc fs sc t cfg).2.baud_hibits |||
               u16 sc.sc_ucom.sc_portno,
             wLength := 0 },
           { bmRequestType := u8 fs.UT_WRITE_VENDOR_DEVICE,
             bRequest := u8 fs.FTDI_SIO_SET_DATA,
             wValue := (uftdi_set_parm_soft tc fs sc t cfg).2.lcr,
             wIndex := u16 sc.sc_ucom.sc_portno,
             wLength := 0 },
           { bmRequestType := u8 fs.UT_WRITE_VENDOR_DEVICE,
             bRequest := u8 fs.FTDI_SIO_SET_FLOW_CTRL,
             wValue := (uftdi_set_parm_soft tc fs sc t cfg).2.v_start +
               256 * (uftdi_set_parm_soft tc fs sc t cfg).2.v_stop,
             wIndex := u8 sc.sc_ucom.sc_portno +
               256 * (uftdi_set_parm_soft tc fs sc t cfg).2.v_flow,
             wLength := 0 }]) ∧
      (∀ cfg', uftdi_cfg_param tc fs sc t cfg' = uftdi_cfg_param tc fs sc t cfg)) := by
  by_cases h : (uftdi_set_parm_soft tc fs sc t cfg).1 ≠ 0
  · rw [if_pos h]
    exact ⟨cfg_param_reject tc fs sc t cfg h, h⟩
  · rw [if_neg h]
    exact ⟨not_not.mp h, cfg_param_accept tc fs sc t cfg (not_not.mp h), fun cfg' => rfl⟩

/-- Claim C36: a successful reconfiguration discards the break state.  For
every softc, whatever its remembered `sc_last_lcr`, and every accepted termios
setting, after `uftdi_cfg_param` the remembered `sc_last_lcr` has the break
bit clear, and so has the value of the set-data request, which is that same
word; the result does not depend on the previous `sc_last_lcr`, in particular
not on a preceding `uftdi_cfg_set_break`.  The stop-bits, parity and data-bits
codes of uftdi_reg.h are taken not to contain the break bit. -/
theorem cfg_param_clears_break (tc : tty_consts) (fs : ftdi_sio) (sc : uftdi_softc) (t : termios)
    (cfg : uftdi_param_config)
    (hacc : (uftdi_set_parm_soft tc fs sc t cfg).1 = 0)
    (hb : fs.FTDI_SIO_SET_DATA_STOP_BITS_1 &&& fs.FTDI_SIO_SET_BREAK = 0 ∧
      fs.FTDI_SIO_SET_DATA_STOP_BITS_2 &&& fs.FTDI_SIO_SET_BREAK = 0 ∧
      fs.FTDI_SIO_SET_DATA_PARITY_NONE &&& fs.FTDI_SIO_SET_BREAK = 0 ∧
      fs.FTDI_SIO_SET_DATA_PARITY_ODD &&& fs.FTDI_SIO_SET_BREAK = 0 ∧
      fs.FTDI_SIO_SET_DATA_PARITY_EVEN &&& fs.FTDI_SIO_SET_BREAK = 0 ∧
      fs.FTDI_SIO_SET_DATA_BITS 5 &&& fs.FTDI_SIO_SET_BREAK = 0 ∧
      fs.FTDI_SIO_SET_DATA_BITS 6 &&& fs.FTDI_SIO_SET_BREAK = 0 ∧
      fs.FTDI_SIO_SET_DATA_BITS 7 &&& fs.FTDI_SIO_SET_BREAK = 0 ∧
      fs.FTDI_SIO_SET_DATA_BITS 8 &&& fs.FTDI_SIO_SET_BREAK = 0) :
    (uftdi_cfg_param tc fs sc t cfg).1.sc_last_lcr &&& fs.FTDI_SIO_SET_BREAK = 0 ∧
    (∃ r1 r2 r3, (uftdi_cfg_param tc fs sc t cfg).2 = [r1, r2, r3] ∧
      r2.bRequest = u8 fs.FTDI_SIO_SET_DATA ∧
      r2.wValue = (uftdi_cfg_param tc fs sc t cfg).1.sc_last_lcr ∧
      r2.wValue &&& fs.FTDI_SIO_SET_BREAK = 0) ∧
    (uftdi_cfg_param tc fs sc t cfg).1.sc_last_lcr =
      (uftdi_cfg_param tc fs { sc with sc_last_lcr := 0 } t cfg).1.sc_last_lcr ∧
    (∀ onoff,
      (uftdi_cfg_param tc fs (uftdi_cfg_set_break fs sc onoff).1 t cfg).1.sc_last_lcr &&&
        fs.FTDI_SIO_SET_BREAK = 0) := by
  have hl := set_parm_soft_no_break tc fs sc t cfg hacc hb
  have hca := cfg_param_accept tc fs sc t cfg hacc
  have hany : ∀ x, (uftdi_cfg_param tc fs { sc with sc_last_lcr := x } t cfg).1.sc_last_lcr =
      (uftdi_set_parm_soft tc fs sc t cfg).2.lcr := by
    intro x
    rw [cfg_param_accept tc fs { sc with sc_last_lcr := x } t cfg
      (by rw [set_parm_soft_last_lcr]; exact hacc), set_parm_soft_last_lcr]
  refine ⟨by rw [hca]; exact hl, ⟨_, _, _, by rw [hca], rfl, by rw [hca], hl⟩, ?_, ?_⟩
  · rw [hany 0, hca]
  · intro onoff
    rw [(set_break_lcr fs sc onoff).1, hany]
    exact hl

theorem cfg_param_clears_break_witness :
    ((uftdi_cfg_set_break sio_sample softc_232b 1).1.sc_last_lcr &&&
      sio_sample.FTDI_SIO_SET_BREAK = 0x4000) ∧
    (uftdi_cfg_param tty_sample sio_sample (uftdi_cfg_set_break sio_sample softc_232b 1).1
      (termios_of 0x200 0x1700 9600) cfg_zero).1.sc_last_lcr &&&
      sio_sample.FTDI_SIO_SET_BREAK = 0 :=
  ⟨by decide, (cfg_param_clears_break tty_sample sio_sample (uftdi_cfg_set_break sio_sample softc_232b 1).1
    (termios_of 0x200 0x1700 9600) cfg_zero (by decide) (by decide)).1⟩

/-! ### Latency and ioctl dispatch -/

/-- Claim C37: `uftdi_set_latency` returns `USB_ERR_INVAL` without issuing a
request for every latency below 0 or above 255, and `uftdi_ioctl` then returns
EIO for `UFTDIIOC_SET_LATENCY` (`USB_ERR_INVAL` differs from
`USB_ERR_NORMAL_COMPLETION`); for a latency in 0..255 it issues one
set-latency request whose value word is the latency, with the latency in the
low byte and 0 in the high byte, and `uftdi_ioctl` returns EIO or 0 according
to the status of that request; an unrecognised command returns ENOIOCTL, with
no request and the argument block untouched. -/
theorem set_latency_range_check (fs : ftdi_sio) (io : uftdi_ioc) (dev : usb_device) (sc : uftdi_softc)
    (data : ioctl_data) (n : Nat)
    (hne : io.USB_ERR_INVAL ≠ io.USB_ERR_NORMAL_COMPLETION) :
    (if data.ival < 0 ∨ data.ival > 255 then
      uftdi_set_latency fs io dev sc data.ival = ( io.USB_ERR_INVAL, []) ∧
      uftdi_ioctl fs io dev sc uftdi_cmd.UFTDIIOC_SET_LATENCY data = ( io.EIO, data, [])
     else
      ∃ req : usb_device_request,
        uftdi_set_latency fs io dev sc data.ival = ((dev req).1, [req]) ∧
        req.bmRequestType = u8 fs.UT_WRITE_VENDOR_DEVICE ∧
        req.bRequest = u8 io.FTDI_SIO_SET_LATENCY ∧
        req.wIndex = u16 sc.sc_ucom.sc_portno ∧
        req.wLength = 0 ∧
        (req.wValue : Int) = data.ival ∧
        (req.wValue % 256 : Int) = data.ival ∧
        req.wValue / 256 = 0 ∧
        uftdi_ioctl fs io dev sc uftdi_cmd.UFTDIIOC_SET_LATENCY data =
          (if (dev req).1 ≠ io.USB_ERR_NORMAL_COMPLETION then io.EIO else 0, data, [req])) ∧
    uftdi_ioctl fs io dev sc (uftdi_cmd.other n) data = ( io.ENOIOCTL, data, []) := by
  refine ⟨?_, rfl⟩
  by_cases h : data.ival < 0 ∨ data.ival > 255
  · rw [if_pos h]
    have hs : uftdi_set_latency fs io dev sc data.ival = ( io.USB_ERR_INVAL, []) := by
      unfold uftdi_set_latency
      rw [if_pos h]
    refine ⟨hs, ?_⟩
    simp only [uftdi_ioctl, hs, ne_eq, hne, not_false_eq_true, if_true]
  · rw [if_neg h]
    have hlo : 0 ≤ data.ival := by omega
    have hhi : data.ival ≤ 255 := by omega
    obtain ⟨k, hk⟩ := Int.eq_ofNat_of_zero_le hlo
    have hk255 : k ≤ 255 := by omega
    have hv : USETW2 0 (data.ival % 256).toNat = k := by
      rw [hk]
      unfold USETW2 u8
      have : ((k : Int) % 256).toNat = k := by omega
      rw [this]
      omega
    have hs : uftdi_set_latency fs io dev sc data.ival =
        ((dev { bmRequestType := u8 fs.UT_WRITE_VENDOR_DEVICE,
                bRequest := u8 io.FTDI_SIO_SET_LATENCY,
                wValue := k, wIndex := u16 sc.sc_ucom.sc_portno, wLength := 0 }).1,
          [{ bmRequestType := u8 fs.UT_WRITE_VENDOR_DEVICE,
             bRequest := u8 io.FTDI_SIO_SET_LATENCY,
             wValue := k, wIndex := u16 sc.sc_ucom.sc_portno, wLength := 0 }]) := by
      unfold uftdi_set_latency
      rw [if_neg h]
      simp only [hv, USETW]
      rfl
    refine ⟨_, hs, rfl, rfl, rfl, rfl, ?_, ?_, ?_, ?_⟩
    · simp only; omega
    · simp only; omega
    · simp only; omega
    · simp only [uftdi_ioctl, hs]
      split <;> rfl

theorem set_latency_range_check_witness :
    uftdi_set_latency sio_sample ioc_sample device_ok softc_232b 256 = (3, []) ∧
    uftdi_ioctl sio_sample ioc_sample device_ok softc_232b uftdi_cmd.UFTDIIOC_SET_LATENCY
      { mode := 0, iomask := 0, ival := 256 } = (5, { mode := 0, iomask := 0, ival := 256 }, []) ∧
    uftdi_ioctl sio_sample ioc_sample device_ok softc_232b (uftdi_cmd.other 7)
      { mode := 0, iomask := 0, ival := 256 } =
      (-3, { mode := 0, iomask := 0, ival := 256 }, []) := by
  have h := set_latency_range_check sio_sample ioc_sample device_ok softc_232b
    { mode := 0, iomask := 0, ival := 256 } 7 (by decide)
  rw [if_pos (by decide)] at h
  exact ⟨h.1.1, h.1.2, h.2⟩

end Uftdi
